import Mathlib

/-!
# Blood pressure / heart-rate measuring device

A model of `src/Embedded Challenge/src/main.cpp`, the single translation unit of the
device firmware, and theorems about it.

Modelling conventions.

* A `float` or `double` value is the rational number it denotes (`ℚ`), and an operation of
  the source whose rounding can change what the program does is rounded to the nearest
  `float` or `double` as IEEE 754 prescribes (`roundBinary`; the exponent range is not
  modelled, the values are far from its limits): the conversion of line 117, the difference
  `pre_pressure - pressure[i]` of lines 132-133 and 263, the thresholds of the two band
  searches (lines 152-153, 215-216, 235-236) and the BPM computation of lines 188-189.
  Comparisons of a pressure with an integer constant are exact in `float`; the rate test of
  line 140 is taken in exact arithmetic.
* The global arrays `pressure[1500]` and `fluactuation[1500]` have static storage, so they
  start filled with zeros.  An array is a function `Nat → ℚ` together with an explicit bounds
  check at every access of the source; an access outside `0 .. 1499` is undefined behaviour
  in C++ and ends the run in `Step.fault`.
* One iteration of `while (1)` is `tick`.  `Get_Data()` is the input: a run is driven by the
  list of raw sensor codes that successive calls return (`run`), or of the pressures stored
  in `pressure[i]` (`runP`).
* `lcd.DisplayStringAt(0, LINE(n), text, CENTER_MODE)` appends the event `⟨n, text⟩` to the
  display log `State.lcd`.  Text colour, `printf` output, the `sprintf` formatting buffer and
  `thread_sleep_for` are not modelled.
* The three scanning loops of the analysis step take a fuel argument so that they are
  structurally recursive; `Scan.timeout` (fuel exhausted) is shown never to be produced.
-/

namespace BPDevice

/-! ## Data -/

/-- Number of elements of `pressure` and of `fluactuation`. -/
def CAP : Nat := 1500

/-- A global `float` array, indexed from 0; only indices below `CAP` exist in the source. -/
abbrev Buf := Nat → ℚ

/-- The assignment `a[i] = v`. -/
def store (a : Buf) (i : Nat) (v : ℚ) : Buf := fun k => if k = i then v else a k

/-! ## Floating-point rounding -/

/-- Conversion of a `float` to `int`: truncation toward zero. -/
def truncate (q : ℚ) : Int := if 0 ≤ q then ⌊q⌋ else ⌈q⌉

/-- Number of binary digits of `n`, for `n ≤ fuel`. -/
def binaryDigits : Nat → Nat → Nat
  | 0, _ => 0
  | fuel + 1, n => if n = 0 then 0 else binaryDigits fuel (n / 2) + 1

/-- The power `2 ^ e` of an integer exponent. -/
def pow2 (e : Int) : ℚ :=
  if 0 ≤ e then ((2 ^ e.toNat : Nat) : ℚ) else 1 / ((2 ^ (-e).toNat : Nat) : ℚ)

/-- The binary exponent of a positive rational: the `e` with `2 ^ e ≤ q < 2 ^ (e + 1)`. -/
def ilog2 (q : ℚ) : Int :=
  let e0 : Int :=
    (binaryDigits q.num.natAbs q.num.natAbs : Int) - (binaryDigits q.den q.den : Int)
  if q < pow2 e0 then e0 - 1 else e0

/-- Rounding to the nearest integer, ties to the even one. -/
def roundHalfEven (m : ℚ) : Int :=
  if m - ⌊m⌋ < 1 / 2 then ⌊m⌋
  else if 1 / 2 < m - ⌊m⌋ then ⌊m⌋ + 1
  else if ⌊m⌋ % 2 = 0 then ⌊m⌋ else ⌊m⌋ + 1

/-- Rounding to the nearest binary floating-point number with `prec` significant bits, ties
to even (the IEEE 754 default rounding), without bounds on the exponent. -/
def roundBinary (prec : Nat) (q : ℚ) : ℚ :=
  if q = 0 then 0
  else if 0 < q then
    (roundHalfEven (q / pow2 (ilog2 q - (prec - 1))) : ℚ) * pow2 (ilog2 q - (prec - 1))
  else
    -((roundHalfEven (-q / pow2 (ilog2 (-q) - (prec - 1))) : ℚ) * pow2 (ilog2 (-q) - (prec - 1)))

/-- Rounding to `float` (IEEE 754 binary32, 24 significant bits). -/
def toFloat (q : ℚ) : ℚ := roundBinary 24 q

/-- Rounding to `double` (IEEE 754 binary64, 53 significant bits). -/
def toDouble (q : ℚ) : ℚ := roundBinary 53 q

/-! ## The sensor and the conversion to pressure -/

/-- Lines 64-76 (`Get_Data`): the raw code assembled from the bytes 1, 2, 3 of `data_buf`,
whose elements are `uint8_t`. -/
def Get_Data (data_buf : Nat → Nat) : Nat :=
  (((data_buf 1 % 256) <<< 16) ||| ((data_buf 2 % 256) <<< 8)) ||| (data_buf 3 % 256)

/-- Source constant `max_output` (output at 22.5 %). -/
def max_output : ℚ := 37748736 / 10

/-- Source constant `min_output` (output at 2.5 %). -/
def min_output : ℚ := 419425

/-- Line 117 as the program computes it:
`((float)sensor_data - min_output) * 300 / (max_output - min_output)`, where the two
constants are `float` objects and each operation is a `float` operation. -/
def convertFloat (sensor_data : Nat) : ℚ :=
  toFloat (toFloat (toFloat (toFloat (sensor_data : ℚ) - toFloat min_output) * 300) /
    toFloat (toFloat max_output - toFloat min_output))

/-- The strings handed to `lcd.DisplayStringAt`. -/
inductive Text
  /-- The string "Release valve slowly". -/
  | releaseValve
  /-- The string "  Too fast  ". -/
  | tooFast
  /-- The string "  Measuring..  ". -/
  | measuring
  /-- The string "     Final Result:     ". -/
  | finalResult
  /-- The formatted string "  BPM = %d/min  ". -/
  | bpm (n : Int)
  /-- The formatted string "  DBP = %3.2fmmHg  ". -/
  | dbp (p : ℚ)
  /-- The formatted string "  SBP = %3.2fmmHg  ". -/
  | sbp (p : ℚ)
  /-- The string "  Test Fail!  ". -/
  | testFail
  /-- The formatted string "  Pressure= %3.2fmmHg  ". -/
  | pressure (p : ℚ)
  deriving DecidableEq

/-- One call `lcd.DisplayStringAt(0, LINE(line), text, CENTER_MODE)`. -/
structure Event where
  line : Nat
  text : Text
  deriving DecidableEq

/-- The global variables of the program, the loop counter `i` of `main`, and the display log. -/
structure State where
  i : Nat
  inflate_flag : Bool
  pre_pressure : ℚ
  pressure : Buf
  fluactuation : Buf
  global_min : ℚ
  argmin : Nat
  arg_pressure : ℚ
  dp : ℚ
  sp : ℚ
  lcd : List Event

/-- The initial values of the globals (lines 82-107) and `int i = 0`. -/
def init : State where
  i := 0
  inflate_flag := true
  pre_pressure := 0
  pressure := fun _ => 0
  fluactuation := fun _ => 0
  global_min := 100000
  argmin := 0
  arg_pressure := 0
  dp := 0
  sp := 0
  lcd := []

/-- Append one display event. -/
def display (s : State) (line : Nat) (t : Text) : State :=
  { s with lcd := s.lcd ++ [⟨line, t⟩] }

/-- Result of one of the scanning loops of the analysis step. -/
inductive Scan (α : Type)
  /-- The loop was left normally. -/
  | ok (a : α)
  /-- The loop read an array element outside `0 .. CAP-1`. -/
  | fault
  /-- The fuel of the model ran out. -/
  | timeout
  deriving DecidableEq

/-- Result of one iteration of `while (1)`. -/
inductive Step
  /-- The iteration ran to its end; the loop goes on with the next sample. -/
  | next (s : State)
  /-- The iteration left the loop through `break`. -/
  | halt (s : State)
  /-- The iteration accessed an array outside its bounds. -/
  | fault (s : State)
  /-- The fuel of the model ran out. -/
  | timeout (s : State)

/-- The state carried by a step result. -/
def Step.state : Step → State
  | .next s => s
  | .halt s => s
  | .fault s => s
  | .timeout s => s

/-! ## BPM estimation (lines 166-189) -/

/-- Lines 179-181: `while (fluactuation[m] < 0) m++;`, returning the final `m`. -/
def skipNegative (fl : Buf) : Nat → Nat → Scan Nat
  | 0, _ => .timeout
  | fuel + 1, m =>
    if m < CAP then
      if fl m < 0 then skipNegative fl fuel (m + 1) else .ok m
    else .fault

/-- Lines 171-184: `while (T_number < 10) ...`, returning `(start_index, m)` at loop exit. -/
def bpmLoop (fl : Buf) : Nat → Nat → Nat → Int → Scan (Int × Nat)
  | 0, _, _, _ => .timeout
  | fuel + 1, m, T_number, start_index =>
    if T_number < 10 then
      if m < CAP then
        if fl m < 0 then
          match skipNegative fl (CAP + 1) m with
          | .ok m1 =>
            bpmLoop fl fuel (m1 + 1) (T_number + 1)
              (if start_index = -1 then (m : Int) else start_index)
          | .fault => .fault
          | .timeout => .timeout
        else bpmLoop fl fuel (m + 1) T_number start_index
      else .fault
    else .ok (start_index, m)

/-- Line 188: `float time = (end_index - start_index) * 0.04;`.  The difference is an `int`,
`0.04` is a `double` literal, the product is a `double`, stored in a `float`. -/
def elapsed (start_index end_index : Int) : ℚ :=
  toFloat (toDouble (((end_index - start_index : Int) : ℚ) * toDouble 0.04))

/-- Line 189: `int bpm = (10 / time) * 60 * 0.9;`.  `10 / time` and its product with `60` are
`float` operations, the product with the `double` literal `0.9` is a `double` operation, and
the result is truncated. -/
def bpmOf (time : ℚ) : Int :=
  truncate (toDouble (toFloat (toFloat (10 / time) * 60) * toDouble 0.9))

/-! ## DBP and SBP search (lines 213-250) -/

/-- Line 152: `float dp_flc = global_min * 0.75;`, a `double` product stored in a `float`. -/
def dp_flc (global_min : ℚ) : ℚ := toFloat (toDouble (global_min * toDouble 0.75))

/-- Line 153: `float sp_flc = global_min * 0.45;`, a `double` product stored in a `float`. -/
def sp_flc (global_min : ℚ) : ℚ := toFloat (toDouble (global_min * toDouble 0.45))

/-- The test of lines 215-216.  The products `dp_flc * 1.2` and `dp_flc * 0.8` are `double`
operations, and the fluctuation is compared with them as a `double`. -/
def dbpAccept (pr fl : Buf) (dp_flc : ℚ) (j : Nat) : Prop :=
  fl j < 0 ∧ fl j > toDouble (dp_flc * toDouble 1.2) ∧ fl j < toDouble (dp_flc * toDouble 0.8) ∧
    pr j > 55 ∧ pr j < 85

instance (pr fl : Buf) (dp_flc : ℚ) (j : Nat) : Decidable (dbpAccept pr fl dp_flc j) := by
  unfold dbpAccept; infer_instance

/-- The test of lines 235-236, with `double` products as in the DBP test. -/
def sbpAccept (pr fl : Buf) (sp_flc : ℚ) (j : Nat) : Prop :=
  fl j < 0 ∧ fl j > toDouble (sp_flc * toDouble 1.2) ∧ fl j < toDouble (sp_flc * toDouble 0.8) ∧
    pr j > 85 ∧ pr j < 125

instance (pr fl : Buf) (sp_flc : ℚ) (j : Nat) : Decidable (sbpAccept pr fl sp_flc j) := by
  unfold sbpAccept; infer_instance

/-- Lines 214-225: `for (j = argmin; pressure[j] > 50; j++)`, returning the final `j` and
whether the loop was left through the `break` of line 223. -/
def dbpScan (pr fl : Buf) (dp_flc : ℚ) : Nat → Nat → Scan (Nat × Bool)
  | 0, _ => .timeout
  | fuel + 1, j =>
    if j < CAP then
      if pr j > 50 then
        if dbpAccept pr fl dp_flc j then .ok (j, true)
        else dbpScan pr fl dp_flc fuel (j + 1)
      else .ok (j, false)
    else .fault

/-- Lines 234-245: `for (j = argmin; pressure[j] < 170; j--)`, returning the final `j` and
whether the loop was left through the `break` of line 243.  The recursion is on `j` itself:
from `j = 0` the decrement gives `-1` and the loop condition reads `pressure[-1]`, which is
outside the array. -/
def sbpScan (pr fl : Buf) (sp_flc : ℚ) : Nat → Scan (Nat × Bool)
  | 0 =>
    if pr 0 < 170 then
      if sbpAccept pr fl sp_flc 0 then .ok (0, true) else .fault
    else .ok (0, false)
  | j + 1 =>
    if j + 1 < CAP then
      if pr (j + 1) < 170 then
        if sbpAccept pr fl sp_flc (j + 1) then .ok (j + 1, true)
        else sbpScan pr fl sp_flc j
      else .ok (j + 1, false)
    else .fault

/-- Lines 233-253, entered after a DBP search that did not fail. -/
def sbpStage (s : State) : Step :=
  match sbpScan s.pressure s.fluactuation (sp_flc s.global_min) s.argmin with
  | .ok (j, found) =>
    let s1 := if found then display { s with sp := s.pressure j } 11 (.sbp (s.pressure j)) else s
    if s1.pressure j ≥ 170 then .halt (display s1 11 .testFail) else .halt s1
  | .fault => .fault s
  | .timeout => .timeout s

/-- Lines 213-253, entered after the BPM line has been displayed. -/
def dbpStage (s : State) : Step :=
  match dbpScan s.pressure s.fluactuation (dp_flc s.global_min) (CAP + 1) s.argmin with
  | .ok (j, found) =>
    let s1 := if found then display { s with dp := s.pressure j } 10 (.dbp (s.pressure j)) else s
    if s1.pressure j ≤ 50 then .halt (display s1 10 .testFail) else sbpStage s1
  | .fault => .fault s
  | .timeout => .timeout s

/-- Lines 151-253: the body of `if (pressure[i] < 30)`. -/
def analysis (s : State) : Step :=
  let s1 := display s 8 .finalResult
  match bpmLoop s1.fluactuation (CAP + 1) s1.argmin 0 (-1) with
  | .ok (start_index, end_index) =>
    let time := elapsed start_index end_index
    if time = 0 then .fault s1
    else dbpStage (display s1 9 (.bpm (bpmOf time)))
  | .fault => .fault s1
  | .timeout => .timeout s1

/-! ## The sampling loop (lines 114-273) -/

/-- Lines 257-269: display of the current pressure, store of the fluctuation, capacity test. -/
def endOfTick (s : State) : Step :=
  let s1 := display s 1 (.pressure (s.pressure s.i))
  if s1.i < CAP then
    let s2 := { s1 with
      fluactuation := store s1.fluactuation s1.i (toFloat (s1.pre_pressure - s1.pressure s1.i)) }
    let s3 := { s2 with pre_pressure := s2.pressure s2.i }
    if s3.i > 1500 then .halt (display { s3 with i := s3.i + 1 } 11 .testFail)
    else .next { s3 with i := s3.i + 1 }
  else .fault s1

/-- Lines 123-126: the test `pressure[i] > 150` that ends the inflation phase. -/
def phaseCheck (s : State) : State :=
  if s.pressure s.i > 150 then display { s with inflate_flag := false } 3 .releaseValve
  else s

/-- Lines 132-136: capture of the most negative fluctuation below 170 mmHg.  The difference
`pre_pressure - pressure[i]` is a `float` operation. -/
def envelope (s : State) : State :=
  if s.pressure s.i < 170 ∧ toFloat (s.pre_pressure - s.pressure s.i) < s.global_min then
    { s with global_min := toFloat (s.pre_pressure - s.pressure s.i), argmin := s.i,
             arg_pressure := s.pressure s.i }
  else s

/-- Lines 140-145: the deflation-rate message. -/
def rateMonitor (s : State) : State :=
  if 25 * (s.pressure s.i - s.pre_pressure) > 4 then display s 5 .tooFast
  else display s 5 .measuring

/-- Lines 129-255: the body of `if (!inflate_flag)`, followed by the rest of the iteration. -/
def deflating (s : State) : Step :=
  let s1 := rateMonitor (envelope s)
  if s1.pressure s1.i < 30 then analysis s1 else endOfTick s1

/-- One iteration of `while (1)` in which the converted sample is `p`. -/
def tickP (p : ℚ) (s : State) : Step :=
  if s.i < CAP then
    let s1 := phaseCheck { s with pressure := store s.pressure s.i p }
    if !s1.inflate_flag then deflating s1 else endOfTick s1
  else .fault s

/-- One iteration of `while (1)` in which `Get_Data()` returns `sensor_data`. -/
def tick (sensor_data : Nat) (s : State) : Step := tickP (convertFloat sensor_data) s

/-- The loop `while (1)` driven by the given converted samples, from state `s`. -/
def runP : List ℚ → State → Step
  | [], s => .next s
  | p :: ps, s =>
    match tickP p s with
    | .next s1 => runP ps s1
    | r => r

/-- The program run on the raw sensor codes returned by successive calls of `Get_Data()`. -/
def run (data : List Nat) : Step := runP (data.map convertFloat) init

/-! ## Notions used to state the properties -/

/-- Number of maximal runs of negative values among `fl k, fl (k+1), ..., fl (k+n-1)`;
`prevNeg` tells whether the value before `fl k` belongs to a run already counted. -/
def negRunsAux (fl : Buf) : Nat → Nat → Bool → Nat
  | 0, _, _ => 0
  | n + 1, k, prevNeg =>
    (if fl k < 0 ∧ prevNeg = false then 1 else 0) + negRunsAux fl n (k + 1) (decide (fl k < 0))

/-- Number of maximal runs of negative fluctuations within the indices `lo .. hi-1`. -/
def negRuns (fl : Buf) (lo hi : Nat) : Nat := negRunsAux fl (hi - lo) lo false

/-- Whether the loop goes on after this step. -/
def Step.isNext : Step → Bool
  | .next _ => true
  | _ => false

/-- Whether the loop was left through `break`. -/
def Step.isHalt : Step → Bool
  | .halt _ => true
  | _ => false

/-- Whether the step accessed an array outside its bounds. -/
def Step.isFault : Step → Bool
  | .fault _ => true
  | _ => false

/-- A sample that qualifies as DBP for the program: negative fluctuation strictly between
the bounds `dp_flc * 1.2` and `dp_flc * 0.8` as the program computes them, pressure strictly
between 55 and 85. -/
def DbpQualifies (st : State) (j : Nat) : Prop :=
  st.fluactuation j < 0 ∧
    toDouble (dp_flc st.global_min * toDouble 1.2) < st.fluactuation j ∧
    st.fluactuation j < toDouble (dp_flc st.global_min * toDouble 0.8) ∧
    55 < st.pressure j ∧ st.pressure j < 85

instance (st : State) (j : Nat) : Decidable (DbpQualifies st j) := by
  unfold DbpQualifies; infer_instance

/-- A sample that qualifies as DBP in exact arithmetic: negative fluctuation strictly between
`1.2 * (0.75 * global_min)` and `0.8 * (0.75 * global_min)`, pressure strictly between 55
and 85. -/
def DbpQualifiesExact (st : State) (j : Nat) : Prop :=
  st.fluactuation j < 0 ∧ 1.2 * (0.75 * st.global_min) < st.fluactuation j ∧
    st.fluactuation j < 0.8 * (0.75 * st.global_min) ∧ 55 < st.pressure j ∧ st.pressure j < 85

instance (st : State) (j : Nat) : Decidable (DbpQualifiesExact st j) := by
  unfold DbpQualifiesExact; infer_instance

/-- Index `j` is the first qualifying DBP sample of the forward scan from `argmin`, met while
every pressure from `argmin` to `j` is above 50. -/
def DbpFirst (st : State) (j : Nat) : Prop :=
  st.argmin ≤ j ∧ (∀ k, st.argmin ≤ k → k ≤ j → 50 < st.pressure k) ∧ DbpQualifies st j ∧
    ∀ k, st.argmin ≤ k → k < j → ¬ DbpQualifies st k

/-- A sample that qualifies as SBP for the program: negative fluctuation strictly between
the bounds `sp_flc * 1.2` and `sp_flc * 0.8` as the program computes them, pressure strictly
between 85 and 125. -/
def SbpQualifies (st : State) (j : Nat) : Prop :=
  st.fluactuation j < 0 ∧
    toDouble (sp_flc st.global_min * toDouble 1.2) < st.fluactuation j ∧
    st.fluactuation j < toDouble (sp_flc st.global_min * toDouble 0.8) ∧
    85 < st.pressure j ∧ st.pressure j < 125

instance (st : State) (j : Nat) : Decidable (SbpQualifies st j) := by
  unfold SbpQualifies; infer_instance

/-- A sample that qualifies as SBP in exact arithmetic: negative fluctuation strictly between
`1.2 * (0.45 * global_min)` and `0.8 * (0.45 * global_min)`, pressure strictly between 85
and 125. -/
def SbpQualifiesExact (st : State) (j : Nat) : Prop :=
  st.fluactuation j < 0 ∧ 1.2 * (0.45 * st.global_min) < st.fluactuation j ∧
    st.fluactuation j < 0.8 * (0.45 * st.global_min) ∧ 85 < st.pressure j ∧ st.pressure j < 125

instance (st : State) (j : Nat) : Decidable (SbpQualifiesExact st j) := by
  unfold SbpQualifiesExact; infer_instance

/-- Index `j` is the first qualifying SBP sample of the backward scan from `argmin`, met while
every pressure from `argmin` down to `j` is below 170. -/
def SbpFirst (st : State) (j : Nat) : Prop :=
  j ≤ st.argmin ∧ (∀ k, j ≤ k → k ≤ st.argmin → st.pressure k < 170) ∧ SbpQualifies st j ∧
    ∀ k, j < k → k ≤ st.argmin → ¬ SbpQualifies st k

/-- The pressure before sample `k` of the stream `ps`: sample `k - 1`, and 0 (the initial
`pre_pressure`) before the first sample. -/
def prevSample (ps : List ℚ) (k : Nat) : ℚ := if k = 0 then 0 else ps.getD (k - 1) 0

/-- The fluctuation of sample `k` of the stream `ps`: previous pressure minus pressure, as a
`float` operation. -/
def fluctOf (ps : List ℚ) (k : Nat) : ℚ := toFloat (prevSample ps k - ps.getD k 0)

/-- Sample `k` of the stream `ps` is a DEFLATING tick with pressure below 170: some sample up
to and including `k` exceeded 150, and sample `k` is below 170. -/
def Tracked (ps : List ℚ) (k : Nat) : Prop :=
  k < ps.length ∧ (∃ m, m ≤ k ∧ 150 < ps.getD m 0) ∧ ps.getD k 0 < 170

/-- The envelope values `global_min`, `argmin`, `arg_pressure` that the stream `ps` calls for:
the initial values when no sample is tracked; otherwise `argmin` is a tracked sample,
`global_min` is its fluctuation and `arg_pressure` its pressure, no tracked sample has a
smaller fluctuation, and none with the same fluctuation comes earlier. -/
def EnvSpec (ps : List ℚ) (gm : ℚ) (am : Nat) (ap : ℚ) : Prop :=
  ((¬ ∃ k, Tracked ps k) → gm = 100000 ∧ am = 0 ∧ ap = 0) ∧
  ((∃ k, Tracked ps k) →
    Tracked ps am ∧ gm = fluctOf ps am ∧ ap = ps.getD am 0 ∧
    ∀ k, Tracked ps k → gm ≤ fluctOf ps k ∧ (fluctOf ps k = gm → am ≤ k))

/-- The state in which the deflation branch tests `pressure[i] < 30`, when the converted
sample is `p` and the iteration started in `s`. -/
def beforeAnalysis (p : ℚ) (s : State) : State :=
  rateMonitor (envelope (phaseCheck { s with pressure := store s.pressure s.i p }))

/-- The state at the end of the phase test and, in the DEFLATING phase, of the envelope and
rate steps: the state in which the iteration either enters the analysis step or ends. -/
def midTick (p : ℚ) (s : State) : State :=
  if s.inflate_flag = true ∧ p ≤ 150 then
    phaseCheck { s with pressure := store s.pressure s.i p }
  else beforeAnalysis p s

/-- Every sample is a pressure a 24-bit sensor code can give: between -40000 and 40000. -/
def Bounded (ps : List ℚ) : Prop := ∀ x ∈ ps, -40000 < x ∧ x < 40000

/-- The run of negative fluctuations met by a scan that stands at `m`: the fluctuations of
`m .. s-1` are not negative, those of `s .. t-1` are negative and that of `t` is not. -/
def NextRun (fl : Buf) (m s t : Nat) : Prop :=
  m ≤ s ∧ s < t ∧ (∀ k, m ≤ k → k < s → ¬ fl k < 0) ∧ (∀ k, s ≤ k → k < t → fl k < 0) ∧
    ¬ fl t < 0

/-- Successive runs `(s, t)` of negative fluctuations: the first is the run met from `m`,
each further one is the run met from one past the index `t` that ended the one before. -/
def RunsFrom (fl : Buf) : Nat → List (Nat × Nat) → Prop
  | _, [] => True
  | m, (s, t) :: rest => NextRun fl m s t ∧ RunsFrom fl (t + 1) rest

/-- One past the index that ended the last run of the list, `m` for the empty list. -/
def scanEnd : Nat → List (Nat × Nat) → Nat
  | m, [] => m
  | _, (_, t) :: rest => scanEnd (t + 1) rest

/-- The value of `start_index` after the runs of the list have been counted. -/
def startOf (start_index : Int) : List (Nat × Nat) → Int
  | [] => start_index
  | (s, _) :: _ => if start_index = -1 then (s : Int) else start_index

/-! ### Sample inputs

Raw sensor codes; the comments give the converted pressures, rounded. -/

/-- Pressures 100, 149, 175, 100, 101, 95, 97, 70, 71.5, then 45, 46 eight times, then 20:
a complete measurement. -/
def goodData : List Nat :=
  [1537908, 2085964, 2376770, 1537908, 1549093, 1481984, 1504353, 1202363, 1219140,
   922742, 933927, 922742, 933927, 922742, 933927, 922742, 933927,
   922742, 933927, 922742, 933927, 922742, 933927, 922742, 933927, 643122]

/-- Pressures 100, 149, 175, 100, 101, 95, 97, 70, 69, then 45, 46 nine times, then 20:
as `goodData`, without a sample that qualifies as DBP. -/
def dbpFailData : List Nat :=
  [1537908, 2085964, 2376770, 1537908, 1549093, 1481984, 1504353, 1202363, 1191178,
   922742, 933927, 922742, 933927, 922742, 933927, 922742, 933927, 922742, 933927,
   922742, 933927, 922742, 933927, 922742, 933927, 922742, 933927, 643122]

/-- Pressures 100, 149.5, 150.5, 100, 100.2, 95, 97, 70, 71.5, then 45, 46 eight times,
then 20: the cuff is inflated to just above 150 mmHg, never to 170 mmHg. -/
def lowPeakData : List Nat :=
  [1537908, 2091557, 2102742, 1537908, 1540145, 1481984, 1504353, 1202363, 1219140,
   922742, 933927, 922742, 933927, 922742, 933927, 922742, 933927,
   922742, 933927, 922742, 933927, 922742, 933927, 922742, 933927, 643122]

/-- Pressures 160, 100, 20: a deflation without pulses. -/
def shortData : List Nat := [2208998, 1537908, 643122]

/-- The rate message chosen at a sample `p` that follows the sample `prev`. -/
def rateText (prev p : ℚ) : Text := if 25 * (p - prev) > 4 then .tooFast else .measuring

/-- What is known of the state once the samples `ps` have been processed and the loop goes on. -/
structure Inv (ps : List ℚ) (s : State) : Prop where
  i_eq : s.i = ps.length
  i_le : s.i ≤ CAP
  pre_eq : s.pre_pressure = ps.getLastD 0
  pr_eq : ∀ k, s.pressure k = ps.getD k 0
  flag_iff : s.inflate_flag = true ↔ ∀ x ∈ ps, x ≤ 150
  argmin_le : s.argmin ≤ s.i
  fl_zero : ∀ k, s.i ≤ k → s.fluactuation k = 0
  log : ∀ e ∈ s.lcd, e.line = 1 ∨ e.line = 3 ∨ e.line = 5
  advisory : s.lcd.count (⟨3, .releaseValve⟩ : Event) = (ps.filter (fun x => 150 < x)).length
  no_low : ∀ k m, m ≤ k → k < ps.length → 150 < ps.getD m 0 → 30 ≤ ps.getD k 0

/-- What is known of the state in which the analysis step is entered. -/
structure AtAnalysis (s : State) : Prop where
  i_lt : s.i < CAP
  low : s.pressure s.i < 30
  argmin_le : s.argmin ≤ s.i
  fl_zero : ∀ k, s.i ≤ k → s.fluactuation k = 0
  log : ∀ e ∈ s.lcd, e.line = 1 ∨ e.line = 3 ∨ e.line = 5

/-- Fluctuations that alternate between -1 and 1: a run of length one at every even index. -/
def alternating : Buf := fun k => if k % 2 = 0 then -1 else 1

/-- Pressures of a run in which no tracked fluctuation is negative: the cuff is at 175 at
the first sample and then at 160, swings ten times between 180 and 175, and is then let
down to 20. -/
def steadyData : List ℚ :=
  [175, 160, 180, 175, 180, 175, 180, 175, 180, 175, 180, 175, 180, 175, 180, 175, 180, 175,
   180, 175, 180, 175, 20]

/-- Pressures of a run with a pulse of period 3 whose fluctuation is negative at two samples
of each period: 100, 149, 175, 120, then 121, 122, 120 ten times, then 20. -/
def twoDownData : List ℚ :=
  [100, 149, 175, 120,
   121, 122, 120, 121, 122, 120, 121, 122, 120, 121, 122, 120, 121, 122, 120,
   121, 122, 120, 121, 122, 120, 121, 122, 120, 121, 122, 120, 121, 122, 120, 20]

/-- Pressures of a run with a pulse of period 3 whose fluctuation is negative at one sample
of each period: 100, 149, 175, 120, then 122, 121, 120 ten times, then 20. -/
def oneDownData : List ℚ :=
  [100, 149, 175, 120,
   122, 121, 120, 122, 121, 120, 122, 121, 120, 122, 121, 120, 122, 121, 120,
   122, 121, 120, 122, 121, 120, 122, 121, 120, 122, 121, 120, 122, 121, 120, 20]

/-- Pressures of a run with a pulse of period 3 whose fluctuation is negative at two samples
of each period, the second one larger: 100, 149, 175, 120, then 121, 124, 120 eleven times,
then 20. -/
def midRunData : List ℚ :=
  [100, 149, 175, 120,
   121, 124, 120, 121, 124, 120, 121, 124, 120, 121, 124, 120, 121, 124, 120, 121, 124, 120,
   121, 124, 120, 121, 124, 120, 121, 124, 120, 121, 124, 120, 121, 124, 120, 20]

/-- Offset of `start_index` from `argmin` when the fluctuations are periodic from `argmin`
on, in periods of `P` samples that begin with `L` negative ones, `argmin` being sample `c`
of its period: `argmin` itself when it lies in the run, else the start of the next
period. -/
def firstRunStart (P L c : Nat) : Nat := if c < L then 0 else P - c

/-- Length of the first run of negative fluctuations that the scan counts: what remains of
the run at `argmin`, or a whole run. -/
def firstRunLength (L c : Nat) : Nat := if c < L then L - c else L

/-- Index `j` is the first sample of the forward scan from `argmin`, met while every pressure
from `argmin` to `j` is above 50, that qualifies as DBP in exact arithmetic. -/
def DbpFirstExact (st : State) (j : Nat) : Prop :=
  st.argmin ≤ j ∧ (∀ k, k ≤ j → st.argmin ≤ k → 50 < st.pressure k) ∧ DbpQualifiesExact st j ∧
    ∀ k, k < j → st.argmin ≤ k → ¬ DbpQualifiesExact st k

instance (st : State) (j : Nat) : Decidable (DbpFirstExact st j) := by
  unfold DbpFirstExact; infer_instance

/-- Index `j` is the first sample of the backward scan from `argmin`, met while every
pressure from `argmin` down to `j` is below 170, that qualifies as SBP in exact
arithmetic. -/
def SbpFirstExact (st : State) (j : Nat) : Prop :=
  j ≤ st.argmin ∧ (∀ k, k ≤ st.argmin → j ≤ k → st.pressure k < 170) ∧
    SbpQualifiesExact st j ∧ ∀ k, k ≤ st.argmin → j < k → ¬ SbpQualifiesExact st k

instance (st : State) (j : Nat) : Decidable (SbpFirstExact st j) := by
  unfold SbpFirstExact; infer_instance

/-- Raw codes of the pressures 100, 175, 63.9, 110.2, 52.7, 80.5, then 45, 46 nine times,
then 20: the fluctuation of the sixth sample lies at the upper bound of the DBP window. -/
def dbpEdgeData : List Nat :=
  [1537908, 2376770, 1133961, 1651381, 1009345, 1319797,
   922742, 933927, 922742, 933927, 922742, 933927, 922742, 933927, 922742, 933927,
   922742, 933927, 922742, 933927, 922742, 933927, 922742, 933927, 643122]

/-- Raw codes of the pressures 92.4, 114.7, 156.0, 52, 82, then 45, 46 eight times, then 20:
the fluctuation of the second sample lies at the lower bound of the SBP window. -/
def sbpEdgeData : List Nat :=
  [1453285, 1702725, 2164651, 1001036, 1336581,
   922742, 933927, 922742, 933927, 922742, 933927, 922742, 933927,
   922742, 933927, 922742, 933927, 922742, 933927, 922742, 933927, 643122]

/-! ## Basic facts about the components of one iteration -/

theorem store_self (a : Buf) (i : Nat) (v : ℚ) : store a i v i = v := by
  simp [store]

theorem store_other (a : Buf) (i k : Nat) (v : ℚ) (h : k ≠ i) : store a i v k = a k := by
  simp [store, h]

theorem endOfTick_eq (s : State) (h : s.i < CAP) :
    endOfTick s = .next
      { s with lcd := s.lcd ++ [⟨1, .pressure (s.pressure s.i)⟩],
               fluactuation := store s.fluactuation s.i (toFloat (s.pre_pressure - s.pressure s.i)),
               pre_pressure := s.pressure s.i,
               i := s.i + 1 } := by
  have h2 : ¬ s.i > 1500 := by unfold CAP at h; omega
  simp [endOfTick, display, h, h2]

theorem phaseCheck_i (s : State) : (phaseCheck s).i = s.i := by
  unfold phaseCheck; split <;> rfl

theorem phaseCheck_pressure (s : State) : (phaseCheck s).pressure = s.pressure := by
  unfold phaseCheck; split <;> rfl

theorem phaseCheck_fluactuation (s : State) : (phaseCheck s).fluactuation = s.fluactuation := by
  unfold phaseCheck; split <;> rfl

theorem phaseCheck_pre (s : State) : (phaseCheck s).pre_pressure = s.pre_pressure := by
  unfold phaseCheck; split <;> rfl

theorem phaseCheck_argmin (s : State) : (phaseCheck s).argmin = s.argmin := by
  unfold phaseCheck; split <;> rfl

theorem phaseCheck_global_min (s : State) : (phaseCheck s).global_min = s.global_min := by
  unfold phaseCheck; split <;> rfl

theorem phaseCheck_flag (s : State) :
    (phaseCheck s).inflate_flag = (s.inflate_flag && !decide (s.pressure s.i > 150)) := by
  unfold phaseCheck; split <;> simp_all [display]

theorem phaseCheck_lcd (s : State) :
    (phaseCheck s).lcd = s.lcd ++ (if s.pressure s.i > 150 then [⟨3, .releaseValve⟩] else []) := by
  unfold phaseCheck; split <;> simp_all [display]

theorem envelope_i (s : State) : (envelope s).i = s.i := by
  unfold envelope; split <;> rfl

theorem envelope_pressure (s : State) : (envelope s).pressure = s.pressure := by
  unfold envelope; split <;> rfl

theorem envelope_fluactuation (s : State) : (envelope s).fluactuation = s.fluactuation := by
  unfold envelope; split <;> rfl

theorem envelope_pre (s : State) : (envelope s).pre_pressure = s.pre_pressure := by
  unfold envelope; split <;> rfl

theorem envelope_flag (s : State) : (envelope s).inflate_flag = s.inflate_flag := by
  unfold envelope; split <;> rfl

theorem envelope_lcd (s : State) : (envelope s).lcd = s.lcd := by
  unfold envelope; split <;> rfl

theorem envelope_argmin_le (s : State) (h : s.argmin ≤ s.i) : (envelope s).argmin ≤ s.i := by
  unfold envelope; split
  · exact le_refl _
  · exact h

theorem rateMonitor_i (s : State) : (rateMonitor s).i = s.i := by
  unfold rateMonitor; split <;> rfl

theorem rateMonitor_pressure (s : State) : (rateMonitor s).pressure = s.pressure := by
  unfold rateMonitor; split <;> rfl

theorem rateMonitor_fluactuation (s : State) : (rateMonitor s).fluactuation = s.fluactuation := by
  unfold rateMonitor; split <;> rfl

theorem rateMonitor_pre (s : State) : (rateMonitor s).pre_pressure = s.pre_pressure := by
  unfold rateMonitor; split <;> rfl

theorem rateMonitor_flag (s : State) : (rateMonitor s).inflate_flag = s.inflate_flag := by
  unfold rateMonitor; split <;> rfl

theorem rateMonitor_argmin (s : State) : (rateMonitor s).argmin = s.argmin := by
  unfold rateMonitor; split <;> rfl

theorem rateMonitor_global_min (s : State) : (rateMonitor s).global_min = s.global_min := by
  unfold rateMonitor; split <;> rfl

theorem rateMonitor_lcd (s : State) :
    (rateMonitor s).lcd = s.lcd ++
      [⟨5, if 25 * (s.pressure s.i - s.pre_pressure) > 4 then .tooFast else .measuring⟩] := by
  unfold rateMonitor; split <;> simp_all [display]

/-! ## The scanning loops -/

theorem skipNegative_ne_timeout (fl : Buf) :
    ∀ (fuel m : Nat), 0 < fuel → CAP < m + fuel → skipNegative fl fuel m ≠ .timeout := by
  intro fuel
  induction fuel with
  | zero => intro m h0; omega
  | succ n ih =>
    intro m _ h
    simp only [skipNegative]
    split
    · split
      · exact ih (m + 1) (by omega) (by omega)
      · simp
    · simp

theorem skipNegative_ok (fl : Buf) :
    ∀ (fuel m m1 : Nat), skipNegative fl fuel m = .ok m1 →
      m ≤ m1 ∧ m1 < CAP ∧ ¬ fl m1 < 0 ∧ ∀ k, m ≤ k → k < m1 → fl k < 0 := by
  intro fuel
  induction fuel with
  | zero => intro m m1 h; simp [skipNegative] at h
  | succ n ih =>
    intro m m1 h
    simp only [skipNegative] at h
    split at h
    · rename_i hm
      split at h
      · rename_i hneg
        obtain ⟨h1, h2, h3, h4⟩ := ih (m + 1) m1 h
        refine ⟨by omega, h2, h3, ?_⟩
        intro k hk1 hk2
        rcases Nat.eq_or_lt_of_le hk1 with e | l
        · subst e; exact hneg
        · exact h4 k l hk2
      · rename_i hneg
        simp only [Scan.ok.injEq] at h
        subst h
        exact ⟨le_refl _, hm, hneg, fun k hk1 hk2 => absurd hk2 (by omega)⟩
    · simp at h

theorem skipNegative_fault (fl : Buf) :
    ∀ (fuel m : Nat), skipNegative fl fuel m = .fault → ∀ k, m ≤ k → k < CAP → fl k < 0 := by
  intro fuel
  induction fuel with
  | zero => intro m h; simp [skipNegative] at h
  | succ n ih =>
    intro m h
    simp only [skipNegative] at h
    split at h
    · split at h
      · rename_i hneg
        intro k hk1 hk2
        rcases Nat.eq_or_lt_of_le hk1 with e | l
        · subst e; exact hneg
        · exact ih (m + 1) h k l hk2
      · simp at h
    · intro k hk1 hk2; omega

theorem dbpScan_ne_timeout (pr fl : Buf) (c : ℚ) :
    ∀ (fuel j : Nat), 0 < fuel → CAP < j + fuel → dbpScan pr fl c fuel j ≠ .timeout := by
  intro fuel
  induction fuel with
  | zero => intro j h0; omega
  | succ n ih =>
    intro j _ h
    simp only [dbpScan]
    split
    · split
      · split
        · simp
        · exact ih (j + 1) (by omega) (by omega)
      · simp
    · simp

theorem dbpScan_ok (pr fl : Buf) (c : ℚ) :
    ∀ (fuel j j1 : Nat) (b : Bool), dbpScan pr fl c fuel j = .ok (j1, b) →
      j ≤ j1 ∧ j1 < CAP ∧ (∀ k, j ≤ k → k < j1 → pr k > 50 ∧ ¬ dbpAccept pr fl c k) ∧
      (b = true → pr j1 > 50 ∧ dbpAccept pr fl c j1) ∧ (b = false → pr j1 ≤ 50) := by
  intro fuel
  induction fuel with
  | zero => intro j j1 b h; simp [dbpScan] at h
  | succ n ih =>
    intro j j1 b h
    simp only [dbpScan] at h
    split at h
    · rename_i hj
      split at h
      · rename_i hp
        split at h
        · rename_i hacc
          simp only [Scan.ok.injEq, Prod.mk.injEq] at h
          obtain ⟨e1, e2⟩ := h
          subst e1; subst e2
          exact ⟨le_refl _, hj, fun k hk1 hk2 => absurd hk2 (by omega), fun _ => ⟨hp, hacc⟩,
            fun hb => by simp at hb⟩
        · rename_i hacc
          obtain ⟨h1, h2, h3, h4, h5⟩ := ih (j + 1) j1 b h
          refine ⟨by omega, h2, ?_, h4, h5⟩
          intro k hk1 hk2
          rcases Nat.eq_or_lt_of_le hk1 with e | l
          · subst e; exact ⟨hp, hacc⟩
          · exact h3 k l hk2
      · rename_i hp
        simp only [Scan.ok.injEq, Prod.mk.injEq] at h
        obtain ⟨e1, e2⟩ := h
        subst e1; subst e2
        exact ⟨le_refl _, hj, fun k hk1 hk2 => absurd hk2 (by omega), fun hb => by simp at hb,
          fun _ => not_lt.mp hp⟩
    · simp at h

theorem dbpScan_fault (pr fl : Buf) (c : ℚ) :
    ∀ (fuel j : Nat), dbpScan pr fl c fuel j = .fault → ∀ k, j ≤ k → k < CAP → pr k > 50 := by
  intro fuel
  induction fuel with
  | zero => intro j h; simp [dbpScan] at h
  | succ n ih =>
    intro j h
    simp only [dbpScan] at h
    split at h
    · split at h
      · rename_i hp
        split at h
        · simp at h
        · intro k hk1 hk2
          rcases Nat.eq_or_lt_of_le hk1 with e | l
          · subst e; exact hp
          · exact ih (j + 1) h k l hk2
      · simp at h
    · intro k hk1 hk2; omega

theorem sbpScan_ne_timeout (pr fl : Buf) (c : ℚ) :
    ∀ (j : Nat), sbpScan pr fl c j ≠ .timeout := by
  intro j
  induction j with
  | zero =>
    simp only [sbpScan]
    split
    · split <;> simp
    · simp
  | succ n ih =>
    simp only [sbpScan]
    split
    · split
      · split
        · simp
        · exact ih
      · simp
    · simp

theorem sbpScan_ok (pr fl : Buf) (c : ℚ) :
    ∀ (j j1 : Nat) (b : Bool), sbpScan pr fl c j = .ok (j1, b) →
      j1 ≤ j ∧ (∀ k, j1 < k → k ≤ j → pr k < 170 ∧ ¬ sbpAccept pr fl c k) ∧
      (b = true → pr j1 < 170 ∧ sbpAccept pr fl c j1) ∧ (b = false → pr j1 ≥ 170) := by
  intro j
  induction j with
  | zero =>
    intro j1 b h
    simp only [sbpScan] at h
    split at h
    · rename_i hp
      split at h
      · rename_i hacc
        simp only [Scan.ok.injEq, Prod.mk.injEq] at h
        obtain ⟨e1, e2⟩ := h
        subst e1; subst e2
        exact ⟨le_refl _, fun k hk1 hk2 => absurd hk1 (by omega), fun _ => ⟨hp, hacc⟩,
          fun hb => by simp at hb⟩
      · simp at h
    · rename_i hp
      simp only [Scan.ok.injEq, Prod.mk.injEq] at h
      obtain ⟨e1, e2⟩ := h
      subst e1; subst e2
      exact ⟨le_refl _, fun k hk1 hk2 => absurd hk1 (by omega), fun hb => by simp at hb,
        fun _ => not_lt.mp hp⟩
  | succ n ih =>
    intro j1 b h
    simp only [sbpScan] at h
    split at h
    · split at h
      · rename_i hp
        split at h
        · rename_i hacc
          simp only [Scan.ok.injEq, Prod.mk.injEq] at h
          obtain ⟨e1, e2⟩ := h
          subst e1; subst e2
          exact ⟨le_refl _, fun k hk1 hk2 => absurd hk1 (by omega), fun _ => ⟨hp, hacc⟩,
            fun hb => by simp at hb⟩
        · rename_i hacc
          obtain ⟨h1, h2, h3, h4⟩ := ih j1 b h
          refine ⟨by omega, ?_, h3, h4⟩
          intro k hk1 hk2
          rcases Nat.eq_or_lt_of_le hk2 with e | l
          · subst e; exact ⟨hp, hacc⟩
          · exact h2 k hk1 (by omega)
      · rename_i hp
        simp only [Scan.ok.injEq, Prod.mk.injEq] at h
        obtain ⟨e1, e2⟩ := h
        subst e1; subst e2
        exact ⟨le_refl _, fun k hk1 hk2 => absurd hk1 (by omega), fun hb => by simp at hb,
          fun _ => not_lt.mp hp⟩
    · simp at h

theorem sbpScan_fault (pr fl : Buf) (c : ℚ) :
    ∀ (j : Nat), j < CAP → sbpScan pr fl c j = .fault →
      ∀ k, k ≤ j → pr k < 170 ∧ ¬ sbpAccept pr fl c k := by
  intro j
  induction j with
  | zero =>
    intro _ h k hk
    have hk0 : k = 0 := by omega
    subst hk0
    simp only [sbpScan] at h
    split at h
    · rename_i hp
      split at h
      · simp at h
      · rename_i hacc; exact ⟨hp, hacc⟩
    · simp at h
  | succ n ih =>
    intro hn h k hk
    simp only [sbpScan] at h
    split at h
    · split at h
      · rename_i hp
        split at h
        · simp at h
        · rename_i hacc
          rcases Nat.eq_or_lt_of_le hk with e | l
          · subst e; exact ⟨hp, hacc⟩
          · exact ih (by omega) h k (by omega)
      · simp at h
    · omega

theorem skipNegative_stops (fl : Buf) (hi m : Nat) (hm : m ≤ hi) (hhi : hi < CAP)
    (hz : ¬ fl hi < 0) :
    ∃ m1, skipNegative fl (CAP + 1) m = .ok m1 ∧ m ≤ m1 ∧ m1 ≤ hi ∧ ¬ fl m1 < 0 ∧
      ∀ k, m ≤ k → k < m1 → fl k < 0 := by
  cases hs : skipNegative fl (CAP + 1) m with
  | timeout => exact absurd hs (skipNegative_ne_timeout fl _ _ (by omega) (by omega))
  | fault => exact absurd (skipNegative_fault fl _ _ hs hi hm hhi) hz
  | ok m1 =>
    obtain ⟨h1, _, h3, h4⟩ := skipNegative_ok fl _ _ _ hs
    refine ⟨m1, rfl, h1, ?_, h3, h4⟩
    by_contra hlt
    exact hz (h4 hi hm (by omega))

theorem negRuns_pos_lt (fl : Buf) (m hi : Nat) (h : 0 < negRuns fl m hi) : m < hi := by
  by_contra hge
  have e : hi - m = 0 := by omega
  simp [negRuns, e, negRunsAux] at h

theorem negRuns_step (fl : Buf) (m hi : Nat) (hneg : ¬ fl m < 0) :
    negRuns fl (m + 1) hi = negRuns fl m hi := by
  unfold negRuns
  rcases Nat.lt_or_ge m hi with h | h
  · have e : hi - m = (hi - (m + 1)) + 1 := by omega
    rw [e]
    simp [negRunsAux, hneg]
  · have e1 : hi - m = 0 := by omega
    have e2 : hi - (m + 1) = 0 := by omega
    simp [e1, e2, negRunsAux]

theorem negRunsAux_inside (fl : Buf) (hi m : Nat) :
    ∀ d, (∀ k, m ≤ k → k < m + d → fl k < 0) → m + d ≤ hi →
      negRunsAux fl (hi - m) m true = negRunsAux fl (hi - (m + d)) (m + d) true := by
  intro d
  induction d with
  | zero => intro _ _; rfl
  | succ n ih =>
    intro hneg hle
    rw [ih (fun k h1 h2 => hneg k h1 (by omega)) (by omega)]
    have e : hi - (m + n) = (hi - (m + (n + 1))) + 1 := by omega
    have hn : fl (m + n) < 0 := hneg (m + n) (by omega) (by omega)
    rw [e]
    simp [negRunsAux, hn, ← Nat.add_assoc]

theorem negRuns_run (fl : Buf) (m m1 hi : Nat) (hm : m < hi) (h1 : m < m1) (h2 : m1 ≤ hi)
    (hneg : ∀ k, m ≤ k → k < m1 → fl k < 0) (hstop : ¬ fl m1 < 0) :
    negRuns fl m hi = negRuns fl (m1 + 1) hi + 1 := by
  have hm0 : fl m < 0 := hneg m (le_refl _) h1
  have e : hi - m = (hi - (m + 1)) + 1 := by omega
  have step1 : negRuns fl m hi = negRunsAux fl (hi - (m + 1)) (m + 1) true + 1 := by
    unfold negRuns
    rw [e]
    simp [negRunsAux, hm0, Nat.add_comm]
  have step2 := negRunsAux_inside fl hi (m + 1) (m1 - (m + 1))
    (fun k hk1 hk2 => hneg k (by omega) (by omega)) (by omega)
  have e2 : m + 1 + (m1 - (m + 1)) = m1 := by omega
  rw [e2] at step2
  rw [step1, step2]
  unfold negRuns
  rcases Nat.lt_or_ge m1 hi with h | h
  · have e3 : hi - m1 = (hi - (m1 + 1)) + 1 := by omega
    rw [e3]
    simp [negRunsAux, hstop]
  · have e3 : hi - m1 = 0 := by omega
    have e4 : hi - (m1 + 1) = 0 := by omega
    simp [e3, e4, negRunsAux]

theorem bpmLoop_spec (fl : Buf) (hi : Nat) (hhi : hi < CAP) (hz : ∀ k, hi ≤ k → ¬ fl k < 0) :
    ∀ (fuel m T : Nat) (start : Int), 0 < fuel → CAP < m + fuel →
      (10 ≤ T + negRuns fl m hi →
        ∃ st e, bpmLoop fl fuel m T start = .ok (st, e) ∧ (m ≤ hi + 1 → e ≤ hi + 1)) ∧
      (T + negRuns fl m hi < 10 → bpmLoop fl fuel m T start = .fault) := by
  intro fuel
  induction fuel with
  | zero => intro m T start h0; omega
  | succ n ih =>
    intro m T start _ hfuel
    by_cases hT : T < 10
    · by_cases hm : m < CAP
      · have hn : 0 < n := by omega
        by_cases hneg : fl m < 0
        · have hmhi : m < hi := by
            by_contra hge
            exact hz m (by omega) hneg
          obtain ⟨m1, hs, hle1, hle2, hstop, hrun⟩ :=
            skipNegative_stops fl hi m (by omega) hhi (hz hi (le_refl _))
          have hlt : m < m1 := by
            rcases Nat.eq_or_lt_of_le hle1 with e | l
            · subst e; exact absurd hneg hstop
            · exact l
          have hcount := negRuns_run fl m m1 hi hmhi hlt hle2 hrun hstop
          have hrec := ih (m1 + 1) (T + 1) (if start = -1 then (m : Int) else start) hn
            (by omega)
          have heq : bpmLoop fl (n + 1) m T start =
              bpmLoop fl n (m1 + 1) (T + 1) (if start = -1 then (m : Int) else start) := by
            simp only [bpmLoop, hT, hm, hneg, hs, if_true]
          rw [heq]
          constructor
          · intro h10
            obtain ⟨st, e, he, hb⟩ := hrec.1 (by omega)
            exact ⟨st, e, he, fun _ => hb (by omega)⟩
          · intro h10
            exact hrec.2 (by omega)
        · have hcount := negRuns_step fl m hi hneg
          have hrec := ih (m + 1) T start hn (by omega)
          have heq : bpmLoop fl (n + 1) m T start = bpmLoop fl n (m + 1) T start := by
            simp only [bpmLoop, hT, hm, hneg, if_true, if_false]
          rw [heq, ← hcount]
          constructor
          · intro h10
            obtain ⟨st, e, he, hb⟩ := hrec.1 h10
            refine ⟨st, e, he, fun _ => hb ?_⟩
            have := negRuns_pos_lt fl (m + 1) hi (by omega)
            omega
          · exact hrec.2
      · have h0 : negRuns fl m hi = 0 := by
          have e : hi - m = 0 := by omega
          simp [negRuns, e, negRunsAux]
        constructor
        · intro h10; omega
        · intro _
          simp only [bpmLoop, hT, hm, if_true, if_false]
    · constructor
      · intro _
        refine ⟨start, m, ?_, fun h => h⟩
        simp only [bpmLoop, hT, if_false]
      · intro h; omega

theorem bpmLoop_start_fixed (fl : Buf) :
    ∀ (fuel m T : Nat) (start st : Int) (e : Nat), start ≠ -1 →
      bpmLoop fl fuel m T start = .ok (st, e) → st = start ∧ m ≤ e := by
  intro fuel
  induction fuel with
  | zero => intro m T start st e _ h; simp [bpmLoop] at h
  | succ n ih =>
    intro m T start st e hs h
    simp only [bpmLoop] at h
    split at h
    · split at h
      · split at h
        · split at h
          · rename_i m1 hsk
            have hm1 := (skipNegative_ok fl _ _ _ hsk).1
            obtain ⟨h1, h2⟩ := ih _ _ _ _ _ hs h
            exact ⟨h1, by omega⟩
          · simp at h
          · simp at h
        · obtain ⟨h1, h2⟩ := ih _ _ _ _ _ hs h
          exact ⟨h1, by omega⟩
      · simp at h
    · simp only [Scan.ok.injEq, Prod.mk.injEq] at h
      exact ⟨h.1.symm, by omega⟩

theorem bpmLoop_ok_bounds (fl : Buf) :
    ∀ (fuel m : Nat) (st : Int) (e : Nat),
      bpmLoop fl fuel m 0 (-1) = .ok (st, e) → (m : Int) ≤ st ∧ st + 2 ≤ (e : Int) := by
  intro fuel
  induction fuel with
  | zero => intro m st e h; simp [bpmLoop] at h
  | succ n ih =>
    intro m st e h
    simp only [bpmLoop] at h
    split at h
    · split at h
      · split at h
        · rename_i hneg
          split at h
          · rename_i m1 hsk
            obtain ⟨hm1, _, hstop, _⟩ := skipNegative_ok fl _ _ _ hsk
            have hlt : m < m1 := by
              rcases Nat.eq_or_lt_of_le hm1 with e1 | l
              · subst e1; exact absurd hneg hstop
              · exact l
            simp only [if_true] at h
            obtain ⟨h1, h2⟩ := bpmLoop_start_fixed fl _ _ _ _ _ _ (by omega) h
            subst h1
            constructor
            · exact le_refl _
            · have : (m1 : Int) + 1 ≤ e := by exact_mod_cast h2
              have : (m : Int) < m1 := by exact_mod_cast hlt
              omega
          · simp at h
          · simp at h
        · obtain ⟨h1, h2⟩ := ih _ _ _ h
          constructor
          · have : ((m + 1 : Nat) : Int) = (m : Int) + 1 := by push_cast; rfl
            omega
          · exact h2
      · simp at h
    · rename_i h10
      simp at h10

theorem binaryDigits_spec : ∀ (fuel n : Nat), n ≤ fuel → 0 < n →
    2 ^ (binaryDigits fuel n - 1) ≤ n ∧ n < 2 ^ binaryDigits fuel n ∧ 0 < binaryDigits fuel n := by
  intro fuel
  induction fuel with
  | zero => intro n h1 h2; omega
  | succ f ih =>
    intro n h1 h2
    have hn : n ≠ 0 := by omega
    simp only [binaryDigits, hn, if_false]
    rcases Nat.eq_zero_or_pos (n / 2) with h | h
    · have h1n : n = 1 := by omega
      subst h1n
      have : binaryDigits f (1 / 2) = 0 := by
        cases f <;> simp [binaryDigits]
      simp [this]
    · obtain ⟨a, b, c⟩ := ih (n / 2) (by omega) h
      refine ⟨?_, ?_, by omega⟩
      · have e : binaryDigits f (n / 2) + 1 - 1 = (binaryDigits f (n / 2) - 1) + 1 := by omega
        rw [e, pow_succ]
        omega
      · rw [pow_succ]
        omega

theorem pow2_eq (e : Int) : pow2 e = (2 : ℚ) ^ e := by
  unfold pow2
  split
  · rename_i h
    obtain ⟨n, rfl⟩ := Int.eq_ofNat_of_zero_le h
    simp
  · rename_i h
    have hneg : 0 ≤ -e := by omega
    obtain ⟨n, hn⟩ := Int.eq_ofNat_of_zero_le hneg
    have he : e = -(n : Int) := by omega
    subst he
    simp

theorem pow2_pos (e : Int) : 0 < pow2 e := by
  rw [pow2_eq]; positivity

theorem pow2_ilog2_le (q : ℚ) (hq : 0 < q) : pow2 (ilog2 q) ≤ q := by
  unfold ilog2
  simp only
  split
  · rename_i hlt
    have hnum : 0 < q.num := Rat.num_pos.mpr hq
    have hn : 0 < q.num.natAbs := Int.natAbs_pos.mpr (ne_of_gt hnum)
    have hd : 0 < q.den := q.den_pos
    obtain ⟨a1, _, a3⟩ := binaryDigits_spec _ _ (le_refl q.num.natAbs) hn
    obtain ⟨_, b2, _⟩ := binaryDigits_spec _ _ (le_refl q.den) hd
    set bn := binaryDigits q.num.natAbs q.num.natAbs
    set bd := binaryDigits q.den q.den
    rw [pow2_eq]
    have hqe : q = (q.num.natAbs : ℚ) / (q.den : ℚ) := by
      have h1 : ((q.num.natAbs : Int) : ℚ) = (q.num : ℚ) := by
        rw [Int.natAbs_of_nonneg (le_of_lt hnum)]
      have h2 : ((q.num.natAbs : ℕ) : ℚ) = ((q.num.natAbs : Int) : ℚ) :=
        (Int.cast_natCast q.num.natAbs).symm
      rw [h2, h1]
      exact (Rat.num_div_den q).symm
    have e1 : ((bn : Int) - (bd : Int) - 1) = ((bn - 1 : Nat) : Int) - (bd : Int) := by omega
    rw [e1, zpow_sub₀ (by norm_num : (2 : ℚ) ≠ 0), zpow_natCast, zpow_natCast]
    rw [hqe]
    have hdq : (0 : ℚ) < (q.den : ℚ) := by exact_mod_cast hd
    have h2d : (0 : ℚ) < (2 : ℚ) ^ bd := by positivity
    rw [div_le_div_iff₀ h2d hdq]
    have A : ((2 : ℚ) ^ (bn - 1)) ≤ (q.num.natAbs : ℚ) := by exact_mod_cast a1
    have B : (q.den : ℚ) ≤ (2 : ℚ) ^ bd := by exact_mod_cast (le_of_lt b2)
    have hA0 : (0 : ℚ) ≤ (2 : ℚ) ^ (bn - 1) := by positivity
    calc (2 : ℚ) ^ (bn - 1) * (q.den : ℚ) ≤ (q.num.natAbs : ℚ) * (q.den : ℚ) :=
          mul_le_mul_of_nonneg_right A (le_of_lt hdq)
      _ ≤ (q.num.natAbs : ℚ) * (2 : ℚ) ^ bd :=
          mul_le_mul_of_nonneg_left B (by positivity)
  · rename_i hge
    exact not_lt.mp hge

theorem roundHalfEven_err (m : ℚ) : |(roundHalfEven m : ℚ) - m| ≤ 1 / 2 := by
  have h1 : (⌊m⌋ : ℚ) ≤ m := Int.floor_le m
  have h2 : m < (⌊m⌋ : ℚ) + 1 := Int.lt_floor_add_one m
  unfold roundHalfEven
  split
  · rename_i h
    rw [abs_le]; constructor <;> linarith
  · rename_i h
    split
    · rename_i h'
      push_cast
      rw [abs_le]; constructor <;> linarith
    · rename_i h'
      have e : m - ⌊m⌋ = 1 / 2 := le_antisymm (not_lt.mp h') (not_lt.mp h)
      split
      · rw [abs_le]; constructor <;> linarith
      · push_cast
        rw [abs_le]; constructor <;> linarith

theorem roundBinary_err (prec : Nat) (hp : 1 ≤ prec) (q : ℚ) (hq : 0 < q) :
    |roundBinary prec q - q| ≤ q / 2 ^ prec := by
  unfold roundBinary
  rw [if_neg (ne_of_gt hq), if_pos hq]
  set u := pow2 (ilog2 q - ((prec : Int) - 1)) with hu
  have hupos : 0 < u := pow2_pos _
  have hule : u * 2 ^ (prec - 1) ≤ q := by
    have := pow2_ilog2_le q hq
    rw [pow2_eq] at this
    rw [hu, pow2_eq]
    have e : ((prec : Int) - 1) = ((prec - 1 : Nat) : Int) := by omega
    rw [e, zpow_sub₀ (by norm_num : (2 : ℚ) ≠ 0), zpow_natCast]
    rw [div_mul_cancel₀ _ (by positivity)]
    exact this
  have herr := roundHalfEven_err (q / u)
  have key : (roundHalfEven (q / u) : ℚ) * u - q = ((roundHalfEven (q / u) : ℚ) - q / u) * u := by
    field_simp
  rw [key, abs_mul, abs_of_pos hupos]
  have h2 : (2 : ℚ) ^ prec = 2 * 2 ^ (prec - 1) := by
    have : prec = (prec - 1) + 1 := by omega
    conv_lhs => rw [this, pow_succ]
    ring
  rw [h2, le_div_iff₀ (by positivity)]
  calc |(roundHalfEven (q / u) : ℚ) - q / u| * u * (2 * 2 ^ (prec - 1))
      ≤ 1 / 2 * u * (2 * 2 ^ (prec - 1)) := by
        apply mul_le_mul_of_nonneg_right _ (by positivity)
        exact mul_le_mul_of_nonneg_right herr (le_of_lt hupos)
    _ = u * 2 ^ (prec - 1) := by ring
    _ ≤ q := hule

theorem roundBinary_pos (prec : Nat) (hp : 1 ≤ prec) (q : ℚ) (hq : 0 < q) :
    0 < roundBinary prec q := by
  have h := roundBinary_err prec hp q hq
  have h2 : (2 : ℚ) ≤ 2 ^ prec := by
    calc (2 : ℚ) = 2 ^ 1 := by norm_num
      _ ≤ 2 ^ prec := pow_le_pow_right₀ (by norm_num) hp
  have h3 : q / 2 ^ prec ≤ q / 2 := div_le_div_of_nonneg_left (le_of_lt hq) (by norm_num) h2
  have h4 := (abs_le.mp h).1
  linarith

theorem roundBinary_bounds (prec : Nat) (hp : 24 ≤ prec) (q : ℚ) (hq : 0 < q) :
    q * (1 - 1 / 1000000) ≤ roundBinary prec q ∧ roundBinary prec q ≤ q * (1 + 1 / 1000000) := by
  have h := abs_le.mp (roundBinary_err prec (by omega) q hq)
  have h2 : (1000000 : ℚ) ≤ 2 ^ prec := by
    calc (1000000 : ℚ) ≤ 2 ^ 24 := by norm_num
      _ ≤ 2 ^ prec := pow_le_pow_right₀ (by norm_num) hp
  have h3 : q / 2 ^ prec ≤ q / 1000000 :=
    div_le_div_of_nonneg_left (le_of_lt hq) (by norm_num) h2
  constructor <;> linarith [h.1, h.2]

theorem roundBinary_zero (prec : Nat) : roundBinary prec 0 = 0 := by
  simp [roundBinary]

theorem roundBinary_neg (prec : Nat) (q : ℚ) : roundBinary prec (-q) = -roundBinary prec q := by
  rcases lt_trichotomy q 0 with h | h | h
  · have h1 : (0 : ℚ) < -q := neg_pos.mpr h
    have e1 : roundBinary prec (-q) =
        (roundHalfEven (-q / pow2 (ilog2 (-q) - (prec - 1))) : ℚ) *
          pow2 (ilog2 (-q) - (prec - 1)) := by
      unfold roundBinary
      rw [if_neg (ne_of_gt h1), if_pos h1]
    have e2 : roundBinary prec q =
        -((roundHalfEven (-q / pow2 (ilog2 (-q) - (prec - 1))) : ℚ) *
          pow2 (ilog2 (-q) - (prec - 1))) := by
      unfold roundBinary
      rw [if_neg (ne_of_lt h), if_neg (not_lt.mpr (le_of_lt h))]
    rw [e1, e2, neg_neg]
  · subst h
    simp [roundBinary_zero]
  · have h1 : -q < 0 := neg_neg_of_pos h
    have e1 : roundBinary prec (-q) =
        -((roundHalfEven (- -q / pow2 (ilog2 (- -q) - (prec - 1))) : ℚ) *
          pow2 (ilog2 (- -q) - (prec - 1))) := by
      unfold roundBinary
      rw [if_neg (ne_of_lt h1), if_neg (not_lt.mpr (le_of_lt h1))]
    have e2 : roundBinary prec q =
        (roundHalfEven (q / pow2 (ilog2 q - (prec - 1))) : ℚ) *
          pow2 (ilog2 q - (prec - 1)) := by
      unfold roundBinary
      rw [if_neg (ne_of_gt h), if_pos h]
    rw [e1, e2, neg_neg]

theorem roundBinary_neg_of_neg (prec : Nat) (hp : 1 ≤ prec) (q : ℚ) (hq : q < 0) :
    roundBinary prec q < 0 := by
  have h := roundBinary_pos prec hp (-q) (neg_pos.mpr hq)
  rw [roundBinary_neg] at h
  linarith

theorem roundBinary_nonneg (prec : Nat) (hp : 1 ≤ prec) (q : ℚ) (hq : 0 ≤ q) :
    0 ≤ roundBinary prec q := by
  rcases eq_or_lt_of_le hq with h | h
  · rw [← h, roundBinary_zero]
  · exact le_of_lt (roundBinary_pos prec hp q h)

theorem roundBinary_bounds_neg (prec : Nat) (hp : 24 ≤ prec) (q : ℚ) (hq : q < 0) :
    q * (1 + 1 / 1000000) ≤ roundBinary prec q ∧ roundBinary prec q ≤ q * (1 - 1 / 1000000) := by
  have h := roundBinary_bounds prec hp (-q) (neg_pos.mpr hq)
  rw [roundBinary_neg] at h
  constructor <;> linarith [h.1, h.2]

theorem abs_roundBinary_le (prec : Nat) (hp : 24 ≤ prec) (q : ℚ) :
    |roundBinary prec q| ≤ |q| * (1 + 1 / 1000000) := by
  rcases lt_trichotomy q 0 with h | h | h
  · have h1 := roundBinary_bounds_neg prec hp q h
    have h2 := roundBinary_neg_of_neg prec (by omega) q h
    rw [abs_of_neg h2, abs_of_neg h]
    linarith [h1.1]
  · subst h
    simp [roundBinary_zero]
  · have h1 := roundBinary_bounds prec hp q h
    have h2 := roundBinary_pos prec (by omega) q h
    rw [abs_of_pos h2, abs_of_pos h]
    exact h1.2

theorem toFloat_lt (q : ℚ) (h : |q| < 80000) : toFloat q < 100000 := by
  have h1 := abs_roundBinary_le 24 (le_refl _) q
  have h2 : |toFloat q| < 100000 := by
    unfold toFloat
    calc |roundBinary 24 q| ≤ |q| * (1 + 1 / 1000000) := h1
      _ < 80000 * (1 + 1 / 1000000) := mul_lt_mul_of_pos_right h (by norm_num)
      _ < 100000 := by norm_num
  exact (abs_lt.mp h2).2

theorem toFloat_neg_of_neg (q : ℚ) (h : q < 0) : toFloat q < 0 :=
  roundBinary_neg_of_neg 24 (by norm_num) q h

theorem elapsed_pos (st : Int) (e : Nat) (h : st < (e : Int)) : 0 < elapsed st e := by
  unfold elapsed toFloat toDouble
  apply roundBinary_pos _ (by norm_num)
  apply roundBinary_pos _ (by norm_num)
  apply mul_pos
  · have : (0 : Int) < (e : Int) - st := by omega
    exact_mod_cast this
  · exact roundBinary_pos _ (by norm_num) _ (by norm_num)

theorem elapsed_ne_zero (st : Int) (e : Nat) (h : st + 2 ≤ (e : Int)) : elapsed st e ≠ 0 :=
  ne_of_gt (elapsed_pos st e (by omega))

/-! ## One iteration from a state reached by the loop -/

theorem init_inv : Inv [] init := by
  refine ⟨rfl, Nat.zero_le _, rfl, fun k => by simp [init], by simp [init], by simp [init],
    fun k _ => rfl,
    by simp [init], by simp [init], ?_⟩
  intro k m _ hk
  simp at hk

theorem tickP_eq (p : ℚ) (s : State) (h : s.i < CAP) :
    tickP p s =
      if s.inflate_flag = true ∧ p ≤ 150 then
        endOfTick (phaseCheck { s with pressure := store s.pressure s.i p })
      else if p < 30 then analysis (beforeAnalysis p s)
      else endOfTick (beforeAnalysis p s) := by
  unfold tickP beforeAnalysis
  simp only [h, if_true, deflating, rateMonitor_pressure, rateMonitor_i, envelope_pressure,
    envelope_i, phaseCheck_pressure, phaseCheck_i, phaseCheck_flag, store_self]
  by_cases hf : s.inflate_flag = true <;> by_cases hp : p ≤ 150 <;>
    simp [hf, hp, not_le.mp, not_lt.mpr]

theorem beforeAnalysis_lcd (p : ℚ) (s : State) :
    (beforeAnalysis p s).lcd =
      s.lcd ++ (if 150 < p then [⟨3, .releaseValve⟩] else []) ++ [⟨5, rateText s.pre_pressure p⟩] := by
  simp [beforeAnalysis, rateMonitor_lcd, envelope_lcd, phaseCheck_lcd, envelope_pressure,
    envelope_i, phaseCheck_pressure, phaseCheck_i, store_self, envelope_pre, phaseCheck_pre,
    rateText]

theorem beforeAnalysis_i (p : ℚ) (s : State) : (beforeAnalysis p s).i = s.i := by
  simp [beforeAnalysis, rateMonitor_i, envelope_i, phaseCheck_i]

theorem beforeAnalysis_pressure (p : ℚ) (s : State) :
    (beforeAnalysis p s).pressure = store s.pressure s.i p := by
  simp [beforeAnalysis, rateMonitor_pressure, envelope_pressure, phaseCheck_pressure]

theorem beforeAnalysis_fluactuation (p : ℚ) (s : State) :
    (beforeAnalysis p s).fluactuation = s.fluactuation := by
  simp [beforeAnalysis, rateMonitor_fluactuation, envelope_fluactuation, phaseCheck_fluactuation]

theorem beforeAnalysis_pre (p : ℚ) (s : State) :
    (beforeAnalysis p s).pre_pressure = s.pre_pressure := by
  simp [beforeAnalysis, rateMonitor_pre, envelope_pre, phaseCheck_pre]

theorem beforeAnalysis_flag (p : ℚ) (s : State) :
    (beforeAnalysis p s).inflate_flag = (s.inflate_flag && !decide (p > 150)) := by
  simp [beforeAnalysis, rateMonitor_flag, envelope_flag, phaseCheck_flag, store_self]

theorem beforeAnalysis_argmin_le (p : ℚ) (s : State) (h : s.argmin ≤ s.i) :
    (beforeAnalysis p s).argmin ≤ s.i := by
  unfold beforeAnalysis
  rw [rateMonitor_argmin]
  have := envelope_argmin_le (phaseCheck { s with pressure := store s.pressure s.i p })
    (by rw [phaseCheck_argmin, phaseCheck_i]; exact h)
  rw [phaseCheck_i] at this
  exact this

theorem count_advisory_append (l : List Event) (e : Event) :
    (l ++ [e]).count (⟨3, .releaseValve⟩ : Event) =
      l.count (⟨3, .releaseValve⟩ : Event) + (if e = ⟨3, .releaseValve⟩ then 1 else 0) := by
  rw [List.count_append]
  by_cases h : e = ⟨3, .releaseValve⟩
  · subst h; simp
  · have h2 : ¬ ((e == (⟨3, .releaseValve⟩ : Event)) = true) := by simpa using h
    simp [h, List.count_cons, h2]

theorem endOfTick_inv (ps : List ℚ) (p : ℚ) (x : State) (hi : x.i = ps.length)
    (hlt : ps.length < CAP) (hpr : ∀ k, x.pressure k = (ps ++ [p]).getD k 0)
    (hflag : x.inflate_flag = true ↔ ∀ y ∈ ps ++ [p], y ≤ 150) (hargmin : x.argmin ≤ x.i)
    (hfl : ∀ k, x.i ≤ k → x.fluactuation k = 0)
    (hlog : ∀ e ∈ x.lcd, e.line = 1 ∨ e.line = 3 ∨ e.line = 5)
    (hadv : x.lcd.count (⟨3, .releaseValve⟩ : Event) =
      ((ps ++ [p]).filter (fun y => 150 < y)).length)
    (hlow : ∀ m, m ≤ ps.length → 150 < (ps ++ [p]).getD m 0 → 30 ≤ p)
    (hold : ∀ k m, m ≤ k → k < ps.length → 150 < ps.getD m 0 → 30 ≤ ps.getD k 0) :
    ∃ s1, endOfTick x = .next s1 ∧ Inv (ps ++ [p]) s1 ∧
      s1.lcd = x.lcd ++ [⟨1, .pressure p⟩] := by
  have hxp : x.pressure x.i = p := by rw [hpr, hi]; simp
  refine ⟨_, endOfTick_eq x (by rw [hi]; exact hlt), ?_, by simp [hxp]⟩
  refine ⟨by simp [hi], ?_, by simp [hxp], hpr, hflag, ?_, ?_, ?_, ?_, ?_⟩
  · show x.i + 1 ≤ CAP
    omega
  · show x.argmin ≤ x.i + 1
    omega
  · intro k hk
    have hk2 : x.i + 1 ≤ k := hk
    show store x.fluactuation x.i _ k = 0
    rw [store_other _ _ _ _ (by omega)]
    exact hfl k (by omega)
  · intro e he
    have he2 : e ∈ x.lcd ++ [⟨1, .pressure (x.pressure x.i)⟩] := he
    rcases List.mem_append.mp he2 with h | h
    · exact hlog e h
    · simp at h; subst h; simp
  · show (x.lcd ++ [(⟨1, .pressure (x.pressure x.i)⟩ : Event)]).count
      (⟨3, .releaseValve⟩ : Event) = _
    rw [count_advisory_append, hadv]
    simp
  · intro k m hmk hk hm
    have hk2 : k < ps.length + 1 := by simpa using hk
    rcases Nat.lt_or_ge k ps.length with hlt2 | hge
    · rw [List.getD_append _ _ _ _ hlt2]
      rw [List.getD_append _ _ _ _ (by omega)] at hm
      exact hold k m hmk hlt2 hm
    · have hke : k = ps.length := by omega
      subst hke
      have : (ps ++ [p]).getD ps.length 0 = p := by simp
      rw [this]
      exact hlow m hmk hm

theorem getD_append_gt (ps : List ℚ) (p : ℚ) (m : Nat) (hm : m ≤ ps.length)
    (h : 150 < (ps ++ [p]).getD m 0) : (∃ x ∈ ps, 150 < x) ∨ 150 < p := by
  rcases Nat.lt_or_ge m ps.length with hlt | hge
  · rw [List.getD_append _ _ _ _ hlt] at h
    left
    refine ⟨ps.getD m 0, ?_, h⟩
    rw [List.getD_eq_getElem _ _ hlt]
    exact List.getElem_mem _
  · have e : m = ps.length := by omega
    subst e
    right
    simpa using h

theorem tickP_next (ps : List ℚ) (s : State) (hinv : Inv ps s) (p : ℚ) (hlt : ps.length < CAP)
    (hno : ¬ ((∃ x ∈ ps, 150 < x) ∧ p < 30)) :
    ∃ s1, tickP p s = .next s1 ∧ Inv (ps ++ [p]) s1 ∧
      s1.lcd = s.lcd ++ (if 150 < p then [⟨3, .releaseValve⟩] else []) ++
        (if ∃ x ∈ ps ++ [p], 150 < x then [⟨5, rateText (ps.getLastD 0) p⟩] else []) ++
        [⟨1, .pressure p⟩] := by
  have hi : s.i < CAP := by rw [hinv.i_eq]; exact hlt
  have hprs : ∀ k, store s.pressure s.i p k = (ps ++ [p]).getD k 0 := by
    intro k
    rcases Nat.lt_trichotomy k ps.length with h | h | h
    · rw [store_other _ _ _ _ (by rw [hinv.i_eq]; omega), List.getD_append _ _ _ _ h]
      exact hinv.pr_eq k
    · subst h
      rw [← hinv.i_eq, store_self, hinv.i_eq]
      simp
    · rw [store_other _ _ _ _ (by rw [hinv.i_eq]; omega), hinv.pr_eq k,
        List.getD_eq_default _ _ (by omega), List.getD_eq_default _ _ (by simp; omega)]
  rw [tickP_eq p s hi]
  by_cases hA : s.inflate_flag = true ∧ p ≤ 150
  · rw [if_pos hA]
    have hall : ∀ y ∈ ps ++ [p], y ≤ 150 := by
      intro y hy
      rcases List.mem_append.mp hy with h | h
      · exact hinv.flag_iff.mp hA.1 y h
      · simp at h; subst h; exact hA.2
    have hnp : ¬ 150 < p := not_lt.mpr hA.2
    have hnex : ¬ ∃ x ∈ ps ++ [p], 150 < x := by
      rintro ⟨x, hx, h150⟩
      exact absurd (hall x hx) (not_le.mpr h150)
    obtain ⟨s1, h1, h2, h3⟩ := endOfTick_inv ps p
      (phaseCheck { s with pressure := store s.pressure s.i p })
      (by rw [phaseCheck_i]; exact hinv.i_eq) hlt
      (by rw [phaseCheck_pressure]; exact hprs)
      (by
        rw [phaseCheck_flag]
        constructor
        · intro _; exact hall
        · intro _; simp [store_self, hA.1, hnp])
      (by rw [phaseCheck_argmin, phaseCheck_i]; exact hinv.argmin_le)
      (by rw [phaseCheck_fluactuation, phaseCheck_i]; exact hinv.fl_zero)
      (by rw [phaseCheck_lcd]; simpa [store_self, hnp] using hinv.log)
      (by rw [phaseCheck_lcd]; simpa [store_self, hnp, List.filter_append] using hinv.advisory)
      (by
        intro m hm h150
        rcases getD_append_gt ps p m hm h150 with ⟨x, hx, hx2⟩ | h
        · exact absurd (hall x (List.mem_append_left _ hx)) (not_le.mpr hx2)
        · exact absurd h hnp)
      hinv.no_low
    refine ⟨s1, h1, h2, ?_⟩
    rw [h3, phaseCheck_lcd]
    simp only [store_self, if_neg hnp, if_neg hnex, List.append_nil]
  · rw [if_neg hA]
    have hex : ∃ x ∈ ps ++ [p], 150 < x := by
      by_cases hf : s.inflate_flag = true
      · have hp : 150 < p := by
          by_contra hc
          exact hA ⟨hf, not_lt.mp hc⟩
        exact ⟨p, by simp, hp⟩
      · have : ¬ ∀ x ∈ ps, x ≤ 150 := fun h => hf (hinv.flag_iff.mpr h)
        push_neg at this
        obtain ⟨x, hx, hx2⟩ := this
        exact ⟨x, List.mem_append_left _ hx, hx2⟩
    have hp30 : ¬ p < 30 := by
      intro h30
      obtain ⟨x, hx, hx2⟩ := hex
      rcases List.mem_append.mp hx with h | h
      · exact hno ⟨⟨x, h, hx2⟩, h30⟩
      · simp at h; subst h; linarith
    rw [if_neg hp30]
    have hflagF : (s.inflate_flag && !decide (p > 150)) = false := by
      by_cases hf : s.inflate_flag = true
      · have hp : 150 < p := by
          by_contra hc
          exact hA ⟨hf, not_lt.mp hc⟩
        simp [hp]
      · simp [hf]
    obtain ⟨s1, h1, h2, h3⟩ := endOfTick_inv ps p (beforeAnalysis p s)
      (by rw [beforeAnalysis_i]; exact hinv.i_eq) hlt
      (by rw [beforeAnalysis_pressure]; exact hprs)
      (by
        rw [beforeAnalysis_flag, hflagF]
        constructor
        · intro h; simp at h
        · intro h
          obtain ⟨x, hx, hx2⟩ := hex
          exact absurd (h x hx) (not_le.mpr hx2))
      (by rw [beforeAnalysis_i]; exact beforeAnalysis_argmin_le p s hinv.argmin_le)
      (by rw [beforeAnalysis_fluactuation, beforeAnalysis_i]; exact hinv.fl_zero)
      (by
        rw [beforeAnalysis_lcd]
        intro e he
        simp only [List.mem_append, List.mem_singleton] at he
        rcases he with (h | h) | h
        · exact hinv.log e h
        · split at h
          · simp at h; subst h; simp
          · simp at h
        · subst h; simp)
      (by
        rw [beforeAnalysis_lcd, count_advisory_append, List.filter_append, List.length_append]
        by_cases hp : 150 < p
        · simp [hp, count_advisory_append, hinv.advisory]
        · simp [hp, hinv.advisory])
      (fun _ _ _ => not_lt.mp hp30)
      hinv.no_low
    refine ⟨s1, h1, h2, ?_⟩
    rw [h3, beforeAnalysis_lcd, if_pos hex, hinv.pre_eq]

theorem tickP_analysis (ps : List ℚ) (s : State) (hinv : Inv ps s) (p : ℚ)
    (hlt : ps.length < CAP) (h : (∃ x ∈ ps, 150 < x) ∧ p < 30) :
    tickP p s = analysis (beforeAnalysis p s) ∧ AtAnalysis (beforeAnalysis p s) ∧
      (beforeAnalysis p s).lcd = s.lcd ++ [⟨5, rateText (ps.getLastD 0) p⟩] := by
  have hi : s.i < CAP := by rw [hinv.i_eq]; exact hlt
  have hf : ¬ s.inflate_flag = true := by
    intro hf
    obtain ⟨x, hx, hx2⟩ := h.1
    exact absurd (hinv.flag_iff.mp hf x hx) (not_le.mpr hx2)
  have hnp : ¬ 150 < p := by
    intro h150
    have := h.2
    linarith
  have hlcd : (beforeAnalysis p s).lcd = s.lcd ++ [⟨5, rateText (ps.getLastD 0) p⟩] := by
    rw [beforeAnalysis_lcd, if_neg hnp, hinv.pre_eq]
    simp
  refine ⟨?_, ⟨?_, ?_, ?_, ?_, ?_⟩, hlcd⟩
  · rw [tickP_eq p s hi, if_neg (fun hA => hf hA.1), if_pos h.2]
  · rw [beforeAnalysis_i]; exact hi
  · rw [beforeAnalysis_pressure, beforeAnalysis_i, store_self]; exact h.2
  · rw [beforeAnalysis_i]; exact beforeAnalysis_argmin_le p s hinv.argmin_le
  · rw [beforeAnalysis_fluactuation, beforeAnalysis_i]; exact hinv.fl_zero
  · rw [hlcd]
    intro e he
    rcases List.mem_append.mp he with h1 | h1
    · exact hinv.log e h1
    · simp at h1; subst h1; simp

/-! ## The whole loop -/

theorem runP_append (ps qs : List ℚ) :
    ∀ s, runP (ps ++ qs) s = match runP ps s with
      | .next s1 => runP qs s1
      | r => r := by
  induction ps with
  | nil => intro s; rfl
  | cons p ps ih =>
    intro s
    simp only [List.cons_append, runP]
    cases h : tickP p s with
    | next s1 => exact ih s1
    | halt s1 => rfl
    | fault s1 => rfl
    | timeout s1 => rfl

theorem runP_concat (ps : List ℚ) (p : ℚ) (s s1 : State) (h : runP ps s = .next s1) :
    runP (ps ++ [p]) s = tickP p s1 := by
  rw [runP_append, h]
  simp only [runP]
  cases tickP p s1 <;> rfl

theorem runP_stuck (ps qs : List ℚ) (s : State) (h : ∀ s1, runP ps s ≠ .next s1) :
    runP (ps ++ qs) s = runP ps s := by
  rw [runP_append]
  cases h2 : runP ps s with
  | next s1 => exact absurd h2 (h s1)
  | halt s1 => rfl
  | fault s1 => rfl
  | timeout s1 => rfl

theorem sbpStage_found (s : State) (j : Nat)
    (h : sbpScan s.pressure s.fluactuation (sp_flc s.global_min) s.argmin = .ok (j, true)) :
    sbpStage s = .halt (display { s with sp := s.pressure j } 11 (.sbp (s.pressure j))) := by
  have hp := ((sbpScan_ok _ _ _ _ _ _ h).2.2.1 rfl).1
  simp [sbpStage, h, display, not_le.mpr hp]

theorem sbpStage_notfound (s : State) (j : Nat)
    (h : sbpScan s.pressure s.fluactuation (sp_flc s.global_min) s.argmin = .ok (j, false)) :
    sbpStage s = .halt (display s 11 .testFail) := by
  have hp := (sbpScan_ok _ _ _ _ _ _ h).2.2.2 rfl
  simp [sbpStage, h, display, hp]

theorem sbpStage_fault (s : State)
    (h : sbpScan s.pressure s.fluactuation (sp_flc s.global_min) s.argmin = .fault) :
    sbpStage s = .fault s := by
  simp [sbpStage, h]

theorem dbpStage_found (s : State) (j : Nat)
    (h : dbpScan s.pressure s.fluactuation (dp_flc s.global_min) (CAP + 1) s.argmin
      = .ok (j, true)) :
    dbpStage s = sbpStage (display { s with dp := s.pressure j } 10 (.dbp (s.pressure j))) := by
  have hp := ((dbpScan_ok _ _ _ _ _ _ _ h).2.2.2.1 rfl).1
  simp [dbpStage, h, display, not_le.mpr hp]

theorem dbpStage_notfound (s : State) (j : Nat)
    (h : dbpScan s.pressure s.fluactuation (dp_flc s.global_min) (CAP + 1) s.argmin
      = .ok (j, false)) :
    dbpStage s = .halt (display s 10 .testFail) := by
  have hp := (dbpScan_ok _ _ _ _ _ _ _ h).2.2.2.2 rfl
  simp [dbpStage, h, display, hp]

theorem dbpStage_fault (s : State)
    (h : dbpScan s.pressure s.fluactuation (dp_flc s.global_min) (CAP + 1) s.argmin = .fault) :
    dbpStage s = .fault s := by
  simp [dbpStage, h]

theorem analysis_ok (s : State) (st : Int) (e : Nat)
    (h : bpmLoop s.fluactuation (CAP + 1) s.argmin 0 (-1) = .ok (st, e))
    (ht : elapsed st e ≠ 0) :
    analysis s =
      dbpStage (display (display s 8 .finalResult) 9 (.bpm (bpmOf (elapsed st e)))) := by
  simp [analysis, display, h, ht]

theorem analysis_fault (s : State)
    (h : bpmLoop s.fluactuation (CAP + 1) s.argmin 0 (-1) = .fault) :
    analysis s = .fault (display s 8 .finalResult) := by
  simp [analysis, display, h]

theorem sbpStage_ne_next (s s1 : State) : sbpStage s ≠ .next s1 := by
  cases h : sbpScan s.pressure s.fluactuation (sp_flc s.global_min) s.argmin with
  | ok r =>
    obtain ⟨j, b⟩ := r
    cases b
    · rw [sbpStage_notfound s j h]; simp
    · rw [sbpStage_found s j h]; simp
  | fault => rw [sbpStage_fault s h]; simp
  | timeout => exact absurd h (sbpScan_ne_timeout _ _ _ _)

theorem dbpStage_ne_next (s s1 : State) : dbpStage s ≠ .next s1 := by
  cases h : dbpScan s.pressure s.fluactuation (dp_flc s.global_min) (CAP + 1) s.argmin with
  | ok r =>
    obtain ⟨j, b⟩ := r
    cases b
    · rw [dbpStage_notfound s j h]; simp
    · rw [dbpStage_found s j h]; exact sbpStage_ne_next _ _
  | fault => rw [dbpStage_fault s h]; simp
  | timeout => exact absurd h (dbpScan_ne_timeout _ _ _ _ _ (by omega) (by omega))

theorem analysis_ne_next (s s1 : State) : analysis s ≠ .next s1 := by
  simp only [analysis]
  split
  · split
    · simp
    · exact dbpStage_ne_next _ _
  · simp
  · simp

theorem analysis_spec (s : State) (h : AtAnalysis s) :
    (negRuns s.fluactuation s.argmin s.i < 10 ∧
      analysis s = .fault (display s 8 .finalResult)) ∨
    (10 ≤ negRuns s.fluactuation s.argmin s.i ∧
      ∃ (st : Int) (e : Nat), bpmLoop s.fluactuation (CAP + 1) s.argmin 0 (-1) = .ok (st, e) ∧
        (s.argmin : Int) ≤ st ∧ st + 2 ≤ (e : Int) ∧ e ≤ s.i + 1 ∧
        analysis s =
          dbpStage (display (display s 8 .finalResult) 9 (.bpm (bpmOf (elapsed st e))))) := by
  have hz : ∀ k, s.i ≤ k → ¬ s.fluactuation k < 0 := by
    intro k hk
    rw [h.fl_zero k hk]
    exact lt_irrefl _
  have hspec := bpmLoop_spec s.fluactuation s.i h.i_lt hz (CAP + 1) s.argmin 0 (-1)
    (by omega) (by omega)
  rcases Nat.lt_or_ge (negRuns s.fluactuation s.argmin s.i) 10 with hlt | hge
  · left
    exact ⟨hlt, analysis_fault s (hspec.2 (by omega))⟩
  · right
    obtain ⟨st, e, he, hb⟩ := hspec.1 (by omega)
    obtain ⟨b1, b2⟩ := bpmLoop_ok_bounds _ _ _ _ _ he
    have hle := h.argmin_le
    exact ⟨hge, st, e, he, b1, b2, hb (by omega), analysis_ok s st e he (elapsed_ne_zero st e b2)⟩

theorem dbpScan_stops (pr fl : Buf) (c : ℚ) (a i : Nat) (ha : a ≤ i) (hi : i < CAP)
    (hlow : pr i ≤ 50) :
    ∃ j b, dbpScan pr fl c (CAP + 1) a = .ok (j, b) ∧ a ≤ j ∧ j ≤ i := by
  cases hs : dbpScan pr fl c (CAP + 1) a with
  | timeout => exact absurd hs (dbpScan_ne_timeout _ _ _ _ _ (by omega) (by omega))
  | fault => exact absurd (dbpScan_fault _ _ _ _ _ hs i ha hi) (not_lt.mpr hlow)
  | ok r =>
    obtain ⟨j, b⟩ := r
    obtain ⟨h1, _, h3, _, _⟩ := dbpScan_ok _ _ _ _ _ _ _ hs
    refine ⟨j, b, rfl, h1, ?_⟩
    by_contra hlt
    exact absurd (h3 i ha (by omega)).1 (not_lt.mpr hlow)

theorem bpmLoop_ne_timeout (fl : Buf) :
    ∀ (fuel m T : Nat) (start : Int), 0 < fuel → CAP < m + fuel →
      bpmLoop fl fuel m T start ≠ .timeout := by
  intro fuel
  induction fuel with
  | zero => intro m T start h0; omega
  | succ n ih =>
    intro m T start _ hfuel
    simp only [bpmLoop]
    split
    · split
      · split
        · split
          · rename_i m1 hsk
            have := (skipNegative_ok fl _ _ _ hsk).1
            exact ih _ _ _ (by omega) (by omega)
          · simp
          · rename_i hsk
            exact absurd hsk (skipNegative_ne_timeout fl _ _ (by omega) (by omega))
        · exact ih _ _ _ (by omega) (by omega)
      · simp
    · simp

theorem sbpStage_ne_timeout (s s1 : State) : sbpStage s ≠ .timeout s1 := by
  cases h : sbpScan s.pressure s.fluactuation (sp_flc s.global_min) s.argmin with
  | ok r =>
    obtain ⟨j, b⟩ := r
    cases b
    · rw [sbpStage_notfound s j h]; simp
    · rw [sbpStage_found s j h]; simp
  | fault => rw [sbpStage_fault s h]; simp
  | timeout => exact absurd h (sbpScan_ne_timeout _ _ _ _)

theorem dbpStage_ne_timeout (s s1 : State) : dbpStage s ≠ .timeout s1 := by
  cases h : dbpScan s.pressure s.fluactuation (dp_flc s.global_min) (CAP + 1) s.argmin with
  | ok r =>
    obtain ⟨j, b⟩ := r
    cases b
    · rw [dbpStage_notfound s j h]; simp
    · rw [dbpStage_found s j h]; exact sbpStage_ne_timeout _ _
  | fault => rw [dbpStage_fault s h]; simp
  | timeout => exact absurd h (dbpScan_ne_timeout _ _ _ _ _ (by omega) (by omega))

theorem analysis_ne_timeout (s s1 : State) : analysis s ≠ .timeout s1 := by
  simp only [analysis]
  split
  · split
    · simp
    · exact dbpStage_ne_timeout _ _
  · simp
  · rename_i h
    exact absurd h (bpmLoop_ne_timeout _ _ _ _ _ (by omega) (by omega))

theorem endOfTick_ne_timeout (s s1 : State) : endOfTick s ≠ .timeout s1 := by
  simp only [endOfTick]
  split
  · split <;> simp
  · simp

theorem tickP_ne_timeout (p : ℚ) (s s1 : State) : tickP p s ≠ .timeout s1 := by
  simp only [tickP, deflating]
  split
  · split
    · split
      · exact analysis_ne_timeout _ _
      · exact endOfTick_ne_timeout _ _
    · exact endOfTick_ne_timeout _ _
  · simp

/-- The fuel given to the scanning loops always suffices: no run ends in `Step.timeout`. -/
theorem runP_ne_timeout (ps : List ℚ) : ∀ (s s1 : State), runP ps s ≠ .timeout s1 := by
  induction ps with
  | nil => intro s s1; simp [runP]
  | cons p ps ih =>
    intro s s1
    simp only [runP]
    cases h : tickP p s with
    | next s2 => exact ih s2 s1
    | halt s2 => simp
    | fault s2 => simp
    | timeout s2 => exact absurd h (tickP_ne_timeout p s s2)

/-- The five ways in which the analysis step can end, with the final state of each. -/
theorem analysis_cases (s : State) (h : AtAnalysis s) :
    (negRuns s.fluactuation s.argmin s.i < 10 ∧
      analysis s = .fault { s with lcd := s.lcd ++ [⟨8, .finalResult⟩] }) ∨
    (10 ≤ negRuns s.fluactuation s.argmin s.i ∧
      ∃ (st : Int) (e : Nat), bpmLoop s.fluactuation (CAP + 1) s.argmin 0 (-1) = .ok (st, e) ∧
        (s.argmin : Int) ≤ st ∧ st + 2 ≤ (e : Int) ∧ e ≤ s.i + 1 ∧
      ∃ (j : Nat) (b : Bool),
        dbpScan s.pressure s.fluactuation (dp_flc s.global_min) (CAP + 1) s.argmin = .ok (j, b) ∧
        s.argmin ≤ j ∧ j ≤ s.i ∧
        ((b = false ∧ analysis s = .halt { s with
            lcd := s.lcd ++ [⟨8, .finalResult⟩, ⟨9, .bpm (bpmOf (elapsed st e))⟩,
              ⟨10, .testFail⟩] }) ∨
         (b = true ∧
          ((sbpScan s.pressure s.fluactuation (sp_flc s.global_min) s.argmin = .fault ∧
            analysis s = .fault { s with
              dp := s.pressure j,
              lcd := s.lcd ++ [⟨8, .finalResult⟩, ⟨9, .bpm (bpmOf (elapsed st e))⟩,
                ⟨10, .dbp (s.pressure j)⟩] }) ∨
           (∃ j1, sbpScan s.pressure s.fluactuation (sp_flc s.global_min) s.argmin
                = .ok (j1, true) ∧
            analysis s = .halt { s with
              dp := s.pressure j, sp := s.pressure j1,
              lcd := s.lcd ++ [⟨8, .finalResult⟩, ⟨9, .bpm (bpmOf (elapsed st e))⟩,
                ⟨10, .dbp (s.pressure j)⟩, ⟨11, .sbp (s.pressure j1)⟩] }) ∨
           (∃ j1, sbpScan s.pressure s.fluactuation (sp_flc s.global_min) s.argmin
                = .ok (j1, false) ∧
            analysis s = .halt { s with
              dp := s.pressure j,
              lcd := s.lcd ++ [⟨8, .finalResult⟩, ⟨9, .bpm (bpmOf (elapsed st e))⟩,
                ⟨10, .dbp (s.pressure j)⟩, ⟨11, .testFail⟩] }))))) := by
  rcases analysis_spec s h with ⟨h1, h2⟩ | ⟨h1, st, e, he, b1, b2, b3, ha⟩
  · left
    exact ⟨h1, by rw [h2]; rfl⟩
  · right
    refine ⟨h1, st, e, he, b1, b2, b3, ?_⟩
    obtain ⟨j, b, hd, hj1, hj2⟩ := dbpScan_stops s.pressure s.fluactuation
      (dp_flc s.global_min) s.argmin s.i h.argmin_le h.i_lt (le_of_lt (lt_trans h.low (by norm_num)))
    refine ⟨j, b, hd, hj1, hj2, ?_⟩
    cases b
    · left
      refine ⟨rfl, ?_⟩
      rw [ha, dbpStage_notfound _ j (by simpa [display] using hd)]
      simp [display]
    · right
      refine ⟨rfl, ?_⟩
      rw [ha, dbpStage_found _ j (by simpa [display] using hd)]
      cases hsb : sbpScan s.pressure s.fluactuation (sp_flc s.global_min) s.argmin with
      | timeout => exact absurd hsb (sbpScan_ne_timeout _ _ _ _)
      | fault =>
        left
        refine ⟨rfl, ?_⟩
        rw [sbpStage_fault _ (by simpa [display] using hsb)]
        simp [display]
      | ok r =>
        obtain ⟨j1, b1⟩ := r
        right
        cases b1
        · right
          refine ⟨j1, rfl, ?_⟩
          rw [sbpStage_notfound _ j1 (by simpa [display] using hsb)]
          simp [display]
        · left
          refine ⟨j1, rfl, ?_⟩
          rw [sbpStage_found _ j1 (by simpa [display] using hsb)]
          simp [display]

/-- Every run either is still going on, or has stored past the arrays, or has entered the
analysis step, which decides its result. -/
theorem run_outcome (ps : List ℚ) :
    (∃ s, runP ps init = .next s ∧ Inv ps s) ∨
    (∃ s, runP ps init = .fault s ∧ s.i = CAP ∧ ∀ e ∈ s.lcd, e.line = 1 ∨ e.line = 3 ∨ e.line = 5) ∨
    (∃ s, AtAnalysis s ∧ runP ps init = analysis s) := by
  induction ps using List.reverseRecOn with
  | nil => exact Or.inl ⟨init, rfl, init_inv⟩
  | append_singleton qs p ih =>
    rcases ih with ⟨s, hs, hinv⟩ | ⟨s, hs, h1, h2⟩ | ⟨s, hat, hs⟩
    · rw [runP_concat qs p init s hs]
      by_cases hlt : qs.length < CAP
      · by_cases hcase : (∃ x ∈ qs, 150 < x) ∧ p < 30
        · obtain ⟨h1, h2, _⟩ := tickP_analysis qs s hinv p hlt hcase
          exact Or.inr (Or.inr ⟨_, h2, h1⟩)
        · obtain ⟨s1, h1, h2, _⟩ := tickP_next qs s hinv p hlt hcase
          exact Or.inl ⟨s1, h1, h2⟩
      · have hi : ¬ s.i < CAP := by rw [hinv.i_eq]; exact hlt
        refine Or.inr (Or.inl ⟨s, by simp [tickP, hi], ?_, hinv.log⟩)
        have := hinv.i_le
        omega
    · rw [runP_stuck qs [p] init (by rw [hs]; intro s1 h; cases h), hs]
      exact Or.inr (Or.inl ⟨s, rfl, h1, h2⟩)
    · rw [runP_stuck qs [p] init (by rw [hs]; exact analysis_ne_next s), hs]
      exact Or.inr (Or.inr ⟨s, hat, rfl⟩)

theorem mem_analysis_events (l t : List Event) (e : Event)
    (hl : ∀ x ∈ l, x.line = 1 ∨ x.line = 3 ∨ x.line = 5) (he : e ∈ l ++ t) (h8 : 8 ≤ e.line) :
    e ∈ t := by
  rcases List.mem_append.mp he with h | h
  · rcases hl e h with h1 | h1 | h1 <;> omega
  · exact h

/-- The analysis step changes only `dp`, `sp` and the display, where it appends
"Final Result:" followed by events of the lines 9 to 11. -/
theorem analysis_state (s : State) (h : AtAnalysis s) :
    ∃ (dpv spv : ℚ) (t : List Event),
      (analysis s).state =
        { s with dp := dpv, sp := spv, lcd := s.lcd ++ (⟨8, .finalResult⟩ :: t) } ∧
      ∀ x ∈ t, 9 ≤ x.line ∧ x.line ≤ 11 := by
  rcases analysis_cases s h with ⟨_, ha⟩ | ⟨_, st, e, _, _, _, _, j, b, _, _, _, hcase⟩
  · exact ⟨s.dp, s.sp, [], by rw [ha]; rfl, by simp⟩
  · rcases hcase with ⟨_, ha⟩ | ⟨_, ⟨_, ha⟩ | ⟨j1, _, ha⟩ | ⟨j1, _, ha⟩⟩
    · exact ⟨s.dp, s.sp, _, by rw [ha]; rfl, by simp⟩
    · exact ⟨s.pressure j, s.sp, _, by rw [ha]; rfl, by simp⟩
    · exact ⟨s.pressure j, s.pressure j1, _, by rw [ha]; rfl, by simp⟩
    · exact ⟨s.pressure j, s.sp, _, by rw [ha]; rfl, by simp⟩

theorem isNext_iff (r : Step) : r.isNext = true ↔ ∃ s, r = .next s := by
  cases r <;> simp [Step.isNext]

theorem run_next_inv (ps : List ℚ) (h : (runP ps init).isNext = true) :
    ∃ s, runP ps init = .next s ∧ Inv ps s := by
  rcases run_outcome ps with ⟨s, hs, hinv⟩ | ⟨s, hs, _, _⟩ | ⟨s, _, hs⟩
  · exact ⟨s, hs, hinv⟩
  · rw [hs] at h; simp [Step.isNext] at h
  · obtain ⟨s1, h1⟩ := (isNext_iff _).mp h
    rw [hs] at h1
    exact absurd h1 (analysis_ne_next s s1)

theorem dbpAccept_iff (s : State) (j : Nat) :
    dbpAccept s.pressure s.fluactuation (dp_flc s.global_min) j ↔ DbpQualifies s j :=
  Iff.rfl

theorem sbpAccept_iff (s : State) (j : Nat) :
    sbpAccept s.pressure s.fluactuation (sp_flc s.global_min) j ↔ SbpQualifies s j :=
  Iff.rfl

theorem dbpFirst_of_found (s : State) (j : Nat)
    (hd : dbpScan s.pressure s.fluactuation (dp_flc s.global_min) (CAP + 1) s.argmin
      = .ok (j, true)) :
    DbpFirst s j ∧ ∀ j1, DbpFirst s j1 → j1 = j := by
  obtain ⟨h1, _, h3, h4, _⟩ := dbpScan_ok _ _ _ _ _ _ _ hd
  obtain ⟨hp, hacc⟩ := h4 rfl
  have hfirst : DbpFirst s j := by
    refine ⟨h1, ?_, (dbpAccept_iff s j).mp hacc, ?_⟩
    · intro k hk1 hk2
      rcases Nat.eq_or_lt_of_le hk2 with e | l
      · subst e; exact hp
      · exact (h3 k hk1 l).1
    · intro k hk1 hk2 hq
      exact (h3 k hk1 hk2).2 ((dbpAccept_iff s k).mpr hq)
  refine ⟨hfirst, ?_⟩
  rintro j1 ⟨g1, _, g3, g4⟩
  rcases Nat.lt_trichotomy j1 j with hlt | heq | hgt
  · exact absurd ((dbpAccept_iff s j1).mpr g3) (h3 j1 g1 hlt).2
  · exact heq
  · exact absurd hfirst.2.2.1 (g4 j h1 hgt)

theorem no_dbpFirst_of_notfound (s : State) (j : Nat)
    (hd : dbpScan s.pressure s.fluactuation (dp_flc s.global_min) (CAP + 1) s.argmin
      = .ok (j, false)) :
    ¬ ∃ j1, DbpFirst s j1 := by
  obtain ⟨h1, _, h3, _, h5⟩ := dbpScan_ok _ _ _ _ _ _ _ hd
  have hlow := h5 rfl
  rintro ⟨j1, g1, g2, g3, _⟩
  rcases Nat.lt_or_ge j1 j with hlt | hge
  · exact absurd ((dbpAccept_iff s j1).mpr g3) (h3 j1 g1 hlt).2
  · exact absurd (g2 j h1 hge) (not_lt.mpr hlow)

theorem sbpFirst_of_found (s : State) (j : Nat)
    (hd : sbpScan s.pressure s.fluactuation (sp_flc s.global_min) s.argmin = .ok (j, true)) :
    SbpFirst s j ∧ ∀ j1, SbpFirst s j1 → j1 = j := by
  obtain ⟨h1, h2, h3, _⟩ := sbpScan_ok _ _ _ _ _ _ hd
  obtain ⟨hp, hacc⟩ := h3 rfl
  have hfirst : SbpFirst s j := by
    refine ⟨h1, ?_, (sbpAccept_iff s j).mp hacc, ?_⟩
    · intro k hk1 hk2
      rcases Nat.eq_or_lt_of_le hk1 with e | l
      · subst e; exact hp
      · exact (h2 k l hk2).1
    · intro k hk1 hk2 hq
      exact (h2 k hk1 hk2).2 ((sbpAccept_iff s k).mpr hq)
  refine ⟨hfirst, ?_⟩
  rintro j1 ⟨g1, _, g3, g4⟩
  rcases Nat.lt_trichotomy j1 j with hlt | heq | hgt
  · exact absurd hfirst.2.2.1 (g4 j hlt h1)
  · exact heq
  · exact absurd ((sbpAccept_iff s j1).mpr g3) (h2 j1 hgt g1).2

theorem no_sbpFirst_of_notfound (s : State) (j : Nat)
    (hd : sbpScan s.pressure s.fluactuation (sp_flc s.global_min) s.argmin = .ok (j, false)) :
    ¬ ∃ j1, SbpFirst s j1 := by
  obtain ⟨h1, h2, _, h4⟩ := sbpScan_ok _ _ _ _ _ _ hd
  have hhigh := h4 rfl
  rintro ⟨j1, g1, g2, g3, _⟩
  rcases Nat.lt_or_ge j j1 with hlt | hge
  · exact absurd ((sbpAccept_iff s j1).mpr g3) (h2 j1 hlt g1).2
  · exact absurd (g2 j hge h1) (not_lt.mpr hhigh)

theorem no_sbpFirst_of_fault (s : State) (ha : s.argmin < CAP)
    (hd : sbpScan s.pressure s.fluactuation (sp_flc s.global_min) s.argmin = .fault) :
    ¬ ∃ j1, SbpFirst s j1 := by
  rintro ⟨j1, g1, _, g3, _⟩
  exact (sbpScan_fault _ _ _ _ ha hd j1 g1).2 ((sbpAccept_iff s j1).mpr g3)

/-! ## The envelope and the fluctuation buffer -/

theorem getD_snoc_lt (ps : List ℚ) (p : ℚ) (k : Nat) (h : k < ps.length) :
    (ps ++ [p]).getD k 0 = ps.getD k 0 :=
  List.getD_append _ _ _ _ h

theorem getD_snoc_self (ps : List ℚ) (p : ℚ) : (ps ++ [p]).getD ps.length 0 = p := by
  simp

theorem getLastD_eq_prevSample (ps : List ℚ) (p : ℚ) :
    ps.getLastD 0 = prevSample (ps ++ [p]) ps.length := by
  unfold prevSample
  induction ps using List.reverseRecOn with
  | nil => simp
  | append_singleton qs q _ =>
    have hne : ¬ (qs ++ [q]).length = 0 := by simp
    rw [if_neg hne, getD_snoc_lt _ _ _ (by simp)]
    simp

theorem fluctOf_snoc_lt (ps : List ℚ) (p : ℚ) (k : Nat) (h : k < ps.length) :
    fluctOf (ps ++ [p]) k = fluctOf ps k := by
  unfold fluctOf prevSample
  rw [getD_snoc_lt _ _ _ h]
  by_cases hk : k = 0
  · simp [hk]
  · rw [if_neg hk, if_neg hk, getD_snoc_lt _ _ _ (by omega)]

theorem fluctOf_snoc_self (ps : List ℚ) (p : ℚ) :
    fluctOf (ps ++ [p]) ps.length = toFloat (ps.getLastD 0 - p) := by
  unfold fluctOf
  rw [getD_snoc_self, ← getLastD_eq_prevSample]

theorem tracked_snoc_lt (ps : List ℚ) (p : ℚ) (k : Nat) (h : k < ps.length) :
    Tracked (ps ++ [p]) k ↔ Tracked ps k := by
  unfold Tracked
  rw [getD_snoc_lt _ _ _ h]
  constructor
  · rintro ⟨_, ⟨m, hm, h150⟩, h170⟩
    rw [getD_snoc_lt _ _ _ (by omega)] at h150
    exact ⟨h, ⟨m, hm, h150⟩, h170⟩
  · rintro ⟨_, ⟨m, hm, h150⟩, h170⟩
    refine ⟨by simp; omega, ⟨m, hm, ?_⟩, h170⟩
    rw [getD_snoc_lt _ _ _ (by omega)]
    exact h150

theorem tracked_lt (ps : List ℚ) (k : Nat) (h : Tracked ps k) : k < ps.length := h.1

theorem tracked_snoc_cases (ps : List ℚ) (p : ℚ) (k : Nat) (h : Tracked (ps ++ [p]) k) :
    Tracked ps k ∨ k = ps.length := by
  have hk : k < ps.length + 1 := by simpa using h.1
  rcases Nat.lt_or_ge k ps.length with hlt | hge
  · exact Or.inl ((tracked_snoc_lt ps p k hlt).mp h)
  · exact Or.inr (by omega)

/-- The update rule of the envelope, on streams: how the values called for change when the
sample `p` is appended to `ps`. -/
theorem envSpec_snoc (ps : List ℚ) (p : ℚ) (gm : ℚ) (am : Nat) (ap : ℚ)
    (h : EnvSpec ps gm am ap) (hb : toFloat (ps.getLastD 0 - p) < 100000) :
    (Tracked (ps ++ [p]) ps.length ∧ toFloat (ps.getLastD 0 - p) < gm →
      EnvSpec (ps ++ [p]) (toFloat (ps.getLastD 0 - p)) ps.length p) ∧
    (¬ (Tracked (ps ++ [p]) ps.length ∧ toFloat (ps.getLastD 0 - p) < gm) →
      EnvSpec (ps ++ [p]) gm am ap) := by
  obtain ⟨h1, h2⟩ := h
  constructor
  · intro hc
    obtain ⟨htr, hlt⟩ := hc
    constructor
    · intro hno
      exact absurd ⟨_, htr⟩ hno
    · intro _
      refine ⟨htr, (fluctOf_snoc_self ps p).symm, (getD_snoc_self ps p).symm, ?_⟩
      intro k hk
      rcases tracked_snoc_cases ps p k hk with hold | hnew
      · have hkl := tracked_lt ps k hold
        obtain ⟨_, _, _, h5⟩ := h2 ⟨k, hold⟩
        have := (h5 k hold).1
        rw [fluctOf_snoc_lt ps p k hkl]
        constructor
        · linarith
        · intro heq; linarith
      · subst hnew
        rw [fluctOf_snoc_self]
        exact ⟨le_refl _, fun _ => le_refl _⟩
  · intro hc
    by_cases hex : ∃ k, Tracked ps k
    · obtain ⟨t1, t2, t3, t4⟩ := h2 hex
      have haml := tracked_lt ps am t1
      constructor
      · intro hno
        obtain ⟨k, hk⟩ := hex
        exact absurd ⟨k, (tracked_snoc_lt ps p k (tracked_lt ps k hk)).mpr hk⟩ hno
      · intro _
        refine ⟨(tracked_snoc_lt ps p am haml).mpr t1, ?_, ?_, ?_⟩
        · rw [fluctOf_snoc_lt ps p am haml]; exact t2
        · rw [getD_snoc_lt ps p am haml]; exact t3
        · intro k hk
          rcases tracked_snoc_cases ps p k hk with hold | hnew
          · rw [fluctOf_snoc_lt ps p k (tracked_lt ps k hold)]
            exact t4 k hold
          · subst hnew
            rw [fluctOf_snoc_self]
            have hge : gm ≤ toFloat (ps.getLastD 0 - p) := by
              by_contra hh
              exact hc ⟨hk, not_le.mp hh⟩
            exact ⟨hge, fun _ => le_of_lt haml⟩
    · obtain ⟨g1, g2, g3⟩ := h1 hex
      have hnew : ¬ Tracked (ps ++ [p]) ps.length := by
        intro htr
        apply hc
        refine ⟨htr, ?_⟩
        rw [g1]; exact hb
      have hnone : ¬ ∃ k, Tracked (ps ++ [p]) k := by
        rintro ⟨k, hk⟩
        rcases tracked_snoc_cases ps p k hk with hold | hn
        · exact hex ⟨k, hold⟩
        · subst hn; exact hnew hk
      exact ⟨fun _ => ⟨g1, g2, g3⟩, fun h => absurd h hnone⟩

theorem phaseCheck_arg_pressure (s : State) : (phaseCheck s).arg_pressure = s.arg_pressure := by
  unfold phaseCheck; split <;> rfl

/-- Induction along the loop: a property of the states in which the loop goes on. -/
theorem run_induction (P : List ℚ → State → Prop) (h0 : P [] init)
    (hstep : ∀ (ps : List ℚ) (s : State) (p : ℚ) (s1 : State),
      runP ps init = .next s → Inv ps s → P ps s → ps.length < CAP →
      tickP p s = .next s1 → P (ps ++ [p]) s1) :
    ∀ (ps : List ℚ) (s : State), runP ps init = .next s → P ps s := by
  intro ps
  induction ps using List.reverseRecOn with
  | nil =>
    intro s hs
    simp only [runP, Step.next.injEq] at hs
    subst hs
    exact h0
  | append_singleton qs p ih =>
    intro s1 hs1
    cases hq : runP qs init with
    | next s =>
      have hinv : Inv qs s := by
        obtain ⟨s', hs', hinv'⟩ := run_next_inv qs (by rw [hq]; rfl)
        rw [hq] at hs'
        simp only [Step.next.injEq] at hs'
        subst hs'
        exact hinv'
      rw [runP_concat qs p init s hq] at hs1
      have hlt : qs.length < CAP := by
        by_contra hge
        have hi : ¬ s.i < CAP := by rw [hinv.i_eq]; exact hge
        simp [tickP, hi] at hs1
      exact hstep qs s p s1 hq hinv (ih s hq) hlt hs1
    | halt s =>
      rw [runP_stuck qs [p] init (by rw [hq]; intro s2 h; cases h), hq] at hs1
      cases hs1
    | fault s =>
      rw [runP_stuck qs [p] init (by rw [hq]; intro s2 h; cases h), hq] at hs1
      cases hs1
    | timeout s =>
      rw [runP_stuck qs [p] init (by rw [hq]; intro s2 h; cases h), hq] at hs1
      cases hs1

theorem tickP_next_eq (p : ℚ) (s s1 : State) (h : s.i < CAP) (ht : tickP p s = .next s1) :
    s1 = { midTick p s with
      lcd := (midTick p s).lcd ++ [⟨1, .pressure p⟩],
      fluactuation := store s.fluactuation s.i (toFloat (s.pre_pressure - p)),
      pre_pressure := p,
      i := s.i + 1 } := by
  rw [tickP_eq p s h] at ht
  unfold midTick
  by_cases hA : s.inflate_flag = true ∧ p ≤ 150
  · rw [if_pos hA] at ht ⊢
    rw [endOfTick_eq _ (by rw [phaseCheck_i]; exact h)] at ht
    simp only [Step.next.injEq] at ht
    rw [← ht]
    simp [phaseCheck_i, phaseCheck_pressure, phaseCheck_fluactuation, phaseCheck_pre, store_self]
  · rw [if_neg hA] at ht ⊢
    by_cases h30 : p < 30
    · rw [if_pos h30] at ht
      exact absurd ht (analysis_ne_next _ _)
    · rw [if_neg h30, endOfTick_eq _ (by rw [beforeAnalysis_i]; exact h)] at ht
      simp only [Step.next.injEq] at ht
      rw [← ht]
      simp [beforeAnalysis_i, beforeAnalysis_pressure, beforeAnalysis_fluactuation,
        beforeAnalysis_pre, store_self]

theorem rateMonitor_arg_pressure (s : State) : (rateMonitor s).arg_pressure = s.arg_pressure := by
  unfold rateMonitor; split <;> rfl

theorem beforeAnalysis_env (p : ℚ) (s : State) :
    (p < 170 ∧ toFloat (s.pre_pressure - p) < s.global_min →
      (beforeAnalysis p s).global_min = toFloat (s.pre_pressure - p) ∧
      (beforeAnalysis p s).argmin = s.i ∧ (beforeAnalysis p s).arg_pressure = p) ∧
    (¬ (p < 170 ∧ toFloat (s.pre_pressure - p) < s.global_min) →
      (beforeAnalysis p s).global_min = s.global_min ∧
      (beforeAnalysis p s).argmin = s.argmin ∧
      (beforeAnalysis p s).arg_pressure = s.arg_pressure) := by
  unfold beforeAnalysis
  rw [rateMonitor_global_min, rateMonitor_argmin, rateMonitor_arg_pressure]
  unfold envelope
  simp only [phaseCheck_pressure, phaseCheck_i, phaseCheck_pre, phaseCheck_global_min,
    store_self]
  constructor
  · intro h
    rw [if_pos h]
    simp [phaseCheck_i, phaseCheck_pre, phaseCheck_pressure, store_self]
  · intro h
    rw [if_neg h]
    simp [phaseCheck_global_min, phaseCheck_argmin, phaseCheck_arg_pressure]

theorem exists_index_of_mem_gt (ps : List ℚ) (h : ∃ x ∈ ps, 150 < x) :
    ∃ m, m < ps.length ∧ 150 < ps.getD m 0 := by
  obtain ⟨x, hx, h150⟩ := h
  obtain ⟨m, hm, hget⟩ := List.getElem_of_mem hx
  refine ⟨m, hm, ?_⟩
  rw [List.getD_eq_getElem _ _ hm, hget]
  exact h150

theorem tracked_new_iff (ps : List ℚ) (s : State) (hinv : Inv ps s) (p : ℚ) :
    Tracked (ps ++ [p]) ps.length ↔ (¬ (s.inflate_flag = true ∧ p ≤ 150) ∧ p < 170) := by
  unfold Tracked
  rw [getD_snoc_self]
  constructor
  · rintro ⟨_, ⟨m, hm, h150⟩, h170⟩
    refine ⟨?_, h170⟩
    rintro ⟨hf, hp⟩
    rcases getD_append_gt ps p m hm h150 with ⟨x, hx, hx2⟩ | hgt
    · exact absurd (hinv.flag_iff.mp hf x hx) (not_le.mpr hx2)
    · exact absurd hp (not_le.mpr hgt)
  · rintro ⟨hA, h170⟩
    refine ⟨by simp, ?_, h170⟩
    by_cases hf : s.inflate_flag = true
    · have hp : 150 < p := by
        by_contra hc
        exact hA ⟨hf, not_lt.mp hc⟩
      exact ⟨ps.length, le_refl _, by rw [getD_snoc_self]; exact hp⟩
    · have : ¬ ∀ x ∈ ps, x ≤ 150 := fun h => hf (hinv.flag_iff.mpr h)
      push_neg at this
      obtain ⟨m, hm, h150⟩ := exists_index_of_mem_gt ps this
      exact ⟨m, le_of_lt hm, by rw [getD_snoc_lt _ _ _ hm]; exact h150⟩

theorem midTick_env (ps : List ℚ) (s : State) (hinv : Inv ps s) (p : ℚ)
    (henv : EnvSpec ps s.global_min s.argmin s.arg_pressure)
    (hb : toFloat (ps.getLastD 0 - p) < 100000) :
    EnvSpec (ps ++ [p]) (midTick p s).global_min (midTick p s).argmin
      (midTick p s).arg_pressure := by
  obtain ⟨hnew, hold⟩ := envSpec_snoc ps p _ _ _ henv hb
  have htr := tracked_new_iff ps s hinv p
  unfold midTick
  by_cases hA : s.inflate_flag = true ∧ p ≤ 150
  · rw [if_pos hA, phaseCheck_global_min, phaseCheck_argmin, phaseCheck_arg_pressure]
    apply hold
    rintro ⟨ht, _⟩
    exact (htr.mp ht).1 hA
  · rw [if_neg hA]
    obtain ⟨e1, e2⟩ := beforeAnalysis_env p s
    by_cases hc : p < 170 ∧ toFloat (s.pre_pressure - p) < s.global_min
    · obtain ⟨g1, g2, g3⟩ := e1 hc
      rw [g1, g2, g3, hinv.pre_eq, hinv.i_eq]
      apply hnew
      refine ⟨htr.mpr ⟨hA, hc.1⟩, ?_⟩
      rw [← hinv.pre_eq]; exact hc.2
    · obtain ⟨g1, g2, g3⟩ := e2 hc
      rw [g1, g2, g3]
      apply hold
      rintro ⟨ht, hlt⟩
      apply hc
      refine ⟨(htr.mp ht).2, ?_⟩
      rw [hinv.pre_eq]; exact hlt

theorem bounded_fluct (ps : List ℚ) (p : ℚ) (h : Bounded (ps ++ [p])) :
    toFloat (ps.getLastD 0 - p) < 100000 := by
  have hp := h p (by simp)
  have hl : -40000 < ps.getLastD 0 ∧ ps.getLastD 0 < 40000 := by
    induction ps using List.reverseRecOn with
    | nil => simp
    | append_singleton qs q _ =>
      have : (qs ++ [q]).getLastD 0 = q := by simp
      rw [this]
      exact h q (by simp)
  apply toFloat_lt
  rw [abs_lt]
  constructor <;> linarith [hp.1, hp.2, hl.1, hl.2]

/-- The envelope values of a state in which the loop goes on are those its samples call
for, and the fluctuation buffer holds the fluctuations of the samples. -/
theorem run_env (ps : List ℚ) (s : State) (hs : runP ps init = .next s) :
    (Bounded ps → EnvSpec ps s.global_min s.argmin s.arg_pressure) ∧
    (∀ k, k < ps.length → s.fluactuation k = fluctOf ps k) := by
  refine run_induction
    (fun ps s => (Bounded ps → EnvSpec ps s.global_min s.argmin s.arg_pressure) ∧
      (∀ k, k < ps.length → s.fluactuation k = fluctOf ps k)) ?_ ?_ ps s hs
  · constructor
    · intro _
      constructor
      · intro _; exact ⟨rfl, rfl, rfl⟩
      · rintro ⟨k, hk, _⟩
        simp at hk
    · intro k hk
      simp at hk
  · intro ps s p s1 _ hinv ih hlt ht
    have hi : s.i < CAP := by rw [hinv.i_eq]; exact hlt
    have heq := tickP_next_eq p s s1 hi ht
    constructor
    · intro hb
      have hbps : Bounded ps := fun x hx => hb x (List.mem_append_left _ hx)
      have := midTick_env ps s hinv p (ih.1 hbps) (bounded_fluct ps p hb)
      rw [heq]
      exact this
    · intro k hk
      have hk2 : k < ps.length + 1 := by simpa using hk
      rw [heq]
      show store s.fluactuation s.i (toFloat (s.pre_pressure - p)) k = _
      rcases Nat.lt_or_ge k ps.length with hlt2 | hge
      · rw [store_other _ _ _ _ (by rw [hinv.i_eq]; omega), fluctOf_snoc_lt _ _ _ hlt2]
        exact ih.2 k hlt2
      · have hke : k = ps.length := by omega
        subst hke
        rw [← hinv.i_eq, store_self, hinv.i_eq, fluctOf_snoc_self, hinv.pre_eq]


/-! ## The BPM scan as a sequence of runs, and the bounds of the BPM -/

theorem skipNegative_run (fl : Buf) (s t : Nat) (hst : s ≤ t) (ht : t < CAP)
    (hneg : ∀ k, s ≤ k → k < t → fl k < 0) (hstop : ¬ fl t < 0) :
    skipNegative fl (CAP + 1) s = .ok t := by
  obtain ⟨m1, h1, _, h3, h4, h5⟩ := skipNegative_stops fl t s hst ht hstop
  have : m1 = t := by
    rcases Nat.lt_or_ge m1 t with hlt | hge
    · exact absurd (hneg m1 (by omega) hlt) h4
    · omega
  rw [h1, this]

theorem bpmLoop_of_runs (fl : Buf) :
    ∀ (fuel m T : Nat) (start : Int) (l : List (Nat × Nat)), RunsFrom fl m l →
      T + l.length = 10 → (∀ r ∈ l, r.2 < CAP) → 0 < fuel → CAP < m + fuel →
      bpmLoop fl fuel m T start = .ok (startOf start l, scanEnd m l) := by
  intro fuel
  induction fuel with
  | zero => intro m T start l _ _ _ h0; omega
  | succ n ih =>
    intro m T start l hruns hlen hcap _ hfuel
    cases l with
    | nil =>
      have hT : ¬ T < 10 := by simp at hlen; omega
      simp only [bpmLoop, hT, if_false, startOf, scanEnd]
    | cons r rest =>
      obtain ⟨s, t⟩ := r
      obtain ⟨⟨h1, h2, h3, h4, h5⟩, hrest⟩ := hruns
      have hT : T < 10 := by simp at hlen; omega
      have ht : t < CAP := hcap (s, t) (by simp)
      have hm : m < CAP := by omega
      rcases Nat.eq_or_lt_of_le h1 with heq | hlt
      · subst heq
        have hneg : fl m < 0 := h4 m (le_refl _) h2
        have hsk := skipNegative_run fl m t (le_of_lt h2) ht h4 h5
        have hrec := ih (t + 1) (T + 1) (if start = -1 then (m : Int) else start) rest hrest
          (by simp at hlen; omega) (fun r hr => hcap r (List.mem_cons_of_mem _ hr))
          (by omega) (by omega)
        have heq : bpmLoop fl (n + 1) m T start =
            bpmLoop fl n (t + 1) (T + 1) (if start = -1 then (m : Int) else start) := by
          simp only [bpmLoop, hT, hm, hneg, hsk, if_true]
        rw [heq, hrec]
        simp only [scanEnd, startOf]
        congr 2
        by_cases hs : start = -1
        · simp only [hs, if_true]
          cases rest with
          | nil => rfl
          | cons r2 rest2 =>
            simp only [startOf]
            have : ¬ ((m : Int) = -1) := by omega
            rw [if_neg this]
        · simp only [hs, if_false]
          cases rest with
          | nil => rfl
          | cons r2 rest2 => simp only [startOf, hs, if_false]
      · have hneg : ¬ fl m < 0 := h3 m (le_refl _) hlt
        have hrec := ih (m + 1) T start ((s, t) :: rest)
          ⟨⟨by omega, h2, fun k hk1 hk2 => h3 k (by omega) hk2, h4, h5⟩, hrest⟩ hlen hcap
          (by omega) (by omega)
        have heq : bpmLoop fl (n + 1) m T start = bpmLoop fl n (m + 1) T start := by
          simp only [bpmLoop, hT, hm, hneg, if_true, if_false]
        rw [heq, hrec]
        simp only [scanEnd]

theorem runs_of_bpmLoop (fl : Buf) :
    ∀ (fuel m T : Nat) (start st : Int) (e : Nat), T ≤ 10 →
      bpmLoop fl fuel m T start = .ok (st, e) →
      ∃ l, RunsFrom fl m l ∧ T + l.length = 10 ∧ (∀ r ∈ l, r.2 < CAP) ∧
        st = startOf start l ∧ e = scanEnd m l := by
  intro fuel
  induction fuel with
  | zero => intro m T start st e _ h; simp [bpmLoop] at h
  | succ n ih =>
    intro m T start st e hT h
    simp only [bpmLoop] at h
    by_cases hT10 : T < 10
    · rw [if_pos hT10] at h
      by_cases hm : m < CAP
      · rw [if_pos hm] at h
        by_cases hneg : fl m < 0
        · rw [if_pos hneg] at h
          cases hsk : skipNegative fl (CAP + 1) m with
          | ok m1 =>
            rw [hsk] at h
            simp only at h
            obtain ⟨g1, g2, g3, g4⟩ := skipNegative_ok fl _ _ _ hsk
            have hlt : m < m1 := by
              rcases Nat.eq_or_lt_of_le g1 with e1 | l1
              · subst e1; exact absurd hneg g3
              · exact l1
            obtain ⟨l, r1, r2, r3, r4, r5⟩ := ih _ _ _ _ _ (by omega) h
            refine ⟨(m, m1) :: l, ⟨⟨le_refl _, hlt, fun k hk1 hk2 => absurd hk2 (by omega),
              g4, g3⟩, r1⟩, by simp; omega, ?_, ?_, ?_⟩
            · intro r hr
              rcases List.mem_cons.mp hr with h1 | h1
              · subst h1; exact g2
              · exact r3 r h1
            · rw [r4]
              simp only [startOf]
              by_cases hs : start = -1
              · simp only [hs, if_true]
                have : ¬ ((m : Int) = -1) := by omega
                cases l with
                | nil => rfl
                | cons r2 rest2 => simp only [startOf, if_neg this]
              · simp only [hs, if_false]
                cases l with
                | nil => rfl
                | cons r2 rest2 => simp only [startOf, hs, if_false]
            · rw [r5]; rfl
          | fault => rw [hsk] at h; simp at h
          | timeout => rw [hsk] at h; simp at h
        · rw [if_neg hneg] at h
          obtain ⟨l, r1, r2, r3, r4, r5⟩ := ih _ _ _ _ _ hT h
          cases l with
          | nil => simp at r2; omega
          | cons r rest =>
            obtain ⟨s, t⟩ := r
            obtain ⟨⟨h1, h2, h3, h4, h5⟩, hrest⟩ := r1
            refine ⟨(s, t) :: rest, ⟨⟨by omega, h2, ?_, h4, h5⟩, hrest⟩, r2, r3, r4, ?_⟩
            · intro k hk1 hk2
              rcases Nat.eq_or_lt_of_le hk1 with e1 | l1
              · subst e1; exact hneg
              · exact h3 k l1 hk2
            · rw [r5]; rfl
      · rw [if_neg hm] at h; simp at h
    · rw [if_neg hT10] at h
      simp only [Scan.ok.injEq, Prod.mk.injEq] at h
      refine ⟨[], trivial, by simp; omega, by simp, ?_, ?_⟩
      · simp only [startOf]; exact h.1.symm
      · simp only [scanEnd]; exact h.2.symm

theorem scanEnd_ge (fl : Buf) :
    ∀ (l : List (Nat × Nat)) (m : Nat), RunsFrom fl m l → m + 2 * l.length ≤ scanEnd m l := by
  intro l
  induction l with
  | nil => intro m _; simp [scanEnd]
  | cons r rest ih =>
    intro m h
    obtain ⟨s, t⟩ := r
    obtain ⟨⟨h1, h2, _, _, _⟩, hrest⟩ := h
    have := ih (t + 1) hrest
    simp only [scanEnd, List.length_cons]
    omega

theorem bpmOf_bounds (st : Int) (e : Nat) (h : st + 20 ≤ (e : Int)) :
    0 ≤ bpmOf (elapsed st e) ∧ bpmOf (elapsed st e) ≤ 675 := by
  have hd : (20 : ℚ) ≤ (((e : Int) - st : Int) : ℚ) := by
    have : (20 : Int) ≤ (e : Int) - st := by omega
    exact_mod_cast this
  set d : ℚ := (((e : Int) - st : Int) : ℚ) with hdef
  have hc4 := (roundBinary_bounds 53 (by norm_num) 0.04 (by norm_num)).1
  have hc9 := (roundBinary_bounds 53 (by norm_num) 0.9 (by norm_num)).2
  have hc4pos : 0 < roundBinary 53 0.04 := roundBinary_pos 53 (by norm_num) _ (by norm_num)
  have hc9pos : 0 < roundBinary 53 0.9 := roundBinary_pos 53 (by norm_num) _ (by norm_num)
  have hx1pos : 0 < d * roundBinary 53 0.04 := mul_pos (by linarith) hc4pos
  have hx1 : (20 : ℚ) * (0.04 * (1 - 1 / 1000000)) ≤ d * roundBinary 53 0.04 :=
    mul_le_mul hd hc4 (by norm_num) (by linarith)
  have hx2 := (roundBinary_bounds 53 (by norm_num) _ hx1pos).1
  have hx2pos := roundBinary_pos 53 (by norm_num) _ hx1pos
  have ht := (roundBinary_bounds 24 (by norm_num) _ hx2pos).1
  have htpos := roundBinary_pos 24 (by norm_num) _ hx2pos
  set t := roundBinary 24 (roundBinary 53 (d * roundBinary 53 0.04)) with htdef
  have hT0 : (799997 / 1000000 : ℚ) ≤ t := by
    have a1 : (20 : ℚ) * (0.04 * (1 - 1 / 1000000)) * (1 - 1 / 1000000) ≤
        roundBinary 53 (d * roundBinary 53 0.04) := by
      calc (20 : ℚ) * (0.04 * (1 - 1 / 1000000)) * (1 - 1 / 1000000)
          ≤ d * roundBinary 53 0.04 * (1 - 1 / 1000000) :=
            mul_le_mul_of_nonneg_right hx1 (by norm_num)
        _ ≤ _ := hx2
    have a2 : (20 : ℚ) * (0.04 * (1 - 1 / 1000000)) * (1 - 1 / 1000000) * (1 - 1 / 1000000) ≤ t := by
      calc _ ≤ roundBinary 53 (d * roundBinary 53 0.04) * (1 - 1 / 1000000) :=
            mul_le_mul_of_nonneg_right a1 (by norm_num)
        _ ≤ t := ht
    have a3 : (799997 / 1000000 : ℚ) ≤
        (20 : ℚ) * (0.04 * (1 - 1 / 1000000)) * (1 - 1 / 1000000) * (1 - 1 / 1000000) := by
      norm_num
    linarith
  have hy1pos : 0 < 10 / t := div_pos (by norm_num) htpos
  have hy1 : 10 / t ≤ 10 / (799997 / 1000000) :=
    div_le_div_of_nonneg_left (by norm_num) (by norm_num) hT0
  have hy2 := (roundBinary_bounds 24 (by norm_num) _ hy1pos).2
  have hy2pos := roundBinary_pos 24 (by norm_num) _ hy1pos
  have hy3pos : 0 < roundBinary 24 (10 / t) * 60 := mul_pos hy2pos (by norm_num)
  have hy4 := (roundBinary_bounds 24 (by norm_num) _ hy3pos).2
  have hy4pos := roundBinary_pos 24 (by norm_num) _ hy3pos
  have hy5pos : 0 < roundBinary 24 (roundBinary 24 (10 / t) * 60) * roundBinary 53 0.9 :=
    mul_pos hy4pos hc9pos
  have hy6 := (roundBinary_bounds 53 (by norm_num) _ hy5pos).2
  have hy6pos := roundBinary_pos 53 (by norm_num) _ hy5pos
  set y2 := roundBinary 24 (10 / t) with hy2def
  set y4 := roundBinary 24 (y2 * 60) with hy4def
  set y6 := roundBinary 53 (y4 * roundBinary 53 0.9) with hy6def
  have b2 : y2 ≤ 10 / (799997 / 1000000) * (1 + 1 / 1000000) := by
    calc y2 ≤ 10 / t * (1 + 1 / 1000000) := hy2
      _ ≤ _ := mul_le_mul_of_nonneg_right hy1 (by norm_num)
  have b4 : y4 ≤ 10 / (799997 / 1000000) * (1 + 1 / 1000000) * 60 * (1 + 1 / 1000000) := by
    calc y4 ≤ y2 * 60 * (1 + 1 / 1000000) := hy4
      _ ≤ _ := by
        apply mul_le_mul_of_nonneg_right _ (by norm_num)
        exact mul_le_mul_of_nonneg_right b2 (by norm_num)
  have b6 : y6 < 676 := by
    have c1 : y4 * roundBinary 53 0.9 ≤
        10 / (799997 / 1000000) * (1 + 1 / 1000000) * 60 * (1 + 1 / 1000000) *
          (0.9 * (1 + 1 / 1000000)) :=
      mul_le_mul b4 hc9 (le_of_lt hc9pos) (by norm_num)
    have c2 : y6 ≤ 10 / (799997 / 1000000) * (1 + 1 / 1000000) * 60 * (1 + 1 / 1000000) *
          (0.9 * (1 + 1 / 1000000)) * (1 + 1 / 1000000) := by
      calc y6 ≤ y4 * roundBinary 53 0.9 * (1 + 1 / 1000000) := hy6
        _ ≤ _ := mul_le_mul_of_nonneg_right c1 (by norm_num)
    have c3 : (10 / (799997 / 1000000) * (1 + 1 / 1000000) * 60 * (1 + 1 / 1000000) *
          (0.9 * (1 + 1 / 1000000)) * (1 + 1 / 1000000) : ℚ) < 676 := by norm_num
    linarith
  have hval : bpmOf (elapsed st e) = ⌊y6⌋ := by
    unfold bpmOf elapsed toFloat toDouble truncate
    rw [if_pos (le_of_lt hy6pos)]
  rw [hval]
  constructor
  · exact Int.floor_nonneg.mpr (le_of_lt hy6pos)
  · have : ⌊y6⌋ < 676 := Int.floor_lt.mpr (by exact_mod_cast b6)
    omega


/-! ## Raw codes, and the envelope after one more sample -/

theorem Get_Data_lt (data_buf : Nat → Nat) : Get_Data data_buf < 2 ^ 24 := by
  unfold Get_Data
  have h1 : data_buf 1 % 256 < 256 := Nat.mod_lt _ (by norm_num)
  have h2 : data_buf 2 % 256 < 256 := Nat.mod_lt _ (by norm_num)
  have h3 : data_buf 3 % 256 < 256 := Nat.mod_lt _ (by norm_num)
  apply Nat.or_lt_two_pow
  · apply Nat.or_lt_two_pow
    · rw [Nat.shiftLeft_eq]; omega
    · rw [Nat.shiftLeft_eq]; omega
  · omega

theorem toFloat_min_output : toFloat min_output = 419425 := by decide!

theorem toFloat_max_output : toFloat max_output = 7549747 / 2 := by decide!

theorem toFloat_span : toFloat (7549747 / 2 - 419425) = 6710897 / 2 := by decide!

theorem convertFloat_bounded (r : Nat) (h : r < 2 ^ 24) :
    -40000 < convertFloat r ∧ convertFloat r < 40000 := by
  have h1 : (r : ℚ) < 16777216 := by exact_mod_cast h
  have h0 : (0 : ℚ) ≤ (r : ℚ) := Nat.cast_nonneg r
  have hr : |(r : ℚ)| < 16777216 := by rw [abs_of_nonneg h0]; exact h1
  have a1 := abs_roundBinary_le 24 (le_refl _) (r : ℚ)
  have a2 := abs_roundBinary_le 24 (le_refl _) (roundBinary 24 (r : ℚ) - 419425)
  have a3 := abs_roundBinary_le 24 (le_refl _)
    (roundBinary 24 (roundBinary 24 (r : ℚ) - 419425) * 300)
  have a4 := abs_roundBinary_le 24 (le_refl _)
    (roundBinary 24 (roundBinary 24 (roundBinary 24 (r : ℚ) - 419425) * 300) / (6710897 / 2))
  have b1 : |roundBinary 24 (r : ℚ)| ≤ 16777216 * (1 + 1 / 1000000) :=
    le_trans a1 (mul_le_mul_of_nonneg_right (le_of_lt hr) (by norm_num))
  have b2 : |roundBinary 24 (r : ℚ) - 419425| ≤ 16777216 * (1 + 1 / 1000000) + 419425 := by
    calc |roundBinary 24 (r : ℚ) - 419425| ≤ |roundBinary 24 (r : ℚ)| + |(419425 : ℚ)| :=
          abs_sub _ _
      _ ≤ _ := by
        rw [abs_of_pos (by norm_num : (0 : ℚ) < 419425)]
        linarith
  have b3 : |roundBinary 24 (roundBinary 24 (r : ℚ) - 419425)| ≤
      (16777216 * (1 + 1 / 1000000) + 419425) * (1 + 1 / 1000000) :=
    le_trans a2 (mul_le_mul_of_nonneg_right b2 (by norm_num))
  have b4 : |roundBinary 24 (roundBinary 24 (r : ℚ) - 419425) * 300| ≤
      (16777216 * (1 + 1 / 1000000) + 419425) * (1 + 1 / 1000000) * 300 := by
    rw [abs_mul, abs_of_pos (by norm_num : (0 : ℚ) < 300)]
    exact mul_le_mul_of_nonneg_right b3 (by norm_num)
  have b5 : |roundBinary 24 (roundBinary 24 (roundBinary 24 (r : ℚ) - 419425) * 300)| ≤
      (16777216 * (1 + 1 / 1000000) + 419425) * (1 + 1 / 1000000) * 300 * (1 + 1 / 1000000) :=
    le_trans a3 (mul_le_mul_of_nonneg_right b4 (by norm_num))
  have b6 : |roundBinary 24 (roundBinary 24 (roundBinary 24 (r : ℚ) - 419425) * 300) /
      (6710897 / 2)| ≤
      (16777216 * (1 + 1 / 1000000) + 419425) * (1 + 1 / 1000000) * 300 * (1 + 1 / 1000000) /
        (6710897 / 2) := by
    rw [abs_div, abs_of_pos (by norm_num : (0 : ℚ) < 6710897 / 2)]
    exact div_le_div_of_nonneg_right b5 (by norm_num)
  have b7 : |convertFloat r| ≤
      (16777216 * (1 + 1 / 1000000) + 419425) * (1 + 1 / 1000000) * 300 * (1 + 1 / 1000000) /
        (6710897 / 2) * (1 + 1 / 1000000) := by
    unfold convertFloat
    rw [toFloat_min_output, toFloat_max_output, toFloat_span]
    unfold toFloat
    exact le_trans a4 (mul_le_mul_of_nonneg_right b6 (by norm_num))
  have b8 : |convertFloat r| < 40000 := lt_of_le_of_lt b7 (by norm_num)
  exact abs_lt.mp b8

theorem bounded_map_convertFloat (data : List Nat) (h : ∀ x ∈ data, x < 2 ^ 24) :
    Bounded (data.map convertFloat) := by
  intro x hx
  obtain ⟨r, hr, rfl⟩ := List.mem_map.mp hx
  exact convertFloat_bounded r (h r hr)

/-- The envelope values and the pressure buffer after the iteration for `p`, whichever way it
ends, are those of `midTick`. -/
theorem tick_env (ps : List ℚ) (s : State) (hinv : Inv ps s) (p : ℚ) (hcap : ps.length < CAP) :
    (tickP p s).state.global_min = (midTick p s).global_min ∧
    (tickP p s).state.argmin = (midTick p s).argmin ∧
    (tickP p s).state.arg_pressure = (midTick p s).arg_pressure ∧
    (tickP p s).state.pressure = store s.pressure s.i p := by
  have hi : s.i < CAP := by rw [hinv.i_eq]; exact hcap
  by_cases hcase : (∃ x ∈ ps, 150 < x) ∧ p < 30
  · obtain ⟨h1, h2, _⟩ := tickP_analysis ps s hinv p hcap hcase
    obtain ⟨dpv, spv, t, hst, _⟩ := analysis_state _ h2
    have hA : ¬ (s.inflate_flag = true ∧ p ≤ 150) := by
      rintro ⟨hf, _⟩
      obtain ⟨x, hx, hx2⟩ := hcase.1
      exact absurd (hinv.flag_iff.mp hf x hx) (not_le.mpr hx2)
    have hmid : midTick p s = beforeAnalysis p s := by
      unfold midTick; rw [if_neg hA]
    rw [h1, hst, hmid]
    exact ⟨rfl, rfl, rfl, beforeAnalysis_pressure p s⟩
  · obtain ⟨s1, h1, _, _⟩ := tickP_next ps s hinv p hcap hcase
    have heq := tickP_next_eq p s s1 hi h1
    rw [h1]
    simp only [Step.state]
    rw [heq]
    refine ⟨rfl, rfl, rfl, ?_⟩
    show (midTick p s).pressure = _
    unfold midTick
    split
    · rw [phaseCheck_pressure]
    · rw [beforeAnalysis_pressure]

theorem midTick_untracked (ps : List ℚ) (s : State) (hinv : Inv ps s) (p : ℚ)
    (h : ¬ Tracked (ps ++ [p]) ps.length) :
    (midTick p s).global_min = s.global_min ∧ (midTick p s).argmin = s.argmin ∧
    (midTick p s).arg_pressure = s.arg_pressure := by
  have htr := tracked_new_iff ps s hinv p
  unfold midTick
  by_cases hA : s.inflate_flag = true ∧ p ≤ 150
  · rw [if_pos hA]
    exact ⟨phaseCheck_global_min _, phaseCheck_argmin _, phaseCheck_arg_pressure _⟩
  · rw [if_neg hA]
    apply (beforeAnalysis_env p s).2
    rintro ⟨h170, _⟩
    exact h (htr.mpr ⟨hA, h170⟩)

theorem midTick_tracked (ps : List ℚ) (s : State) (hinv : Inv ps s) (p : ℚ)
    (h : Tracked (ps ++ [p]) ps.length) :
    (midTick p s).global_min = min s.global_min (toFloat (ps.getLastD 0 - p)) := by
  have htr := (tracked_new_iff ps s hinv p).mp h
  unfold midTick
  rw [if_neg htr.1]
  by_cases hc : p < 170 ∧ toFloat (s.pre_pressure - p) < s.global_min
  · rw [((beforeAnalysis_env p s).1 hc).1, ← hinv.pre_eq]
    exact (min_eq_right (le_of_lt hc.2)).symm
  · rw [((beforeAnalysis_env p s).2 hc).1, ← hinv.pre_eq]
    have : s.global_min ≤ toFloat (s.pre_pressure - p) := by
      by_contra hh
      exact hc ⟨htr.2, not_le.mp hh⟩
    exact (min_eq_left this).symm

/-- The envelope after the samples `ps` and then `p`, for streams of bounded samples. -/
theorem envelope_after (ps : List ℚ) (p : ℚ) (hb : Bounded (ps ++ [p]))
    (hrun : (runP ps init).isNext = true) (hcap : ps.length < CAP) :
    EnvSpec (ps ++ [p]) (runP (ps ++ [p]) init).state.global_min
      (runP (ps ++ [p]) init).state.argmin (runP (ps ++ [p]) init).state.arg_pressure ∧
    (∀ k, (runP (ps ++ [p]) init).state.pressure k = (ps ++ [p]).getD k 0) ∧
    (¬ Tracked (ps ++ [p]) ps.length →
      (runP (ps ++ [p]) init).state.global_min = (runP ps init).state.global_min ∧
      (runP (ps ++ [p]) init).state.argmin = (runP ps init).state.argmin ∧
      (runP (ps ++ [p]) init).state.arg_pressure = (runP ps init).state.arg_pressure) ∧
    (Tracked (ps ++ [p]) ps.length →
      (runP (ps ++ [p]) init).state.global_min =
        min (runP ps init).state.global_min (fluctOf (ps ++ [p]) ps.length)) := by
  obtain ⟨s, hs, hinv⟩ := run_next_inv ps hrun
  have hbps : Bounded ps := fun x hx => hb x (List.mem_append_left _ hx)
  have henv := (run_env ps s hs).1 hbps
  obtain ⟨e1, e2, e3, e4⟩ := tick_env ps s hinv p hcap
  rw [runP_concat ps p init s hs, hs, e1, e2, e3, e4]
  refine ⟨midTick_env ps s hinv p henv (bounded_fluct ps p hb), ?_,
    midTick_untracked ps s hinv p, ?_⟩
  · intro k
    rcases Nat.lt_trichotomy k ps.length with h | h | h
    · rw [store_other _ _ _ _ (by rw [hinv.i_eq]; omega), getD_snoc_lt _ _ _ h]
      exact hinv.pr_eq k
    · subst h
      rw [← hinv.i_eq, store_self, hinv.i_eq, getD_snoc_self]
    · rw [store_other _ _ _ _ (by rw [hinv.i_eq]; omega), hinv.pr_eq k,
        List.getD_eq_default _ _ (by omega), List.getD_eq_default _ _ (by simp; omega)]
  · intro htr
    rw [fluctOf_snoc_self]
    exact midTick_tracked ps s hinv p htr


/-! ## What an iteration leaves unchanged -/

theorem sbpStage_frame (s : State) :
    (sbpStage s).state.pressure = s.pressure ∧ (sbpStage s).state.fluactuation = s.fluactuation ∧
    (sbpStage s).state.i = s.i := by
  cases h : sbpScan s.pressure s.fluactuation (sp_flc s.global_min) s.argmin with
  | ok r =>
    obtain ⟨j, b⟩ := r
    cases b
    · rw [sbpStage_notfound s j h]; exact ⟨rfl, rfl, rfl⟩
    · rw [sbpStage_found s j h]; exact ⟨rfl, rfl, rfl⟩
  | fault => rw [sbpStage_fault s h]; exact ⟨rfl, rfl, rfl⟩
  | timeout => exact absurd h (sbpScan_ne_timeout _ _ _ _)

theorem dbpStage_frame (s : State) :
    (dbpStage s).state.pressure = s.pressure ∧ (dbpStage s).state.fluactuation = s.fluactuation ∧
    (dbpStage s).state.i = s.i := by
  cases h : dbpScan s.pressure s.fluactuation (dp_flc s.global_min) (CAP + 1) s.argmin with
  | ok r =>
    obtain ⟨j, b⟩ := r
    cases b
    · rw [dbpStage_notfound s j h]; exact ⟨rfl, rfl, rfl⟩
    · rw [dbpStage_found s j h]
      obtain ⟨h1, h2, h3⟩ := sbpStage_frame
        (display { s with dp := s.pressure j } 10 (.dbp (s.pressure j)))
      exact ⟨h1, h2, h3⟩
  | fault => rw [dbpStage_fault s h]; exact ⟨rfl, rfl, rfl⟩
  | timeout => exact absurd h (dbpScan_ne_timeout _ _ _ _ _ (by omega) (by omega))

theorem analysis_frame (s : State) :
    (analysis s).state.pressure = s.pressure ∧ (analysis s).state.fluactuation = s.fluactuation ∧
    (analysis s).state.i = s.i := by
  simp only [analysis]
  split
  · split
    · exact ⟨rfl, rfl, rfl⟩
    · rename_i st e _ _
      obtain ⟨h1, h2, h3⟩ := dbpStage_frame
        (display (display s 8 .finalResult) 9 (.bpm (bpmOf (elapsed st e))))
      exact ⟨h1, h2, h3⟩
  · exact ⟨rfl, rfl, rfl⟩
  · exact ⟨rfl, rfl, rfl⟩

/-- One iteration rewrites no entry of the buffers below the current index. -/
theorem tickP_frame (p : ℚ) (s : State) :
    s.i ≤ (tickP p s).state.i ∧
    ∀ k, k < s.i → (tickP p s).state.pressure k = s.pressure k ∧
      (tickP p s).state.fluactuation k = s.fluactuation k := by
  by_cases hi : s.i < CAP
  · rw [tickP_eq p s hi]
    by_cases hA : s.inflate_flag = true ∧ p ≤ 150
    · rw [if_pos hA, endOfTick_eq _ (by rw [phaseCheck_i]; exact hi)]
      constructor
      · show s.i ≤ (phaseCheck _).i + 1
        rw [phaseCheck_i]
        exact Nat.le_succ _
      · intro k hk
        constructor
        · show (phaseCheck _).pressure k = _
          rw [phaseCheck_pressure]
          exact store_other _ _ _ _ (by omega)
        · show store (phaseCheck _).fluactuation (phaseCheck _).i _ k = _
          rw [phaseCheck_fluactuation, phaseCheck_i]
          show store s.fluactuation s.i _ k = s.fluactuation k
          exact store_other _ _ _ _ (by omega)
    · rw [if_neg hA]
      by_cases h30 : p < 30
      · rw [if_pos h30]
        obtain ⟨h1, h2, h3⟩ := analysis_frame (beforeAnalysis p s)
        rw [h1, h2, h3, beforeAnalysis_i, beforeAnalysis_pressure, beforeAnalysis_fluactuation]
        exact ⟨le_refl _, fun k hk => ⟨store_other _ _ _ _ (by omega), rfl⟩⟩
      · rw [if_neg h30, endOfTick_eq _ (by rw [beforeAnalysis_i]; exact hi)]
        constructor
        · show s.i ≤ (beforeAnalysis p s).i + 1
          rw [beforeAnalysis_i]
          exact Nat.le_succ _
        · intro k hk
          constructor
          · show (beforeAnalysis p s).pressure k = _
            rw [beforeAnalysis_pressure]
            exact store_other _ _ _ _ (by omega)
          · show store (beforeAnalysis p s).fluactuation (beforeAnalysis p s).i _ k = _
            rw [beforeAnalysis_fluactuation, beforeAnalysis_i]
            exact store_other _ _ _ _ (by omega)
  · have hf : tickP p s = .fault s := by simp [tickP, hi]
    rw [hf]
    exact ⟨le_refl _, fun k _ => ⟨rfl, rfl⟩⟩

/-- No later iteration rewrites an entry of the buffers below the current index. -/
theorem runP_frame (qs : List ℚ) :
    ∀ (s : State) (k : Nat), k < s.i →
      (runP qs s).state.pressure k = s.pressure k ∧
      (runP qs s).state.fluactuation k = s.fluactuation k := by
  induction qs with
  | nil => intro s k _; exact ⟨rfl, rfl⟩
  | cons p qs ih =>
    intro s k hk
    obtain ⟨hle, hfr⟩ := tickP_frame p s
    simp only [runP]
    cases ht : tickP p s with
    | next s1 =>
      rw [ht] at hle hfr
      obtain ⟨a1, a2⟩ := ih s1 k (lt_of_lt_of_le hk hle)
      obtain ⟨b1, b2⟩ := hfr k hk
      exact ⟨a1.trans b1, a2.trans b2⟩
    | halt s1 => rw [ht] at hfr; exact hfr k hk
    | fault s1 => rw [ht] at hfr; exact hfr k hk
    | timeout s1 => rw [ht] at hfr; exact hfr k hk

theorem getLastD_le (ps : List ℚ) (h : ∀ x ∈ ps, x ≤ 150) : ps.getLastD 0 ≤ 150 := by
  induction ps using List.reverseRecOn with
  | nil => simp
  | append_singleton qs q _ =>
    have : (qs ++ [q]).getLastD 0 = q := by simp
    rw [this]
    exact h q (by simp)

/-- While no sample has exceeded 150 the envelope keeps its initial values. -/
theorem run_seed (ps : List ℚ) (s : State) (hs : runP ps init = .next s)
    (hall : ∀ x ∈ ps, x ≤ 150) :
    s.global_min = 100000 ∧ s.argmin = 0 ∧ s.arg_pressure = 0 := by
  refine run_induction
    (fun ps s => (∀ x ∈ ps, x ≤ 150) →
      s.global_min = 100000 ∧ s.argmin = 0 ∧ s.arg_pressure = 0) ?_ ?_ ps s hs hall
  · intro _; exact ⟨rfl, rfl, rfl⟩
  · intro ps s p s1 _ hinv ih hlt ht hall2
    have hi : s.i < CAP := by rw [hinv.i_eq]; exact hlt
    have hps : ∀ x ∈ ps, x ≤ 150 := fun x hx => hall2 x (List.mem_append_left _ hx)
    have hA : s.inflate_flag = true ∧ p ≤ 150 := ⟨hinv.flag_iff.mpr hps, hall2 p (by simp)⟩
    have heq := tickP_next_eq p s s1 hi ht
    obtain ⟨g1, g2, g3⟩ := ih hps
    rw [heq]
    show (midTick p s).global_min = _ ∧ (midTick p s).argmin = _ ∧ (midTick p s).arg_pressure = _
    unfold midTick
    rw [if_pos hA, phaseCheck_global_min, phaseCheck_argmin, phaseCheck_arg_pressure]
    exact ⟨g1, g2, g3⟩


theorem run_inflating (ps : List ℚ) (hall : ∀ x ∈ ps, x ≤ 150) (hlen : ps.length ≤ CAP) :
    ∃ s, runP ps init = .next s ∧ Inv ps s := by
  induction ps using List.reverseRecOn with
  | nil => exact ⟨init, rfl, init_inv⟩
  | append_singleton qs p ih =>
    have hq : ∀ x ∈ qs, x ≤ 150 := fun x hx => hall x (List.mem_append_left _ hx)
    have hl : qs.length < CAP := by
      rw [List.length_append] at hlen
      simp at hlen
      omega
    obtain ⟨s, hs, hinv⟩ := ih hq (le_of_lt hl)
    have hno : ¬ ((∃ x ∈ qs, 150 < x) ∧ p < 30) := by
      rintro ⟨⟨x, hx, hx2⟩, _⟩
      exact absurd (hq x hx) (not_le.mpr hx2)
    obtain ⟨s1, h1, hinv1, _⟩ := tickP_next qs s hinv p hl hno
    exact ⟨s1, by rw [runP_concat qs p init s hs, h1], hinv1⟩

theorem bpmValue_bounds (d : ℚ) (hd : 1 ≤ d) :
    13500 / d * (1 - 1 / 100000) ≤
      roundBinary 53 (roundBinary 24 (roundBinary 24
        (10 / roundBinary 24 (roundBinary 53 (d * roundBinary 53 0.04))) * 60) *
          roundBinary 53 0.9) ∧
    roundBinary 53 (roundBinary 24 (roundBinary 24
        (10 / roundBinary 24 (roundBinary 53 (d * roundBinary 53 0.04))) * 60) *
          roundBinary 53 0.9) ≤ 13500 / d * (1 + 1 / 100000) ∧
    0 < roundBinary 53 (roundBinary 24 (roundBinary 24
        (10 / roundBinary 24 (roundBinary 53 (d * roundBinary 53 0.04))) * 60) *
          roundBinary 53 0.9) := by
  have hdpos : 0 < d := by linarith
  have hc4 := roundBinary_bounds 53 (by norm_num) 0.04 (by norm_num)
  have hc9 := roundBinary_bounds 53 (by norm_num) 0.9 (by norm_num)
  have hc4pos : 0 < roundBinary 53 0.04 := roundBinary_pos 53 (by norm_num) _ (by norm_num)
  have hc9pos : 0 < roundBinary 53 0.9 := roundBinary_pos 53 (by norm_num) _ (by norm_num)
  have hx1pos : 0 < d * roundBinary 53 0.04 := mul_pos hdpos hc4pos
  have hx2 := roundBinary_bounds 53 (by norm_num) _ hx1pos
  have hx2pos := roundBinary_pos 53 (by norm_num) _ hx1pos
  have ht := roundBinary_bounds 24 (by norm_num) _ hx2pos
  have htpos := roundBinary_pos 24 (by norm_num) _ hx2pos
  set c4 := roundBinary 53 0.04 with hc4def
  set c9 := roundBinary 53 0.9 with hc9def
  set x2 := roundBinary 53 (d * c4) with hx2def
  set t := roundBinary 24 x2 with htdef
  have hy1pos : 0 < 10 / t := div_pos (by norm_num) htpos
  have hy2 := roundBinary_bounds 24 (by norm_num) _ hy1pos
  have hy2pos := roundBinary_pos 24 (by norm_num) _ hy1pos
  set y2 := roundBinary 24 (10 / t) with hy2def
  have hy3pos : 0 < y2 * 60 := mul_pos hy2pos (by norm_num)
  have hy4 := roundBinary_bounds 24 (by norm_num) _ hy3pos
  have hy4pos := roundBinary_pos 24 (by norm_num) _ hy3pos
  set y4 := roundBinary 24 (y2 * 60) with hy4def
  have hy5pos : 0 < y4 * c9 := mul_pos hy4pos hc9pos
  have hy6 := roundBinary_bounds 53 (by norm_num) _ hy5pos
  have hy6pos := roundBinary_pos 53 (by norm_num) _ hy5pos
  set y6 := roundBinary 53 (y4 * c9) with hy6def
  -- bounds of the elapsed time, relative to d
  have tlo : d * (0.04 * (1 - 1 / 1000000) ^ 3) ≤ t := by
    have a1 : d * (0.04 * (1 - 1 / 1000000)) ≤ d * c4 :=
      mul_le_mul_of_nonneg_left hc4.1 (le_of_lt hdpos)
    have a2 : d * (0.04 * (1 - 1 / 1000000)) * (1 - 1 / 1000000) ≤ x2 :=
      le_trans (mul_le_mul_of_nonneg_right a1 (by norm_num)) hx2.1
    have a3 : d * (0.04 * (1 - 1 / 1000000)) * (1 - 1 / 1000000) * (1 - 1 / 1000000) ≤ t :=
      le_trans (mul_le_mul_of_nonneg_right a2 (by norm_num)) ht.1
    calc d * (0.04 * (1 - 1 / 1000000) ^ 3)
        = d * (0.04 * (1 - 1 / 1000000)) * (1 - 1 / 1000000) * (1 - 1 / 1000000) := by ring
      _ ≤ t := a3
  have thi : t ≤ d * (0.04 * (1 + 1 / 1000000) ^ 3) := by
    have a1 : d * c4 ≤ d * (0.04 * (1 + 1 / 1000000)) :=
      mul_le_mul_of_nonneg_left hc4.2 (le_of_lt hdpos)
    have a2 : x2 ≤ d * (0.04 * (1 + 1 / 1000000)) * (1 + 1 / 1000000) :=
      le_trans hx2.2 (mul_le_mul_of_nonneg_right a1 (by norm_num))
    have a3 : t ≤ d * (0.04 * (1 + 1 / 1000000)) * (1 + 1 / 1000000) * (1 + 1 / 1000000) :=
      le_trans ht.2 (mul_le_mul_of_nonneg_right a2 (by norm_num))
    calc t ≤ d * (0.04 * (1 + 1 / 1000000)) * (1 + 1 / 1000000) * (1 + 1 / 1000000) := a3
      _ = d * (0.04 * (1 + 1 / 1000000) ^ 3) := by ring
  have q1 : 10 / t ≤ 10 / (d * (0.04 * (1 - 1 / 1000000) ^ 3)) :=
    div_le_div_of_nonneg_left (by norm_num) (mul_pos hdpos (by norm_num)) tlo
  have q2 : 10 / (d * (0.04 * (1 + 1 / 1000000) ^ 3)) ≤ 10 / t :=
    div_le_div_of_nonneg_left (by norm_num) htpos thi
  have e1 : 10 / (d * (0.04 * (1 - 1 / 1000000) ^ 3)) =
      1 / d * (10 / (0.04 * (1 - 1 / 1000000) ^ 3)) := by
    field_simp
  have e2 : 10 / (d * (0.04 * (1 + 1 / 1000000) ^ 3)) =
      1 / d * (10 / (0.04 * (1 + 1 / 1000000) ^ 3)) := by
    field_simp
  rw [e1] at q1
  rw [e2] at q2
  have hinv : 0 < 1 / d := by positivity
  refine ⟨?_, ?_, hy6pos⟩
  · -- lower bound
    have b2 : 1 / d * (10 / (0.04 * (1 + 1 / 1000000) ^ 3)) * (1 - 1 / 1000000) ≤ y2 :=
      le_trans (mul_le_mul_of_nonneg_right q2 (by norm_num)) hy2.1
    have b4 : 1 / d * (10 / (0.04 * (1 + 1 / 1000000) ^ 3)) * (1 - 1 / 1000000) * 60 *
        (1 - 1 / 1000000) ≤ y4 :=
      le_trans (mul_le_mul_of_nonneg_right (mul_le_mul_of_nonneg_right b2 (by norm_num))
        (by norm_num)) hy4.1
    have b5 : 1 / d * (10 / (0.04 * (1 + 1 / 1000000) ^ 3)) * (1 - 1 / 1000000) * 60 *
        (1 - 1 / 1000000) * (0.9 * (1 - 1 / 1000000)) ≤ y4 * c9 :=
      mul_le_mul b4 hc9.1 (by norm_num) (le_of_lt hy4pos)
    have b6 : 1 / d * (10 / (0.04 * (1 + 1 / 1000000) ^ 3)) * (1 - 1 / 1000000) * 60 *
        (1 - 1 / 1000000) * (0.9 * (1 - 1 / 1000000)) * (1 - 1 / 1000000) ≤ y6 :=
      le_trans (mul_le_mul_of_nonneg_right b5 (by norm_num)) hy6.1
    have c : (13500 * (1 - 1 / 100000) : ℚ) ≤
        (10 / (0.04 * (1 + 1 / 1000000) ^ 3)) * (1 - 1 / 1000000) * 60 *
        (1 - 1 / 1000000) * (0.9 * (1 - 1 / 1000000)) * (1 - 1 / 1000000) := by norm_num
    calc 13500 / d * (1 - 1 / 100000) = 1 / d * (13500 * (1 - 1 / 100000)) := by ring
      _ ≤ 1 / d * ((10 / (0.04 * (1 + 1 / 1000000) ^ 3)) * (1 - 1 / 1000000) * 60 *
        (1 - 1 / 1000000) * (0.9 * (1 - 1 / 1000000)) * (1 - 1 / 1000000)) :=
          mul_le_mul_of_nonneg_left c (le_of_lt hinv)
      _ = 1 / d * (10 / (0.04 * (1 + 1 / 1000000) ^ 3)) * (1 - 1 / 1000000) * 60 *
        (1 - 1 / 1000000) * (0.9 * (1 - 1 / 1000000)) * (1 - 1 / 1000000) := by ring
      _ ≤ y6 := b6
  · -- upper bound
    have b2 : y2 ≤ 1 / d * (10 / (0.04 * (1 - 1 / 1000000) ^ 3)) * (1 + 1 / 1000000) :=
      le_trans hy2.2 (mul_le_mul_of_nonneg_right q1 (by norm_num))
    have b4 : y4 ≤ 1 / d * (10 / (0.04 * (1 - 1 / 1000000) ^ 3)) * (1 + 1 / 1000000) * 60 *
        (1 + 1 / 1000000) :=
      le_trans hy4.2 (mul_le_mul_of_nonneg_right (mul_le_mul_of_nonneg_right b2 (by norm_num))
        (by norm_num))
    have b5 : y4 * c9 ≤ 1 / d * (10 / (0.04 * (1 - 1 / 1000000) ^ 3)) * (1 + 1 / 1000000) * 60 *
        (1 + 1 / 1000000) * (0.9 * (1 + 1 / 1000000)) :=
      mul_le_mul b4 hc9.2 (le_of_lt hc9pos)
        (by have : 0 ≤ 1 / d := le_of_lt hinv
            positivity)
    have b6 : y6 ≤ 1 / d * (10 / (0.04 * (1 - 1 / 1000000) ^ 3)) * (1 + 1 / 1000000) * 60 *
        (1 + 1 / 1000000) * (0.9 * (1 + 1 / 1000000)) * (1 + 1 / 1000000) :=
      le_trans hy6.2 (mul_le_mul_of_nonneg_right b5 (by norm_num))
    have c : (10 / (0.04 * (1 - 1 / 1000000) ^ 3)) * (1 + 1 / 1000000) * 60 *
        (1 + 1 / 1000000) * (0.9 * (1 + 1 / 1000000)) * (1 + 1 / 1000000) ≤
        (13500 * (1 + 1 / 100000) : ℚ) := by norm_num
    calc y6 ≤ 1 / d * (10 / (0.04 * (1 - 1 / 1000000) ^ 3)) * (1 + 1 / 1000000) * 60 *
        (1 + 1 / 1000000) * (0.9 * (1 + 1 / 1000000)) * (1 + 1 / 1000000) := b6
      _ = 1 / d * ((10 / (0.04 * (1 - 1 / 1000000) ^ 3)) * (1 + 1 / 1000000) * 60 *
        (1 + 1 / 1000000) * (0.9 * (1 + 1 / 1000000)) * (1 + 1 / 1000000)) := by ring
      _ ≤ 1 / d * (13500 * (1 + 1 / 100000)) := mul_le_mul_of_nonneg_left c (le_of_lt hinv)
      _ = 13500 / d * (1 + 1 / 100000) := by ring

/-- The BPM computed in floating point is the whole part of `13500 / (end - start)`, or one
less. -/
theorem bpmOf_near (st : Int) (e : Nat) (h : st < (e : Int)) :
    ⌊(13500 : ℚ) / (((e : Int) - st : Int) : ℚ)⌋ - 1 ≤ bpmOf (elapsed st e) ∧
    bpmOf (elapsed st e) ≤ ⌊(13500 : ℚ) / (((e : Int) - st : Int) : ℚ)⌋ := by
  have hdi : (1 : Int) ≤ (e : Int) - st := by omega
  have hd : (1 : ℚ) ≤ (((e : Int) - st : Int) : ℚ) := by exact_mod_cast hdi
  obtain ⟨hlo, hhi, hpos⟩ := bpmValue_bounds _ hd
  have hval : bpmOf (elapsed st e) = ⌊roundBinary 53 (roundBinary 24 (roundBinary 24
        (10 / roundBinary 24 (roundBinary 53 ((((e : Int) - st : Int) : ℚ) *
          roundBinary 53 0.04))) * 60) * roundBinary 53 0.9)⌋ := by
    unfold bpmOf elapsed toFloat toDouble truncate
    rw [if_pos (le_of_lt hpos)]
  rw [hval]
  set d : Int := (e : Int) - st with hddef
  set y := roundBinary 53 (roundBinary 24 (roundBinary 24
        (10 / roundBinary 24 (roundBinary 53 ((d : ℚ) * roundBinary 53 0.04))) * 60) *
          roundBinary 53 0.9) with hy
  set n := ⌊(13500 : ℚ) / (d : ℚ)⌋ with hn
  have hdq : (0 : ℚ) < (d : ℚ) := by linarith
  have hn1 : (n : ℚ) ≤ 13500 / (d : ℚ) := Int.floor_le _
  have hn2 : (13500 : ℚ) / (d : ℚ) < (n : ℚ) + 1 := Int.lt_floor_add_one _
  have hV : (13500 : ℚ) / (d : ℚ) ≤ 13500 := by
    rw [div_le_iff₀ hdq]
    nlinarith
  have hn0 : (0 : ℚ) ≤ 13500 / (d : ℚ) := by positivity
  constructor
  · apply Int.le_floor.mpr
    push_cast
    nlinarith
  · have hlt : (13500 : Int) < (n + 1) * d := by
      have : (13500 : ℚ) < ((n : ℚ) + 1) * (d : ℚ) := by
        rwa [div_lt_iff₀ hdq] at hn2
      exact_mod_cast this
    have hle : (13500 : Int) + 1 ≤ (n + 1) * d := by omega
    have hleq : (13500 : ℚ) + 1 ≤ ((n : ℚ) + 1) * (d : ℚ) := by exact_mod_cast hle
    have hfrac : (13500 : ℚ) / (d : ℚ) + 1 / (d : ℚ) ≤ (n : ℚ) + 1 := by
      rw [← add_div, div_le_iff₀ hdq]
      exact hleq
    have hsmall : (13500 : ℚ) / (d : ℚ) * (1 / 100000) < 1 / (d : ℚ) := by
      rw [div_mul_eq_mul_div, div_lt_div_iff_of_pos_right hdq]
      norm_num
    have hy1 : y < (n : ℚ) + 1 := by
      have : y ≤ 13500 / (d : ℚ) + 13500 / (d : ℚ) * (1 / 100000) := by
        calc y ≤ 13500 / (d : ℚ) * (1 + 1 / 100000) := hhi
          _ = _ := by ring
      linarith
    have : ⌊y⌋ < n + 1 := Int.floor_lt.mpr (by exact_mod_cast hy1)
    omega

theorem alternating_runs : ∀ (n j : Nat), ∃ l : List (Nat × Nat),
    l.length = n ∧ RunsFrom alternating (2 * j) l ∧ scanEnd (2 * j) l = 2 * j + 2 * n := by
  intro n
  induction n with
  | zero => intro j; exact ⟨[], rfl, trivial, rfl⟩
  | succ n ih =>
    intro j
    obtain ⟨l, h1, h2, h3⟩ := ih (j + 1)
    refine ⟨(2 * j, 2 * j + 1) :: l, by simp [h1], ⟨?_, h2⟩, ?_⟩
    · refine ⟨le_refl _, by omega, fun k h1 h2 => by omega, ?_, ?_⟩
      · intro k hk1 hk2
        have : k = 2 * j := by omega
        subst this
        simp [alternating]
      · simp [alternating, Nat.add_mod]
    · show scanEnd (2 * j + 1 + 1) l = _
      have : 2 * j + 1 + 1 = 2 * (j + 1) := by ring
      rw [this, h3]
      ring

theorem window_iff (flc : ℚ) : (∃ f : ℚ, f < 0 ∧ f > flc * 1.2 ∧ f < flc * 0.8) ↔ flc < 0 := by
  constructor
  · rintro ⟨f, _, h2, h3⟩
    by_contra hc
    have : 0 ≤ flc := not_lt.mp hc
    have e1 : flc * 0.8 ≤ flc * 1.2 := by
      apply mul_le_mul_of_nonneg_left _ this
      norm_num
    linarith
  · intro h
    refine ⟨flc, h, ?_, ?_⟩
    · have : flc * 1.2 = flc + flc * 0.2 := by ring
      rw [this]
      have : flc * 0.2 < 0 := mul_neg_of_neg_of_pos h (by norm_num)
      linarith
    · have : flc * 0.8 = flc - flc * 0.2 := by ring
      rw [this]
      have : flc * 0.2 < 0 := mul_neg_of_neg_of_pos h (by norm_num)
      linarith

/-- The window of the band tests, with the bounds as the program computes them, has a
solution exactly when `flc < 0`. -/
theorem window_float_iff (flc : ℚ) :
    (∃ f : ℚ, f < 0 ∧ f > toDouble (flc * toDouble 1.2) ∧ f < toDouble (flc * toDouble 0.8)) ↔
      flc < 0 := by
  have c12 := roundBinary_bounds 53 (by norm_num) 1.2 (by norm_num)
  have c08 := roundBinary_bounds 53 (by norm_num) 0.8 (by norm_num)
  have p12 : 0 < toDouble 1.2 := roundBinary_pos 53 (by norm_num) _ (by norm_num)
  have p08 : 0 < toDouble 0.8 := roundBinary_pos 53 (by norm_num) _ (by norm_num)
  constructor
  · rintro ⟨f, h1, h2, _⟩
    by_contra hc
    have h0 : 0 ≤ flc * toDouble 1.2 := mul_nonneg (not_lt.mp hc) (le_of_lt p12)
    have := roundBinary_nonneg 53 (by norm_num) _ h0
    unfold toDouble at h2 this
    linarith
  · intro h
    have x1 : flc * toDouble 1.2 < 0 := mul_neg_of_neg_of_pos h p12
    have x2 : flc * toDouble 0.8 < 0 := mul_neg_of_neg_of_pos h p08
    have b1 := (roundBinary_bounds_neg 53 (by norm_num) _ x1).2
    have b2 := (roundBinary_bounds_neg 53 (by norm_num) _ x2).1
    have n2 := roundBinary_neg_of_neg 53 (by norm_num) _ x2
    have hlt : roundBinary 53 (flc * toDouble 1.2) < roundBinary 53 (flc * toDouble 0.8) := by
      have e1 : flc * toDouble 1.2 ≤ flc * (1.2 * (1 - 1 / 1000000)) :=
        mul_le_mul_of_nonpos_left c12.1 (le_of_lt h)
      have e2 : flc * (0.8 * (1 + 1 / 1000000)) ≤ flc * toDouble 0.8 :=
        mul_le_mul_of_nonpos_left c08.2 (le_of_lt h)
      have e3 : flc * toDouble 1.2 * (1 - 1 / 1000000) ≤
          flc * (1.2 * (1 - 1 / 1000000)) * (1 - 1 / 1000000) :=
        mul_le_mul_of_nonneg_right e1 (by norm_num)
      have e4 : flc * (0.8 * (1 + 1 / 1000000)) * (1 + 1 / 1000000) ≤
          flc * toDouble 0.8 * (1 + 1 / 1000000) :=
        mul_le_mul_of_nonneg_right e2 (by norm_num)
      have e5 : flc * (1.2 * (1 - 1 / 1000000)) * (1 - 1 / 1000000) <
          flc * (0.8 * (1 + 1 / 1000000)) * (1 + 1 / 1000000) := by
        have : flc * (1.2 * (1 - 1 / 1000000)) * (1 - 1 / 1000000) -
            flc * (0.8 * (1 + 1 / 1000000)) * (1 + 1 / 1000000) =
            flc * (1.2 * (1 - 1 / 1000000) * (1 - 1 / 1000000) -
              0.8 * (1 + 1 / 1000000) * (1 + 1 / 1000000)) := by ring
        have hpos : (0 : ℚ) < 1.2 * (1 - 1 / 1000000) * (1 - 1 / 1000000) -
              0.8 * (1 + 1 / 1000000) * (1 + 1 / 1000000) := by norm_num
        have := mul_neg_of_neg_of_pos h hpos
        linarith
      linarith
    unfold toDouble at *
    refine ⟨(roundBinary 53 (flc * roundBinary 53 1.2) +
      roundBinary 53 (flc * roundBinary 53 0.8)) / 2, ?_, ?_, ?_⟩ <;> linarith

theorem no_accept (pr fl : Buf) (c : ℚ) (j : Nat) (hc : 0 ≤ c) :
    ¬ dbpAccept pr fl c j ∧ ¬ sbpAccept pr fl c j := by
  have hw := (window_float_iff c).not.mpr (not_lt.mpr hc)
  constructor
  · rintro ⟨h1, h2, h3, _⟩
    exact hw ⟨fl j, h1, h2, h3⟩
  · rintro ⟨h1, h2, h3, _⟩
    exact hw ⟨fl j, h1, h2, h3⟩

theorem dp_flc_nonneg (gm : ℚ) (h : 0 ≤ gm) : 0 ≤ dp_flc gm := by
  unfold dp_flc toFloat toDouble
  apply roundBinary_nonneg 24 (by norm_num)
  apply roundBinary_nonneg 53 (by norm_num)
  exact mul_nonneg h (roundBinary_nonneg 53 (by norm_num) _ (by norm_num))

theorem sp_flc_nonneg (gm : ℚ) (h : 0 ≤ gm) : 0 ≤ sp_flc gm := by
  unfold sp_flc toFloat toDouble
  apply roundBinary_nonneg 24 (by norm_num)
  apply roundBinary_nonneg 53 (by norm_num)
  exact mul_nonneg h (roundBinary_nonneg 53 (by norm_num) _ (by norm_num))

theorem displayed_bpm (s : State) (hat : AtAnalysis s) (st : Int) (e : Nat)
    (hb : bpmLoop s.fluactuation (CAP + 1) s.argmin 0 (-1) = .ok (st, e)) :
    (⟨9, .bpm (bpmOf (elapsed st e))⟩ : Event) ∈ (analysis s).state.lcd := by
  rcases analysis_cases s hat with ⟨hlt, _⟩ | ⟨_, st1, e1, he, _, _, _, j, b, _, _, _, hcase⟩
  · have := (bpmLoop_spec s.fluactuation s.i hat.i_lt
      (fun k hk => by rw [hat.fl_zero k hk]; norm_num) (CAP + 1) s.argmin 0 (-1)
      (by omega) (by omega)).2 (by omega)
    rw [this] at hb
    cases hb
  · rw [hb] at he
    have h1 : st1 = st := (Prod.mk.inj (Scan.ok.inj he)).1.symm
    have h2 : e1 = e := (Prod.mk.inj (Scan.ok.inj he)).2.symm
    subst h1
    subst h2
    rcases hcase with ⟨_, ha⟩ | ⟨_, ⟨_, ha⟩ | ⟨j1, _, ha⟩ | ⟨j1, _, ha⟩⟩
    all_goals rw [ha]
    all_goals simp [Step.state]

theorem scanEnd_last : ∀ (l : List (Nat × Nat)) (m : Nat), l ≠ [] →
    l.getLast?.map (fun r => r.2 + 1) = some (scanEnd m l) := by
  intro l
  induction l with
  | nil => intro m h; exact absurd rfl h
  | cons r rest ih =>
    intro m _
    obtain ⟨s, t⟩ := r
    cases rest with
    | nil => rfl
    | cons r1 rest1 =>
      have := ih (t + 1) (by simp)
      rw [List.getLast?_cons_cons]
      exact this

theorem startOf_first (l : List (Nat × Nat)) (h : l ≠ []) :
    l.head?.map (fun r => (r.1 : Int)) = some (startOf (-1) l) := by
  cases l with
  | nil => exact absurd rfl h
  | cons r rest =>
    obtain ⟨s, t⟩ := r
    simp [startOf]

theorem phase_eq (P r q x : Nat) (hr : r < P) (h : x = r + q * P) : x % P = r := by
  rw [h, Nat.add_mul_mod_self_right, Nat.mod_eq_of_lt hr]

theorem runsFrom_periods (fl : Buf) (a P L N : Nat) (hL : 0 < L) (hLP : L < P)
    (hneg : ∀ j, j < N → ∀ r, r < L → fl (a + j * P + r) < 0)
    (hgap : ∀ j, j + 1 < N → ∀ r, r < P → L ≤ r → ¬ fl (a + j * P + r) < 0)
    (hstop : ∀ j, j < N → ¬ fl (a + j * P + L) < 0) :
    ∀ (n j m : Nat), j + (n + 1) ≤ N → m ≤ a + j * P →
      (∀ k, m ≤ k → k < a + j * P → ¬ fl k < 0) →
      ∃ l : List (Nat × Nat), l.length = n + 1 ∧ RunsFrom fl m l ∧
        (∀ r ∈ l, r.2 ≤ a + (j + n) * P + L) ∧
        scanEnd m l = a + (j + n) * P + L + 1 := by
  intro n
  induction n with
  | zero =>
    intro j m hj hm hgap0
    refine ⟨[(a + j * P, a + j * P + L)], rfl, ⟨⟨hm, by omega, hgap0, ?_, ?_⟩, trivial⟩, ?_, ?_⟩
    · intro k hk1 hk2
      have : k = a + j * P + (k - (a + j * P)) := by omega
      rw [this]
      exact hneg j (by omega) _ (by omega)
    · exact hstop j (by omega)
    · intro r hr
      simp only [List.mem_singleton] at hr
      subst hr
      exact le_refl _
    · rfl
  | succ n ih =>
    intro j m hj hm hgap0
    have hmul : (j + 1) * P = j * P + P := by ring
    have hgap2 : ∀ k, a + j * P + L + 1 ≤ k → k < a + (j + 1) * P → ¬ fl k < 0 := by
      intro k hk1 hk2
      have : k = a + j * P + (k - (a + j * P)) := by omega
      rw [this]
      exact hgap j (by omega) _ (by omega) (by omega)
    obtain ⟨l, h1, h2, h3, h4⟩ := ih (j + 1) (a + j * P + L + 1) (by omega) (by omega) hgap2
    have hidx : (j + 1 + n) * P = (j + (n + 1)) * P := by
      have : j + 1 + n = j + (n + 1) := by omega
      rw [this]
    refine ⟨(a + j * P, a + j * P + L) :: l, by simp [h1],
      ⟨⟨hm, by omega, hgap0, ?_, ?_⟩, h2⟩, ?_, ?_⟩
    · intro k hk1 hk2
      have : k = a + j * P + (k - (a + j * P)) := by omega
      rw [this]
      exact hneg j (by omega) _ (by omega)
    · exact hstop j (by omega)
    · intro r hr
      rcases List.mem_cons.mp hr with h | h
      · subst h
        have : j * P ≤ (j + (n + 1)) * P := Nat.mul_le_mul_right P (by omega)
        show a + j * P + L ≤ a + (j + (n + 1)) * P + L
        omega
      · have := h3 r h
        rw [hidx] at this
        exact this
    · show scanEnd (a + j * P + L + 1) l = a + (j + (n + 1)) * P + L + 1
      rw [h4, hidx]

/-- The scan over a first run of `L1` negative fluctuations met `g` samples after `m`,
followed by `P - L` non-negative ones and nine periods of `L` negative and `P - L`
non-negative fluctuations. -/
theorem bpmLoop_first_then_periods (fl : Buf) (a g L1 P L : Nat) (hL1 : 0 < L1) (hL : 0 < L)
    (hLP : L < P)
    (hgap0 : ∀ k, k < g → ¬ fl (a + k) < 0)
    (hrun0 : ∀ k, k < L1 → fl (a + g + k) < 0)
    (hneg : ∀ j, j < 9 → ∀ r, r < L → fl (a + g + L1 + (P - L) + j * P + r) < 0)
    (hgap : ∀ j, j < 9 → ∀ r, r < P → L ≤ r → (j = 8 → r = L) →
      ¬ fl (a + g + L1 + (P - L) + j * P + r) < 0)
    (hfirst : ∀ k, k < P - L → ¬ fl (a + g + L1 + k) < 0)
    (hcap : a + g + L1 + 9 * P < CAP) :
    bpmLoop fl (CAP + 1) a 0 (-1) = .ok (((a + g : Nat) : Int), a + g + 9 * P + L1 + 1) := by
  obtain ⟨l, hlen, hl, hbound, hend⟩ :=
    runsFrom_periods fl (a + g + L1 + (P - L)) P L 9 hL hLP hneg
      (fun j hj r hr hLr => hgap j (by omega) r hr hLr (by omega))
      (fun j hj => hgap j hj L hLP (le_refl _) (fun _ => rfl))
      8 0 (a + g + L1 + 1) (by omega) (by omega)
      (by
        intro k hk1 hk2
        have : k = a + g + L1 + (k - (a + g + L1)) := by omega
        rw [this]
        exact hfirst _ (by omega))
  have hruns : RunsFrom fl a ((a + g, a + g + L1) :: l) := by
    refine ⟨⟨by omega, by omega, ?_, ?_, ?_⟩, hl⟩
    · intro k hk1 hk2
      have : k = a + (k - a) := by omega
      rw [this]
      exact hgap0 _ (by omega)
    · intro k hk1 hk2
      have : k = a + g + (k - (a + g)) := by omega
      rw [this]
      exact hrun0 _ (by omega)
    · have := hfirst 0 (by omega)
      simpa using this
  have h9 : (0 + 8) * P = 8 * P := by simp
  have hb := bpmLoop_of_runs fl (CAP + 1) a 0 (-1) _ hruns (by simp [hlen])
    (by
      intro r hr
      rcases List.mem_cons.mp hr with h | h
      · subst h
        show a + g + L1 < CAP
        omega
      · have := hbound r h
        rw [h9] at this
        omega)
    (by omega) (by omega)
  rw [hb]
  have e1 : startOf (-1) ((a + g, a + g + L1) :: l) = ((a + g : Nat) : Int) := by
    simp [startOf]
  have e2 : scanEnd a ((a + g, a + g + L1) :: l) = a + g + 9 * P + L1 + 1 := by
    show scanEnd (a + g + L1 + 1) l = _
    rw [hend, h9]
    omega
  rw [e1, e2]


/-! ## The claims -/

/-- C1, as amended: in every run in which the DBP search finds no accepting sample, so that
"Test Fail!" is displayed on the DBP line, the run ends at once through `break`: that message
is the last display event and nothing is ever displayed on the SBP line.  The SBP search is
not performed. -/
theorem C1_dbp_failure_ends_run (ps : List ℚ)
    (h : (⟨10, .testFail⟩ : Event) ∈ (runP ps init).state.lcd) :
    (runP ps init).isHalt = true ∧
    (runP ps init).state.lcd.getLast? = some ⟨10, .testFail⟩ ∧
    (∀ e ∈ (runP ps init).state.lcd, e.line ≠ 11) ∧
    ¬ ∃ j, DbpFirst (runP ps init).state j := by
  rcases run_outcome ps with ⟨s, hs, hinv⟩ | ⟨s, hs, _, hlog⟩ | ⟨s, hat, hs⟩
  · rw [hs] at h
    rcases hinv.log _ h with h1 | h1 | h1 <;> simp at h1
  · rw [hs] at h
    rcases hlog _ h with h1 | h1 | h1 <;> simp at h1
  · rw [hs] at h ⊢
    rcases analysis_cases s hat with ⟨_, ha⟩ | ⟨_, st, e, _, _, _, _, j, b, hd, _, _, hcase⟩
    · rw [ha] at h
      have := mem_analysis_events _ _ _ hat.log h (by simp)
      simp at this
    · obtain ⟨_, _, hbefore, _, hstop⟩ := dbpScan_ok _ _ _ _ _ _ _ hd
      rcases hcase with ⟨hb, ha⟩ | ⟨hb, ⟨_, ha⟩ | ⟨j1, _, ha⟩ | ⟨j1, _, ha⟩⟩
      · rw [ha]
        refine ⟨rfl, by simp [Step.state], ?_, ?_⟩
        · intro ev hev
          simp only [Step.state, List.mem_append, List.mem_cons, List.mem_singleton,
            List.not_mem_nil, or_false] at hev
          rcases hev with h1 | h1 | h1 | h1
          · rcases hat.log _ h1 with h2 | h2 | h2 <;> omega
          · subst h1; simp
          · subst h1; simp
          · subst h1; simp
        · rintro ⟨j2, h1, h2, h3, h4⟩
          simp only [Step.state, DbpQualifies] at h1 h2 h3 h4
          have hlow := hstop hb
          rcases Nat.lt_or_ge j j2 with hlt | hge
          · exact absurd (h2 j (by omega) (by omega)) (not_lt.mpr hlow)
          · rcases Nat.eq_or_lt_of_le hge with e1 | l
            · subst e1
              exact absurd h3.2.2.2.1 (not_lt.mpr (le_trans hlow (by norm_num)))
            · apply (hbefore j2 h1 l).2
              unfold dbpAccept
              refine ⟨h3.1, ?_, ?_, h3.2.2.2.1, h3.2.2.2.2⟩
              · have := h3.2.1; linarith
              · have := h3.2.2.1; linarith
      · rw [ha] at h
        have := mem_analysis_events _ _ _ hat.log h (by simp)
        simp at this
      · rw [ha] at h
        have := mem_analysis_events _ _ _ hat.log h (by simp)
        simp at this
      · rw [ha] at h
        have := mem_analysis_events _ _ _ hat.log h (by simp)
        simp at this

/-- C1: witness of `C1_dbp_failure_ends_run` on the run `dbpFailData`. -/
theorem C1_dbp_failure_ends_run_witness :
    (⟨10, .testFail⟩ : Event) ∈ (runP (dbpFailData.map convertFloat) init).state.lcd ∧
    (runP (dbpFailData.map convertFloat) init).isHalt = true ∧
    (runP (dbpFailData.map convertFloat) init).state.lcd.getLast? = some ⟨10, .testFail⟩ ∧
    (∀ e ∈ (runP (dbpFailData.map convertFloat) init).state.lcd, e.line ≠ 11) ∧
    ¬ ∃ j, DbpFirst (runP (dbpFailData.map convertFloat) init).state j :=
  have h : (⟨10, .testFail⟩ : Event) ∈ (runP (dbpFailData.map convertFloat) init).state.lcd := by
    decide!
  ⟨h, C1_dbp_failure_ends_run (dbpFailData.map convertFloat) h⟩

/-- C1, counterexample: in the run `dbpFailData` the DBP search fails ("Test Fail!" on the DBP
line) and the sample of index 4 qualifies as SBP within the backward scan range (`argmin` is 6
and the pressures of indices 6, 5, 4 are below 170), yet nothing is displayed on the SBP
line. -/
theorem C1_counterexample :
    (⟨10, .testFail⟩ : Event) ∈ (run dbpFailData).state.lcd ∧
    (run dbpFailData).state.argmin = 6 ∧
    (run dbpFailData).state.pressure 6 < 170 ∧
    (run dbpFailData).state.pressure 5 < 170 ∧
    (run dbpFailData).state.pressure 4 < 170 ∧
    SbpQualifies (run dbpFailData).state 4 ∧
    (∀ e ∈ (run dbpFailData).state.lcd, e.line ≠ 11) := by
  decide!

/-- C2, the defect in general: whenever the loop is still going on after 1500 samples, the
next iteration runs with `i = 1500` and stores `pressure[1500]`, outside the array, and no
"Test Fail!" has been displayed on the lines 10 and 11 by then. -/
theorem C2_store_past_capacity (ps : List ℚ) (p : ℚ) (h : (runP ps init).isNext = true)
    (hlen : ps.length = 1500) :
    (runP (ps ++ [p]) init).isFault = true ∧
    (runP (ps ++ [p]) init).state.i = 1500 ∧
    (∀ e ∈ (runP (ps ++ [p]) init).state.lcd, e.line ≠ 10 ∧ e.line ≠ 11) := by
  rcases run_outcome ps with ⟨s, hs, hinv⟩ | ⟨s, hs, _, _⟩ | ⟨s, _, hs⟩
  · have hi : s.i = 1500 := by rw [hinv.i_eq, hlen]
    have hnot : ¬ s.i < CAP := by rw [hi]; decide
    have ht : tickP p s = .fault s := by simp [tickP, hnot]
    rw [runP_concat ps p init s hs, ht]
    refine ⟨rfl, hi, ?_⟩
    intro e he
    rcases hinv.log e he with h1 | h1 | h1 <;> simp [h1]
  · rw [hs] at h; simp [Step.isNext] at h
  · rw [hs] at h
    cases ha : analysis s with
    | next s1 => exact absurd ha (analysis_ne_next s s1)
    | halt s1 => rw [ha] at h; simp [Step.isNext] at h
    | fault s1 => rw [ha] at h; simp [Step.isNext] at h
    | timeout s1 => rw [ha] at h; simp [Step.isNext] at h

/-- C2, the failing input: 1500 samples of raw code 419425 (pressure 0) followed by one more
sample; the iteration for the last sample stores `pressure[1500]`. -/
theorem C2_store_past_capacity_witness :
    (runP ((List.replicate 1500 419425).map convertFloat) init).isNext = true ∧
    (runP ((List.replicate 1500 419425).map convertFloat ++ [convertFloat 419425]) init).isFault = true ∧
    (runP ((List.replicate 1500 419425).map convertFloat ++ [convertFloat 419425]) init).state.i = 1500 ∧
    (∀ e ∈ (runP ((List.replicate 1500 419425).map convertFloat ++ [convertFloat 419425]) init).state.lcd,
      e.line ≠ 10 ∧ e.line ≠ 11) :=
  have h : (runP ((List.replicate 1500 419425).map convertFloat) init).isNext = true := by decide!
  ⟨h, C2_store_past_capacity ((List.replicate 1500 419425).map convertFloat) (convertFloat 419425) h
    (by rw [List.length_map, List.length_replicate])⟩

/-- C3, as amended: no run displays a BPM failure, every event of the BPM line is a BPM value;
and in every run that reaches the analysis step with at least 10 runs of negative
fluctuations between `argmin` and the end of the recorded samples, the cycle-counting scan
ends with `end_index ≤ i + 1`, the BPM is displayed and the DBP search is performed (a DBP
value or "Test Fail!" is displayed on the DBP line). -/
theorem C3_bpm_scan (ps : List ℚ)
    (h : (⟨8, .finalResult⟩ : Event) ∈ (runP ps init).state.lcd) :
    (∀ ev ∈ (runP ps init).state.lcd, ev.line = 9 → ∃ n, ev.text = .bpm n) ∧
    (10 ≤ negRuns (runP ps init).state.fluactuation (runP ps init).state.argmin
        (runP ps init).state.i →
      ∃ (start : Int) (e : Nat),
        bpmLoop (runP ps init).state.fluactuation (CAP + 1) (runP ps init).state.argmin 0 (-1)
          = .ok (start, e) ∧
        ((runP ps init).state.argmin : Int) ≤ start ∧ start < e ∧
        e ≤ (runP ps init).state.i + 1 ∧
        (⟨9, .bpm (bpmOf (elapsed start e))⟩ : Event) ∈ (runP ps init).state.lcd ∧
        ∃ ev ∈ (runP ps init).state.lcd, ev.line = 10) := by
  rcases run_outcome ps with ⟨s, hs, hinv⟩ | ⟨s, hs, _, hlog⟩ | ⟨s, hat, hs⟩
  · rw [hs] at h
    rcases hinv.log _ h with h1 | h1 | h1 <;> simp at h1
  · rw [hs] at h
    rcases hlog _ h with h1 | h1 | h1 <;> simp at h1
  · rw [hs]
    rcases analysis_cases s hat with ⟨hlt, ha⟩ | ⟨_, st, e, he, b1, b2, b3, j, b, hd, _, _, hcase⟩
    · rw [ha]
      constructor
      · intro ev hev h9
        have := mem_analysis_events _ _ _ hat.log hev (by omega)
        simp at this
        subst this
        simp at h9
      · intro h10
        simp only [Step.state] at h10
        omega
    · have key : ∀ (r : Step) (dpv spv : ℚ) (t : List Event),
          r.state =
            { s with dp := dpv, sp := spv,
                     lcd := s.lcd ++
                       ([⟨8, .finalResult⟩, ⟨9, .bpm (bpmOf (elapsed st e))⟩] ++ t) } →
          (∀ x ∈ t, x.line = 10 ∨ x.line = 11) → (∃ x ∈ t, x.line = 10) →
          (∀ ev ∈ r.state.lcd, ev.line = 9 → ∃ n, ev.text = .bpm n) ∧
          (10 ≤ negRuns r.state.fluactuation r.state.argmin r.state.i →
            ∃ (start : Int) (e : Nat),
              bpmLoop r.state.fluactuation (CAP + 1) r.state.argmin 0 (-1) = .ok (start, e) ∧
              (r.state.argmin : Int) ≤ start ∧ start < e ∧ e ≤ r.state.i + 1 ∧
              (⟨9, .bpm (bpmOf (elapsed start e))⟩ : Event) ∈ r.state.lcd ∧
              ∃ ev ∈ r.state.lcd, ev.line = 10) := by
        intro r dpv spv t hr ht1 ht2
        rw [hr]
        constructor
        · intro ev hev h9
          have := mem_analysis_events _ _ _ hat.log hev (by omega)
          simp only [List.cons_append, List.nil_append, List.mem_cons] at this
          rcases this with h1 | h1 | h1
          · subst h1; simp at h9
          · subst h1; exact ⟨_, rfl⟩
          · rcases ht1 ev h1 with h2 | h2 <;> omega
        · intro _
          obtain ⟨x, hx, hx10⟩ := ht2
          refine ⟨st, e, he, b1, by omega, b3, ?_, x, ?_, hx10⟩
          · simp
          · simp [hx]
      rcases hcase with ⟨_, ha⟩ | ⟨_, ⟨_, ha⟩ | ⟨j1, _, ha⟩ | ⟨j1, _, ha⟩⟩
      · exact key _ s.dp s.sp [⟨10, .testFail⟩] (by rw [ha]; rfl) (by simp) (by simp)
      · exact key _ (s.pressure j) s.sp [⟨10, .dbp (s.pressure j)⟩] (by rw [ha]; rfl)
          (by simp) (by simp)
      · exact key _ (s.pressure j) (s.pressure j1)
          [⟨10, .dbp (s.pressure j)⟩, ⟨11, .sbp (s.pressure j1)⟩] (by rw [ha]; rfl)
          (by simp) (by simp)
      · exact key _ (s.pressure j) s.sp [⟨10, .dbp (s.pressure j)⟩, ⟨11, .testFail⟩]
          (by rw [ha]; rfl) (by simp) (by simp)

/-- C3: witness of `C3_bpm_scan` on the run `goodData`, which has 10 runs of negative
fluctuations from `argmin` on. -/
theorem C3_bpm_scan_witness :
    (⟨8, .finalResult⟩ : Event) ∈ (runP (goodData.map convertFloat) init).state.lcd ∧
    10 ≤ negRuns (runP (goodData.map convertFloat) init).state.fluactuation
      (runP (goodData.map convertFloat) init).state.argmin
      (runP (goodData.map convertFloat) init).state.i ∧
    ∃ ev ∈ (runP (goodData.map convertFloat) init).state.lcd, ev.line = 10 :=
  ⟨by decide!, by decide!,
    let ⟨_, _, _, _, _, _, _, hev⟩ :=
      (C3_bpm_scan (goodData.map convertFloat) (by decide!)).2 (by decide!)
    hev⟩

/-- C3, counterexample: the run `shortData` reaches the analysis step with a single run of
negative fluctuations from `argmin` on; the cycle-counting scan does not stop within the
buffer but reads past its end, no BPM failure is displayed (nothing is displayed after
"Final Result:") and the DBP and SBP searches are not performed. -/
theorem C3_counterexample :
    (⟨8, .finalResult⟩ : Event) ∈ (run shortData).state.lcd ∧
    negRuns (run shortData).state.fluactuation (run shortData).state.argmin
      (run shortData).state.i = 1 ∧
    bpmLoop (run shortData).state.fluactuation (CAP + 1) (run shortData).state.argmin 0 (-1)
      = .fault ∧
    (run shortData).isFault = true ∧
    (run shortData).state.lcd.getLast? = some ⟨8, .finalResult⟩ ∧
    (∀ e ∈ (run shortData).state.lcd, e.line ≤ 8) := by
  decide!

/-- C4: the phase machine.  Let the loop be still going on after the samples `ps`, with room
left in the arrays, and let `p` be the next sample.  Then (1) the phase is INFLATING exactly
when no sample so far exceeded 150, before and after `p`, so that it leaves INFLATING at the
first sample above 150 and never returns; (2) the analysis step has not been entered so far,
and every sample at or after the first one above 150 was at least 30; (3) the analysis step
is entered at `p` exactly when an earlier sample exceeded 150 and `p < 30`, in particular not
when `p < 30` arrives while INFLATING; (4) when it is entered, "Final Result:" is displayed
exactly once and the loop is left, whatever samples follow; otherwise the loop goes on. -/
theorem C4_phase_machine (ps : List ℚ) (p : ℚ) (hrun : (runP ps init).isNext = true)
    (hcap : ps.length < CAP) :
    ((runP ps init).state.inflate_flag = true ↔ ∀ x ∈ ps, x ≤ 150) ∧
    ((runP (ps ++ [p]) init).state.inflate_flag = true ↔ ∀ x ∈ ps ++ [p], x ≤ 150) ∧
    (∀ e ∈ (runP ps init).state.lcd, e.line ≠ 8) ∧
    (∀ k m, m ≤ k → k < ps.length → 150 < ps.getD m 0 → 30 ≤ ps.getD k 0) ∧
    ((⟨8, .finalResult⟩ : Event) ∈ (runP (ps ++ [p]) init).state.lcd ↔
      ((∃ x ∈ ps, 150 < x) ∧ p < 30)) ∧
    ((runP (ps ++ [p]) init).isNext = true ↔ ¬ ((∃ x ∈ ps, 150 < x) ∧ p < 30)) ∧
    ((∃ x ∈ ps, 150 < x) ∧ p < 30 →
      (runP (ps ++ [p]) init).state.lcd.count (⟨8, .finalResult⟩ : Event) = 1 ∧
      ∀ qs, runP (ps ++ [p] ++ qs) init = runP (ps ++ [p]) init) := by
  obtain ⟨s, hs, hinv⟩ := run_next_inv ps hrun
  have hnot8 : ∀ (l : List Event), (∀ e ∈ l, e.line = 1 ∨ e.line = 3 ∨ e.line = 5) →
      ∀ e ∈ l, e.line ≠ 8 := by
    intro l hl e he
    rcases hl e he with h1 | h1 | h1 <;> omega
  rw [runP_concat ps p init s hs, hs]
  refine ⟨hinv.flag_iff, ?_, hnot8 _ hinv.log, hinv.no_low, ?_⟩
  · by_cases hcase : (∃ x ∈ ps, 150 < x) ∧ p < 30
    · obtain ⟨h1, h2, _⟩ := tickP_analysis ps s hinv p hcap hcase
      obtain ⟨dpv, spv, t, hst, _⟩ := analysis_state _ h2
      rw [h1, hst]
      have hf : (beforeAnalysis p s).inflate_flag = false := by
        rw [beforeAnalysis_flag]
        have : ¬ s.inflate_flag = true := by
          intro hf
          obtain ⟨x, hx, hx2⟩ := hcase.1
          exact absurd (hinv.flag_iff.mp hf x hx) (not_le.mpr hx2)
        simp [this]
      constructor
      · intro hc
        rw [hf] at hc
        simp at hc
      · intro hall
        obtain ⟨x, hx, hx2⟩ := hcase.1
        exact absurd (hall x (List.mem_append_left _ hx)) (not_le.mpr hx2)
    · obtain ⟨s1, h1, h2, _⟩ := tickP_next ps s hinv p hcap hcase
      rw [h1]
      exact h2.flag_iff
  · by_cases hcase : (∃ x ∈ ps, 150 < x) ∧ p < 30
    · obtain ⟨h1, h2, _⟩ := tickP_analysis ps s hinv p hcap hcase
      obtain ⟨dpv, spv, t, hst, ht⟩ := analysis_state _ h2
      have hcount : (beforeAnalysis p s).lcd.count (⟨8, .finalResult⟩ : Event) = 0 :=
        List.count_eq_zero.mpr (fun hmem => hnot8 _ h2.log _ hmem rfl)
      have htail : t.count (⟨8, .finalResult⟩ : Event) = 0 :=
        List.count_eq_zero.mpr (fun hmem => by have := (ht _ hmem).1; simp at this)
      refine ⟨?_, ?_, fun _ => ⟨?_, ?_⟩⟩
      · rw [h1, hst]
        simp [hcase]
      · rw [h1]
        constructor
        · intro hn
          obtain ⟨s1, hs1⟩ := (isNext_iff _).mp hn
          exact absurd hs1 (analysis_ne_next _ s1)
        · intro hn
          exact absurd hcase hn
      · rw [h1, hst]
        show (((beforeAnalysis p s).lcd ++ (⟨8, .finalResult⟩ :: t)).count
          (⟨8, .finalResult⟩ : Event)) = 1
        rw [List.count_append, hcount, List.count_cons_self, htail]
      · intro qs
        rw [← runP_concat ps p init s hs]
        apply runP_stuck
        intro s1
        rw [runP_concat ps p init s hs, h1]
        exact analysis_ne_next _ s1
    · obtain ⟨s1, h1, h2, _⟩ := tickP_next ps s hinv p hcap hcase
      refine ⟨?_, ?_, fun hc => absurd hc hcase⟩
      · rw [h1]
        constructor
        · intro hmem
          exact absurd rfl (hnot8 _ h2.log _ hmem)
        · intro hc
          exact absurd hc hcase
      · rw [h1]
        simp [Step.isNext, hcase]

/-- C4: witness of `C4_phase_machine`: after the samples 100, 20, 160, 100 the next
sample 20 enters the analysis step. -/
theorem C4_phase_machine_witness :
    (runP [100, 20, 160, 100] init).isNext = true ∧
    ([100, 20, 160, 100] : List ℚ).length < CAP ∧
    ((⟨8, .finalResult⟩ : Event) ∈ (runP ([100, 20, 160, 100] ++ [20]) init).state.lcd ↔
      ((∃ x ∈ ([100, 20, 160, 100] : List ℚ), 150 < x) ∧ (20 : ℚ) < 30)) :=
  ⟨by decide!, by decide,
    (C4_phase_machine [100, 20, 160, 100] 20 (by decide!) (by decide)).2.2.2.2.1⟩

/-- C5, as amended: the "Release valve slowly" advisory is displayed in every iteration whose
sample exceeds 150 mmHg, first on the INFLATING -> DEFLATING transition: once the samples
`ps` and then `p` have been processed, the number of advisory display events equals the
number of samples above 150 among them. -/
theorem C5_advisory_every_sample_above_150 (ps : List ℚ) (p : ℚ)
    (hrun : (runP ps init).isNext = true) (hcap : ps.length < CAP) :
    (runP (ps ++ [p]) init).state.lcd.count (⟨3, .releaseValve⟩ : Event) =
      ((ps ++ [p]).filter (fun x => 150 < x)).length := by
  obtain ⟨s, hs, hinv⟩ := run_next_inv ps hrun
  rw [runP_concat ps p init s hs]
  by_cases hcase : (∃ x ∈ ps, 150 < x) ∧ p < 30
  · obtain ⟨h1, h2, h3⟩ := tickP_analysis ps s hinv p hcap hcase
    obtain ⟨dpv, spv, t, hst, ht⟩ := analysis_state _ h2
    have hp : ¬ 150 < p := by
      intro h; have := hcase.2; linarith
    have htail : (⟨8, .finalResult⟩ :: t).count (⟨3, .releaseValve⟩ : Event) = 0 := by
      apply List.count_eq_zero.mpr
      intro hmem
      rcases List.mem_cons.mp hmem with h | h
      · simp at h
      · have := (ht _ h).1; simp at this
    rw [h1, hst]
    show ((beforeAnalysis p s).lcd ++ (⟨8, .finalResult⟩ :: t)).count
      (⟨3, .releaseValve⟩ : Event) = _
    rw [List.count_append, htail, h3, count_advisory_append, hinv.advisory, List.filter_append]
    simp [hp]
  · obtain ⟨s1, h1, h2, _⟩ := tickP_next ps s hinv p hcap hcase
    rw [h1]
    exact h2.advisory

/-- C5: witness of `C5_advisory_every_sample_above_150`: after the samples 100, 160 the loop
goes on, and the sample 155 brings the number of advisory events to 2. -/
theorem C5_advisory_every_sample_above_150_witness :
    (runP [100, 160] init).isNext = true ∧
    ([100, 160] : List ℚ).length < CAP ∧
    (runP ([100, 160] ++ [155]) init).state.lcd.count (⟨3, .releaseValve⟩ : Event) =
      (([100, 160] ++ [155] : List ℚ).filter (fun x => 150 < x)).length :=
  ⟨by decide!, by decide,
    C5_advisory_every_sample_above_150 [100, 160] 155 (by decide!) (by decide)⟩

/-- C5, counterexample: two successive samples above 150 mmHg (raw code 2208998, about
160 mmHg) make the advisory display event occur twice in one run. -/
theorem C5_counterexample :
    (run [2208998, 2208998]).state.lcd.count (⟨3, .releaseValve⟩ : Event) = 2 := by
  decide!

/-- C10: the rate classification.  Let the loop be still going on after the samples `ps`,
with room left in the arrays.  In the iteration for the next sample `p`, the events
displayed on the rate line (line 5) are: none if the phase is still INFLATING (no sample up
to and including `p` exceeded 150); otherwise exactly one, "Too fast" if
`25 * (p - prev) > 4` and "Measuring.." if not, where `prev` is the previous sample
(`pre_pressure`, which is `pressure[i-1]`, and 0 before the first sample).  The choice is a
function of `p` and `prev` alone. -/
theorem C10_rate_rule (ps : List ℚ) (p : ℚ) (hrun : (runP ps init).isNext = true)
    (hcap : ps.length < CAP) :
    (runP ps init).state.pre_pressure = ps.getLastD 0 ∧
    (∀ k, (runP ps init).state.pressure k = ps.getD k 0) ∧
    (((runP (ps ++ [p]) init).state.lcd.drop (runP ps init).state.lcd.length).filter
        (fun e => e.line = 5)) =
      if ∃ x ∈ ps ++ [p], 150 < x then
        [⟨5, if 25 * (p - ps.getLastD 0) > 4 then .tooFast else .measuring⟩]
      else [] := by
  obtain ⟨s, hs, hinv⟩ := run_next_inv ps hrun
  rw [runP_concat ps p init s hs, hs]
  refine ⟨hinv.pre_eq, hinv.pr_eq, ?_⟩
  show List.filter _ (List.drop s.lcd.length _) = _
  by_cases hcase : (∃ x ∈ ps, 150 < x) ∧ p < 30
  · obtain ⟨h1, h2, h3⟩ := tickP_analysis ps s hinv p hcap hcase
    obtain ⟨dpv, spv, t, hst, ht⟩ := analysis_state _ h2
    have hex : ∃ x ∈ ps ++ [p], 150 < x := by
      obtain ⟨x, hx, hx2⟩ := hcase.1
      exact ⟨x, List.mem_append_left _ hx, hx2⟩
    have htail : t.filter (fun e => e.line = 5) = [] := by
      apply List.filter_eq_nil_iff.mpr
      intro x hx
      have := (ht x hx).1
      simp
      omega
    rw [h1, hst, if_pos hex]
    show List.filter _ (List.drop s.lcd.length
      ((beforeAnalysis p s).lcd ++ (⟨8, .finalResult⟩ :: t))) = _
    rw [h3, List.append_assoc, List.drop_left]
    simp [List.filter_cons, htail, rateText]
  · obtain ⟨s1, h1, h2, h3⟩ := tickP_next ps s hinv p hcap hcase
    rw [h1]
    show List.filter _ (List.drop s.lcd.length s1.lcd) = _
    rw [h3, List.append_assoc, List.append_assoc, List.drop_left]
    by_cases hp : 150 < p <;> by_cases hex : ∃ x ∈ ps ++ [p], 150 < x <;>
      simp only [hp, hex, if_true, if_false, List.filter_cons, List.filter_nil,
        List.nil_append, List.cons_append, rateText] <;> simp

/-- C10: witness of `C10_rate_rule`: after the samples 100, 160, 120 the loop goes on;
the next sample 121 is a rise of 1 mmHg and is classified "Too fast". -/
theorem C10_rate_rule_witness :
    (runP [100, 160, 120] init).isNext = true ∧
    ([100, 160, 120] : List ℚ).length < CAP ∧
    (((runP ([100, 160, 120] ++ [121]) init).state.lcd.drop
        (runP [100, 160, 120] init).state.lcd.length).filter (fun e => e.line = 5)) =
      [⟨5, .tooFast⟩] :=
  ⟨by decide!, by decide,
    ((C10_rate_rule [100, 160, 120] 121 (by decide!) (by decide)).2.2).trans (by decide!)⟩

/-- C6, as amended: in every run that reaches the analysis step and whose BPM scan completes
(a BPM line is displayed), the DBP search reports the pressure of the first index `j`, in the
forward scan from `argmin` while the pressure is above 50, whose fluctuation is negative and
strictly between the bounds `dp_flc * 1.2` and `dp_flc * 0.8` as the program computes them
(`dp_flc` is `global_min * 0.75` rounded to `float`, the two products are `double`
operations) and whose pressure is strictly between 55 and 85: that pressure is displayed on
the DBP line and stored in `dp`; and "Test Fail!" is displayed on the DBP line if and only
if there is no such index. -/
theorem C6_dbp_search (ps : List ℚ)
    (hbpm : ∃ n, (⟨9, .bpm n⟩ : Event) ∈ (runP ps init).state.lcd) :
    (∀ j, DbpFirst (runP ps init).state j →
      (⟨10, .dbp ((runP ps init).state.pressure j)⟩ : Event) ∈ (runP ps init).state.lcd ∧
      (runP ps init).state.dp = (runP ps init).state.pressure j) ∧
    (∀ d, (⟨10, .dbp d⟩ : Event) ∈ (runP ps init).state.lcd →
      ∃ j, DbpFirst (runP ps init).state j ∧ d = (runP ps init).state.pressure j) ∧
    ((⟨10, .testFail⟩ : Event) ∈ (runP ps init).state.lcd ↔
      ¬ ∃ j, DbpFirst (runP ps init).state j) := by
  obtain ⟨n, hn⟩ := hbpm
  rcases run_outcome ps with ⟨s, hs, hinv⟩ | ⟨s, hs, _, hlog⟩ | ⟨s, hat, hs⟩
  · rw [hs] at hn
    rcases hinv.log _ hn with h1 | h1 | h1 <;> simp at h1
  · rw [hs] at hn
    rcases hlog _ hn with h1 | h1 | h1 <;> simp at h1
  · rw [hs] at hn ⊢
    rcases analysis_cases s hat with ⟨_, ha⟩ | ⟨_, st, e, _, _, _, _, j, b, hd, _, _, hcase⟩
    · rw [ha] at hn
      have := mem_analysis_events _ _ _ hat.log hn (by simp)
      simp at this
    · have found : b = true → ∀ (r : Step) (spv : ℚ) (t : List Event),
          r.state =
            { s with dp := s.pressure j, sp := spv,
                     lcd := s.lcd ++ ([⟨8, .finalResult⟩, ⟨9, .bpm (bpmOf (elapsed st e))⟩,
                       ⟨10, .dbp (s.pressure j)⟩] ++ t) } →
          (∀ x ∈ t, x.line = 11) →
          (∀ j1, DbpFirst r.state j1 →
            (⟨10, .dbp (r.state.pressure j1)⟩ : Event) ∈ r.state.lcd ∧
            r.state.dp = r.state.pressure j1) ∧
          (∀ d, (⟨10, .dbp d⟩ : Event) ∈ r.state.lcd →
            ∃ j1, DbpFirst r.state j1 ∧ d = r.state.pressure j1) ∧
          ((⟨10, .testFail⟩ : Event) ∈ r.state.lcd ↔ ¬ ∃ j1, DbpFirst r.state j1) := by
        intro hb r spv t hr ht
        subst hb
        obtain ⟨hfirst, huniq⟩ := dbpFirst_of_found s j hd
        rw [hr]
        refine ⟨?_, ?_, ?_⟩
        · intro j1 hj1
          have hj1s : DbpFirst s j1 := hj1
          have e1 := huniq j1 hj1s
          subst e1
          exact ⟨by simp, rfl⟩
        · intro d hmem
          have := mem_analysis_events _ _ _ hat.log hmem (by simp)
          simp only [List.cons_append, List.nil_append, List.mem_cons] at this
          rcases this with h1 | h1 | h1 | h1
          · simp at h1
          · simp at h1
          · simp only [Event.mk.injEq, Text.dbp.injEq, true_and] at h1
            exact ⟨j, hfirst, h1⟩
          · have := ht _ h1; simp at this
        · constructor
          · intro hmem
            have := mem_analysis_events _ _ _ hat.log hmem (by simp)
            simp only [List.cons_append, List.nil_append, List.mem_cons] at this
            rcases this with h1 | h1 | h1 | h1
            · simp at h1
            · simp at h1
            · simp at h1
            · have := ht _ h1; simp at this
          · intro hno
            exact absurd ⟨j, hfirst⟩ hno
      rcases hcase with ⟨hb, ha⟩ | ⟨hb, ⟨_, ha⟩ | ⟨j1, _, ha⟩ | ⟨j1, _, ha⟩⟩
      · subst hb
        have hnone := no_dbpFirst_of_notfound s j hd
        rw [ha]
        refine ⟨?_, ?_, ?_⟩
        · intro j1 hj1
          exact absurd ⟨j1, hj1⟩ hnone
        · intro d hmem
          have := mem_analysis_events _ _ _ hat.log hmem (by simp)
          simp at this
        · constructor
          · intro _; exact hnone
          · intro _; simp [Step.state]
      · exact found hb _ s.sp [] (by rw [ha]; rfl) (by simp)
      · exact found hb _ (s.pressure j1) [⟨11, .sbp (s.pressure j1)⟩] (by rw [ha]; rfl)
          (by simp)
      · exact found hb _ s.sp [⟨11, .testFail⟩] (by rw [ha]; rfl) (by simp)

/-- C7, as amended: in every run in which the DBP search succeeded (a DBP value is
displayed), if `j` is the first index, in the backward scan from `argmin` while the pressure
is below 170, whose fluctuation is negative and strictly between the bounds `sp_flc * 1.2`
and `sp_flc * 0.8` as the program computes them (`sp_flc` is `global_min * 0.45` rounded to
`float`, the two products are `double` operations) and whose pressure is strictly between
85 and 125, then the run
ends normally, the pressure of `j` is displayed on the SBP line and stored in `sp`, and no
"Test Fail!" is displayed on the SBP line; and every SBP value displayed is the pressure of
such an index. -/
theorem C7_sbp_search (ps : List ℚ)
    (hdbp : ∃ d, (⟨10, .dbp d⟩ : Event) ∈ (runP ps init).state.lcd) :
    (∀ j, SbpFirst (runP ps init).state j →
      (runP ps init).isHalt = true ∧
      (⟨11, .sbp ((runP ps init).state.pressure j)⟩ : Event) ∈ (runP ps init).state.lcd ∧
      (runP ps init).state.sp = (runP ps init).state.pressure j ∧
      (⟨11, .testFail⟩ : Event) ∉ (runP ps init).state.lcd) ∧
    (∀ d, (⟨11, .sbp d⟩ : Event) ∈ (runP ps init).state.lcd →
      ∃ j, SbpFirst (runP ps init).state j ∧ d = (runP ps init).state.pressure j) := by
  obtain ⟨d0, hd0⟩ := hdbp
  rcases run_outcome ps with ⟨s, hs, hinv⟩ | ⟨s, hs, _, hlog⟩ | ⟨s, hat, hs⟩
  · rw [hs] at hd0
    rcases hinv.log _ hd0 with h1 | h1 | h1 <;> simp at h1
  · rw [hs] at hd0
    rcases hlog _ hd0 with h1 | h1 | h1 <;> simp at h1
  · rw [hs] at hd0 ⊢
    have hargmin : s.argmin < CAP := lt_of_le_of_lt hat.argmin_le hat.i_lt
    rcases analysis_cases s hat with ⟨_, ha⟩ | ⟨_, st, e, _, _, _, _, j, b, hd, _, _, hcase⟩
    · rw [ha] at hd0
      have := mem_analysis_events _ _ _ hat.log hd0 (by simp)
      simp at this
    · rcases hcase with ⟨_, ha⟩ | ⟨_, ⟨hsb, ha⟩ | ⟨j1, hsb, ha⟩ | ⟨j1, hsb, ha⟩⟩
      · rw [ha] at hd0
        have := mem_analysis_events _ _ _ hat.log hd0 (by simp)
        simp at this
      · have hnone := no_sbpFirst_of_fault s hargmin hsb
        rw [ha]
        constructor
        · intro j1 hj1
          exact absurd ⟨j1, hj1⟩ hnone
        · intro d hmem
          have := mem_analysis_events _ _ _ hat.log hmem (by simp)
          simp at this
      · obtain ⟨hfirst, huniq⟩ := sbpFirst_of_found s j1 hsb
        rw [ha]
        constructor
        · intro j2 hj2
          have hj2s : SbpFirst s j2 := hj2
          have e1 := huniq j2 hj2s
          subst e1
          refine ⟨rfl, by simp [Step.state], rfl, ?_⟩
          intro hmem
          have := mem_analysis_events _ _ _ hat.log hmem (by simp)
          simp at this
        · intro d hmem
          have := mem_analysis_events _ _ _ hat.log hmem (by simp)
          simp only [List.mem_cons, Event.mk.injEq, Text.sbp.injEq, true_and] at this
          rcases this with h1 | h1 | h1 | h1 | h1
          · simp at h1
          · simp at h1
          · simp at h1
          · exact ⟨j1, hfirst, h1⟩
          · simp at h1
      · have hnone := no_sbpFirst_of_notfound s j1 hsb
        rw [ha]
        constructor
        · intro j2 hj2
          exact absurd ⟨j2, hj2⟩ hnone
        · intro d hmem
          have := mem_analysis_events _ _ _ hat.log hmem (by simp)
          simp at this

/-- C6: witness of `C6_dbp_search` on the run `goodData`, whose BPM line shows 675. -/
theorem C6_dbp_search_witness :
    (⟨9, .bpm 675⟩ : Event) ∈ (runP (goodData.map convertFloat) init).state.lcd ∧
    ((⟨10, .testFail⟩ : Event) ∈ (runP (goodData.map convertFloat) init).state.lcd ↔
      ¬ ∃ j, DbpFirst (runP (goodData.map convertFloat) init).state j) :=
  ⟨by decide!, (C6_dbp_search (goodData.map convertFloat) ⟨675, by decide!⟩).2.2⟩

/-- C6, counterexample.  First, the run `shortData` reaches the analysis step (`argmin` is 0,
the pressures are about 160, 100, 20) and no index qualifies as DBP before the first
pressure not above 50, yet "Test Fail!" is not displayed on the DBP line: the BPM scan
before the DBP search reads past the end of the array.  Second, in the run `dbpEdgeData`
the BPM line is displayed and index 5 is the first index of the scan whose fluctuation is
negative and strictly between `1.2 * (0.75 * global_min)` and `0.8 * (0.75 * global_min)`
with a pressure between 55 and 85, yet the program displays "Test Fail!" and no DBP value:
`dp_flc` is rounded to a `float`, the bound `dp_flc * 0.8` it compares with is below
`0.8 * (0.75 * global_min)`, and the fluctuation lies between the two. -/
theorem C6_counterexample :
    ((⟨8, .finalResult⟩ : Event) ∈ (run shortData).state.lcd ∧
      (¬ ∃ j, DbpFirst (run shortData).state j) ∧
      (⟨10, .testFail⟩ : Event) ∉ (run shortData).state.lcd) ∧
    ((⟨9, .bpm 675⟩ : Event) ∈ (run dbpEdgeData).state.lcd ∧
      (run dbpEdgeData).state.argmin = 3 ∧
      DbpFirstExact (run dbpEdgeData).state 5 ∧
      (run dbpEdgeData).state.fluactuation 5 < 0.8 * (0.75 * (run dbpEdgeData).state.global_min) ∧
      toDouble (dp_flc (run dbpEdgeData).state.global_min * toDouble 0.8) ≤
        (run dbpEdgeData).state.fluactuation 5 ∧
      (⟨10, .testFail⟩ : Event) ∈ (run dbpEdgeData).state.lcd ∧
      (∀ e ∈ (run dbpEdgeData).state.lcd, e.line = 10 → e.text = .testFail)) := by
  refine ⟨⟨by decide!, ?_, by decide!⟩, by decide!⟩
  rintro ⟨j, _, h2, h3, _⟩
  have hlow : ¬ 50 < (run shortData).state.pressure 2 := by decide!
  have ha : (run shortData).state.argmin = 0 := by decide!
  have hj : j < 2 := by
    by_contra hge
    exact hlow (h2 2 (by rw [ha]; exact Nat.zero_le _) (by omega))
  have h0 : ¬ DbpQualifies (run shortData).state 0 := by decide!
  have h1 : ¬ DbpQualifies (run shortData).state 1 := by decide!
  interval_cases j
  · exact h0 h3
  · exact h1 h3

/-- C7: witness of `C7_sbp_search` on the run `goodData`: the DBP value is that of index 8,
and index 4 is the first qualifying SBP sample of the backward scan. -/
theorem C7_sbp_search_witness :
    (⟨10, .dbp (convertFloat 1219140)⟩ : Event) ∈ (runP (goodData.map convertFloat) init).state.lcd ∧
    SbpFirst (runP (goodData.map convertFloat) init).state 4 ∧
    (⟨11, .sbp ((runP (goodData.map convertFloat) init).state.pressure 4)⟩ : Event) ∈
      (runP (goodData.map convertFloat) init).state.lcd :=
  have h : (⟨10, .dbp (convertFloat 1219140)⟩ : Event) ∈
      (runP (goodData.map convertFloat) init).state.lcd := by decide!
  have hf : SbpFirst (runP (goodData.map convertFloat) init).state 4 :=
    (sbpFirst_of_found _ 4 (by decide!)).1
  ⟨h, hf, ((C7_sbp_search (goodData.map convertFloat) ⟨_, h⟩).1 4 hf).2.1⟩

/-- C7, counterexample: in the run `sbpEdgeData` the DBP search succeeds and the program
displays the pressure of index 1 on the SBP line, although no index of the backward scan
from `argmin = 2` has a fluctuation strictly between `1.2 * (0.45 * global_min)` and
`0.8 * (0.45 * global_min)`: the fluctuation of index 1 is below
`1.2 * (0.45 * global_min)`, and above the bound `sp_flc * 1.2` that the program computes
from `sp_flc` rounded to a `float`. -/
theorem C7_counterexample :
    (∃ d, (⟨10, .dbp d⟩ : Event) ∈ (run sbpEdgeData).state.lcd) ∧
    (run sbpEdgeData).state.argmin = 2 ∧
    (⟨11, .sbp ((run sbpEdgeData).state.pressure 1)⟩ : Event) ∈ (run sbpEdgeData).state.lcd ∧
    (∀ j, j ≤ (run sbpEdgeData).state.argmin → ¬ SbpQualifiesExact (run sbpEdgeData).state j) ∧
    (¬ ∃ j, SbpFirstExact (run sbpEdgeData).state j) ∧
    (run sbpEdgeData).state.fluactuation 1 ≤ 1.2 * (0.45 * (run sbpEdgeData).state.global_min) ∧
    toDouble (sp_flc (run sbpEdgeData).state.global_min * toDouble 1.2) <
      (run sbpEdgeData).state.fluactuation 1 := by
  have hq : ∀ j, j ≤ (run sbpEdgeData).state.argmin →
      ¬ SbpQualifiesExact (run sbpEdgeData).state j := by decide!
  refine ⟨⟨(run sbpEdgeData).state.pressure 4, by decide!⟩, by decide!, by decide!, hq, ?_,
    by decide!, by decide!⟩
  rintro ⟨j, h1, _, h3, _⟩
  exact hq j h1 h3

/-- C8, evaluation at the failing input: in the run `lowPeakData` the pressure never reaches
170 mmHg, the DBP search succeeds, and no sample qualifies as SBP.  The backward scan from
`argmin = 6` leaves the array below index 0: the run ends in an access outside the array and
nothing is displayed on the SBP line. -/
theorem C8_sbp_scan_leaves_array :
    (⟨10, .dbp (convertFloat 1219140)⟩ : Event) ∈ (run lowPeakData).state.lcd ∧
    (∀ k < 26, (run lowPeakData).state.pressure k < 170) ∧
    (run lowPeakData).state.argmin = 6 ∧
    (∀ k < 26, ¬ SbpQualifies (run lowPeakData).state k) ∧
    sbpScan (run lowPeakData).state.pressure (run lowPeakData).state.fluactuation
      (sp_flc (run lowPeakData).state.global_min) (run lowPeakData).state.argmin = .fault ∧
    (run lowPeakData).isFault = true ∧
    (∀ e ∈ (run lowPeakData).state.lcd, e.line ≠ 11) := by
  decide!

/-- C9, evaluation at the failing input: raw codes 2208998 and 1537908 (about 160 and
100 mmHg).  The second iteration is in the DEFLATING phase and the pressure has dropped by
more than 4/25 mmHg, yet the message displayed on the rate line is "Measuring.."; the
message "Too fast" was displayed in the first iteration, where the pressure rose. -/
theorem C9_fast_drop_shows_measuring :
    (run [2208998, 1537908]).state.inflate_flag = false ∧
    convertFloat 2208998 - convertFloat 1537908 > 4 / 25 ∧
    (run [2208998, 1537908]).state.lcd =
      [⟨3, .releaseValve⟩, ⟨5, .tooFast⟩, ⟨1, .pressure (convertFloat 2208998)⟩,
       ⟨5, .measuring⟩, ⟨1, .pressure (convertFloat 1537908)⟩] := by
  decide!

/-- C11: the envelope tracker.  Let the loop be still going on after the raw codes `data`,
with room left in the arrays, and let `r` be the next raw code, all codes being 24-bit values
as `Get_Data` returns them.  After the iteration for `r`, whichever way it ends: if
some sample was a DEFLATING tick with pressure below 170, then `argmin` is such a sample,
`global_min` is its fluctuation, the `float` difference `pre_pressure - pressure` that the
program computes, no such sample has a smaller fluctuation and none with the same
fluctuation comes earlier, and `arg_pressure` is `pressure[argmin]`; if there was none, the
three keep their initial values.  If the sample of `r` itself is not such a tick (INFLATING,
or pressure at least 170), the iteration leaves `global_min`, `argmin` and `arg_pressure`
as they were.  The fluctuations meant are those the program stores in `fluactuation`. -/
theorem C11_envelope_result (data : List Nat) (r : Nat)
    (hraw : ∀ x ∈ data ++ [r], x < 2 ^ 24) (hrun : (run data).isNext = true)
    (hcap : data.length < CAP) :
    EnvSpec ((data ++ [r]).map convertFloat) (run (data ++ [r])).state.global_min
      (run (data ++ [r])).state.argmin (run (data ++ [r])).state.arg_pressure ∧
    (∀ k, (run (data ++ [r])).state.pressure k = ((data ++ [r]).map convertFloat).getD k 0) ∧
    ((∃ k, Tracked ((data ++ [r]).map convertFloat) k) →
      (run (data ++ [r])).state.arg_pressure =
        (run (data ++ [r])).state.pressure (run (data ++ [r])).state.argmin) ∧
    (¬ Tracked ((data ++ [r]).map convertFloat) data.length →
      (run (data ++ [r])).state.global_min = (run data).state.global_min ∧
      (run (data ++ [r])).state.argmin = (run data).state.argmin ∧
      (run (data ++ [r])).state.arg_pressure = (run data).state.arg_pressure) ∧
    (∀ k, k < data.length →
      (run (data ++ [r])).state.fluactuation k =
        fluctOf ((data ++ [r]).map convertFloat) k) := by
  have hmap : (data ++ [r]).map convertFloat = data.map convertFloat ++ [convertFloat r] := by
    simp
  have hfluct : ∀ k, k < data.length →
      (runP (data.map convertFloat ++ [convertFloat r]) init).state.fluactuation k =
        fluctOf (data.map convertFloat ++ [convertFloat r]) k := by
    intro k hk
    obtain ⟨s, hs, hinv⟩ := run_next_inv (data.map convertFloat) hrun
    have hk2 : k < (data.map convertFloat).length := by rw [List.length_map]; exact hk
    rw [runP_append, hs, fluctOf_snoc_lt _ _ _ hk2, ← (run_env _ s hs).2 k hk2]
    exact (runP_frame [convertFloat r] s k (by rw [hinv.i_eq]; exact hk2)).2
  have hb : Bounded (data.map convertFloat ++ [convertFloat r]) := by
    rw [← hmap]; exact bounded_map_convertFloat _ hraw
  obtain ⟨h1, h2, h3, _⟩ := envelope_after (data.map convertFloat) (convertFloat r) hb hrun
    (by rw [List.length_map]; exact hcap)
  unfold run
  rw [hmap]
  rw [List.length_map] at h3
  refine ⟨h1, h2, ?_, h3, hfluct⟩
  intro hex
  rw [(h1.2 hex).2.2.1, h2]

/-- C11: witness of `C11_envelope_result`: after the first four raw codes of `goodData`
(pressures 100, 149, 175, 100) the fifth one (pressure 101) is a tracked sample. -/
theorem C11_envelope_result_witness :
    (∀ x ∈ [1537908, 2085964, 2376770, 1537908] ++ [1549093], x < 2 ^ 24) ∧
    (run [1537908, 2085964, 2376770, 1537908]).isNext = true ∧
    ([1537908, 2085964, 2376770, 1537908] : List Nat).length < CAP ∧
    EnvSpec (([1537908, 2085964, 2376770, 1537908] ++ [1549093]).map convertFloat)
      (run ([1537908, 2085964, 2376770, 1537908] ++ [1549093])).state.global_min
      (run ([1537908, 2085964, 2376770, 1537908] ++ [1549093])).state.argmin
      (run ([1537908, 2085964, 2376770, 1537908] ++ [1549093])).state.arg_pressure :=
  ⟨by decide, by decide!, by decide,
    (C11_envelope_result [1537908, 2085964, 2376770, 1537908] 1549093 (by decide) (by decide!)
      (by decide)).1⟩

/-- C12, as amended: after a DEFLATING tick with pressure below 170, `global_min` is the
smaller of its former value and the fluctuation of that tick, the `float` difference
`pre_pressure - pressure`; it
is below the seed 100000, it is the fluctuation of some such tick, and no such tick so
far has a smaller fluctuation: `global_min` is the smallest, not the largest, value seen. -/
theorem C12_envelope_tracks_minimum (data : List Nat) (r : Nat)
    (hraw : ∀ x ∈ data ++ [r], x < 2 ^ 24) (hrun : (run data).isNext = true)
    (hcap : data.length < CAP) (htr : Tracked ((data ++ [r]).map convertFloat) data.length) :
    (run (data ++ [r])).state.global_min =
      min (run data).state.global_min (fluctOf ((data ++ [r]).map convertFloat) data.length) ∧
    (run (data ++ [r])).state.global_min < 100000 ∧
    (∃ k, Tracked ((data ++ [r]).map convertFloat) k ∧
      (run (data ++ [r])).state.global_min = fluctOf ((data ++ [r]).map convertFloat) k) ∧
    (∀ k, Tracked ((data ++ [r]).map convertFloat) k →
      (run (data ++ [r])).state.global_min ≤ fluctOf ((data ++ [r]).map convertFloat) k) := by
  have hmap : (data ++ [r]).map convertFloat = data.map convertFloat ++ [convertFloat r] := by simp
  have hb : Bounded (data.map convertFloat ++ [convertFloat r]) := by
    rw [← hmap]; exact bounded_map_convertFloat _ hraw
  obtain ⟨h1, _, _, h4⟩ := envelope_after (data.map convertFloat) (convertFloat r) hb hrun
    (by rw [List.length_map]; exact hcap)
  unfold run
  rw [hmap] at htr ⊢
  rw [List.length_map] at h4
  have hlen : (data.map convertFloat).length = data.length := List.length_map _ _
  obtain ⟨e1, e2, _, e4⟩ := h1.2 ⟨_, htr⟩
  have hmin := h4 htr
  refine ⟨hmin, ?_, ⟨_, e1, e2⟩, fun k hk => (e4 k hk).1⟩
  have hfl : fluctOf (data.map convertFloat ++ [convertFloat r]) data.length < 100000 := by
    rw [← hlen, fluctOf_snoc_self]
    exact bounded_fluct _ _ hb
  rw [hmin]
  exact lt_of_le_of_lt (min_le_right _ _) hfl

/-- C20: the rise of the inflation is taken as an envelope candidate.  Let no sample of `ps`
exceed 150 and let the next sample `p` be above 150 and below 170, with room left in the
arrays.  Then the loop is INFLATING after `ps`, and after the iteration for `p` it goes on
in the DEFLATING phase with `argmin` the index of `p`, `arg_pressure = pressure[argmin] = p`
and `global_min` the `float` difference of the previous pressure and `p`, which is
negative. -/
theorem C20_inflation_rise_captured (ps : List ℚ) (p : ℚ)
    (hall : ∀ x ∈ ps, x ≤ 150) (h150 : 150 < p) (h170 : p < 170) (hcap : ps.length < CAP) :
    (runP ps init).isNext = true ∧ (runP ps init).state.inflate_flag = true ∧
    (runP (ps ++ [p]) init).isNext = true ∧
    (runP (ps ++ [p]) init).state.inflate_flag = false ∧
    (runP (ps ++ [p]) init).state.argmin = ps.length ∧
    (runP (ps ++ [p]) init).state.pressure ps.length = p ∧
    (runP (ps ++ [p]) init).state.arg_pressure = p ∧
    (runP (ps ++ [p]) init).state.global_min = toFloat ((runP ps init).state.pre_pressure - p) ∧
    (runP (ps ++ [p]) init).state.global_min = toFloat (ps.getLastD 0 - p) ∧
    (runP ps init).state.pre_pressure - p < 0 ∧
    (runP (ps ++ [p]) init).state.global_min < 0 := by
  obtain ⟨s, hs, hinv⟩ := run_inflating ps hall (le_of_lt hcap)
  have hno : ¬ ((∃ x ∈ ps, 150 < x) ∧ p < 30) := by
    rintro ⟨⟨x, hx, hx2⟩, _⟩
    exact absurd (hall x hx) (not_le.mpr hx2)
  obtain ⟨s1, h1, hinv1, _⟩ := tickP_next ps s hinv p hcap hno
  obtain ⟨e1, e2, e3, e4⟩ := tick_env ps s hinv p hcap
  obtain ⟨g1, g2, g3⟩ := run_seed ps s hs hall
  have hlast : ps.getLastD 0 - p < 0 := by
    have := getLastD_le ps hall
    linarith
  have hmid : midTick p s = beforeAnalysis p s := by
    unfold midTick
    rw [if_neg]
    rintro ⟨_, hp⟩
    exact absurd hp (not_le.mpr h150)
  have hc : p < 170 ∧ toFloat (s.pre_pressure - p) < s.global_min := by
    refine ⟨h170, ?_⟩
    rw [hinv.pre_eq, g1]
    have := toFloat_neg_of_neg _ hlast
    linarith
  obtain ⟨b1, b2, b3⟩ := (beforeAnalysis_env p s).1 hc
  have hrun1 : runP (ps ++ [p]) init = .next s1 := by
    rw [runP_concat ps p init s hs, h1]
  have hst : (runP (ps ++ [p]) init).state = (tickP p s).state := by
    rw [runP_concat ps p init s hs]
  rw [hst, e1, e2, e3, e4, hmid, b1, b2, b3, ← hst, hrun1, hs]
  refine ⟨rfl, hinv.flag_iff.mpr hall, rfl, ?_, hinv.i_eq, ?_, rfl, rfl, ?_, ?_, ?_⟩
  · show s1.inflate_flag = false
    cases hf : s1.inflate_flag with
    | false => rfl
    | true =>
      have := hinv1.flag_iff.mp hf p (by simp)
      exact absurd this (not_le.mpr h150)
  · show store s.pressure s.i p ps.length = p
    rw [← hinv.i_eq, store_self]
  · show toFloat (s.pre_pressure - p) = toFloat (ps.getLastD 0 - p)
    rw [hinv.pre_eq]
  · show s.pre_pressure - p < 0
    rw [hinv.pre_eq]
    exact hlast
  · show toFloat (s.pre_pressure - p) < 0
    rw [hinv.pre_eq]
    exact toFloat_neg_of_neg _ hlast

/-- C20: witness of `C20_inflation_rise_captured`: pressures 100, 149 and then 160. -/
theorem C20_inflation_rise_captured_witness :
    (∀ x ∈ ([100, 149] : List ℚ), x ≤ 150) ∧ (150 : ℚ) < 160 ∧ (160 : ℚ) < 170 ∧
    ([100, 149] : List ℚ).length < CAP ∧
    (runP ([100, 149] ++ [160]) init).state.argmin = 2 ∧
    (runP ([100, 149] ++ [160]) init).state.global_min = -11 :=
  have h := C20_inflation_rise_captured [100, 149] 160 (by decide!) (by decide!) (by decide!)
    (by decide)
  ⟨by decide!, by decide!, by decide!, by decide, h.2.2.2.2.1,
    h.2.2.2.2.2.2.2.2.1.trans (by decide!)⟩

/-- C16: the fluctuation buffer.  When the loop is still going on after the samples `ps`,
the index `i` is the number of samples, `pressure[k]` is sample `k`, `fluactuation[0]` is
`0 - pressure[0]` and `fluactuation[k]` is `pressure[k-1] - pressure[k]` for every later
sample, the subtraction being the `float` operation of line 263, `pre_pressure` is the last
sample `pressure[i-1]`; and whatever samples `qs` follow and however the run ends, the
entries of `pressure` and `fluactuation` for the samples of `ps` are in the final state what
they were after `ps`. -/
theorem C16_fluctuation_buffer (ps : List ℚ) (hrun : (runP ps init).isNext = true) :
    (runP ps init).state.i = ps.length ∧
    (∀ k, k < ps.length → (runP ps init).state.pressure k = ps.getD k 0) ∧
    (0 < ps.length →
      (runP ps init).state.fluactuation 0 = toFloat (0 - (runP ps init).state.pressure 0)) ∧
    (∀ k, 1 ≤ k → k < ps.length →
      (runP ps init).state.fluactuation k =
        toFloat ((runP ps init).state.pressure (k - 1) - (runP ps init).state.pressure k)) ∧
    (0 < ps.length →
      (runP ps init).state.pre_pressure = (runP ps init).state.pressure (ps.length - 1)) ∧
    (∀ (qs : List ℚ) (k : Nat), k < ps.length →
      (runP (ps ++ qs) init).state.pressure k = (runP ps init).state.pressure k ∧
      (runP (ps ++ qs) init).state.fluactuation k = (runP ps init).state.fluactuation k) := by
  obtain ⟨s, hs, hinv⟩ := run_next_inv ps hrun
  have hfl := (run_env ps s hs).2
  rw [hs]
  refine ⟨hinv.i_eq, fun k _ => hinv.pr_eq k, ?_, ?_, ?_, ?_⟩
  · intro h0
    show s.fluactuation 0 = toFloat (0 - s.pressure 0)
    rw [hfl 0 h0, hinv.pr_eq 0]
    simp [fluctOf, prevSample]
  · intro k h1 hk
    show s.fluactuation k = toFloat (s.pressure (k - 1) - s.pressure k)
    rw [hfl k hk, hinv.pr_eq, hinv.pr_eq]
    have : k ≠ 0 := by omega
    simp [fluctOf, prevSample, this]
  · intro h0
    show s.pre_pressure = s.pressure (ps.length - 1)
    rw [hinv.pre_eq, hinv.pr_eq]
    cases ps using List.reverseRecOn with
    | nil => simp at h0
    | append_singleton qs p =>
      simp
  · intro qs k hk
    rw [runP_append, hs]
    exact runP_frame qs s k (by rw [hinv.i_eq]; exact hk)

/-- C16: witness of `C16_fluctuation_buffer`: pressures 100, 160, 120, followed by the
sample 20 that ends the run. -/
theorem C16_fluctuation_buffer_witness :
    (runP [100, 160, 120] init).isNext = true ∧
    (runP [100, 160, 120] init).state.fluactuation 2 =
      toFloat ((runP [100, 160, 120] init).state.pressure (2 - 1) -
        (runP [100, 160, 120] init).state.pressure 2) ∧
    (runP ([100, 160, 120] ++ [20]) init).state.fluactuation 2 =
      (runP [100, 160, 120] init).state.fluactuation 2 :=
  have h := C16_fluctuation_buffer [100, 160, 120] (by decide!)
  ⟨by decide!, h.2.2.2.1 2 (by decide) (by decide), (h.2.2.2.2.2 [20] 2 (by decide)).2⟩

/-- C18: the division of the BPM computation is safe and its result bounded.  Whenever the
cycle-counting loop started at `m` finishes with `start_index = st` and `end_index = e`,
`e - st` is at least 20, the elapsed time `(e - st) * 0.04` as computed is strictly
positive, so that `10 / time` does not divide by zero, and the BPM computed from it is
between 0 and 675; in the analysis step of a state with these fluctuations and this
`argmin` that BPM is the one displayed, before the DBP search. -/
theorem C18_bpm_division_safe (fl : Buf) (m : Nat) (st : Int) (e : Nat)
    (h : bpmLoop fl (CAP + 1) m 0 (-1) = .ok (st, e)) :
    st + 20 ≤ (e : Int) ∧ 0 < elapsed st e ∧ elapsed st e ≠ 0 ∧
    0 ≤ bpmOf (elapsed st e) ∧ bpmOf (elapsed st e) ≤ 675 ∧
    ∀ s : State, s.fluactuation = fl → s.argmin = m →
      analysis s =
        dbpStage (display (display s 8 .finalResult) 9 (.bpm (bpmOf (elapsed st e)))) := by
  obtain ⟨l, hl, hlen, _, hst, he⟩ := runs_of_bpmLoop fl (CAP + 1) m 0 (-1) st e (by omega) h
  have hge := scanEnd_ge fl l m hl
  have hm := (bpmLoop_ok_bounds fl (CAP + 1) m st e h).1
  have hst2 : st ≤ (m : Int) + 2 * 10 - 20 + (e - (m + 20) : Int) := by
    have hl10 : l.length = 10 := by omega
    cases l with
    | nil => simp at hl10
    | cons r rest =>
      obtain ⟨s0, t0⟩ := r
      have hs0 : st = (s0 : Int) := by rw [hst]; simp [startOf]
      have hrest : RunsFrom fl (t0 + 1) rest := hl.2
      have hnext : NextRun fl m s0 t0 := hl.1
      have hge2 := scanEnd_ge fl rest (t0 + 1) hrest
      have he2 : e = scanEnd (t0 + 1) rest := by rw [he]; rfl
      have hlr : rest.length = 9 := by simpa using hl10
      have := hnext.2.1
      omega
  have h20 : st + 20 ≤ (e : Int) := by omega
  have hpos := elapsed_pos st e (by omega)
  obtain ⟨b1, b2⟩ := bpmOf_bounds st e h20
  refine ⟨h20, hpos, ne_of_gt hpos, b1, b2, ?_⟩
  intro s hfl ha
  subst hfl
  subst ha
  exact analysis_ok s st e h (ne_of_gt hpos)

/-- C18: witness of `C18_bpm_division_safe`: on fluctuations that alternate between -1
and 1 the scan from index 0 ends with `start_index = 0` and `end_index = 20`. -/
theorem C18_bpm_division_safe_witness :
    bpmLoop alternating (CAP + 1) 0 0 (-1) = .ok (0, 20) ∧
    (0 : Int) + 20 ≤ ((20 : Nat) : Int) ∧ 0 < elapsed 0 20 ∧
    bpmOf (elapsed 0 20) ≤ 675 :=
  have h : bpmLoop alternating (CAP + 1) 0 0 (-1) = .ok (0, 20) := by decide!
  have c := C18_bpm_division_safe alternating 0 0 20 h
  ⟨h, c.1, c.2.1, c.2.2.2.2.1⟩

/-- C19, as amended: the DBP scan stays in bounds.  In every run that reaches the analysis
step, at tick `i`: `argmin ≤ i`, index `i` is inside the arrays and `pressure[i] < 30`; the
forward scan from `argmin` stops at an index `j` with `argmin ≤ j ≤ i`, every index before
`j` had a pressure above 50 and was not accepted, and the scan ends in exactly one of two
ways, left through the `break` at an accepted sample with pressure above 50, or left at a
pressure of at most 50, which is the condition of Test Fail.  The scan is performed when
the BPM scan before it completes (the BPM line has been displayed), and then the DBP line
shows accordingly either that pressure or "Test Fail!", not both. -/
theorem C19_dbp_scan_in_bounds (ps : List ℚ)
    (h : (⟨8, .finalResult⟩ : Event) ∈ (runP ps init).state.lcd) :
    (runP ps init).state.argmin ≤ (runP ps init).state.i ∧
    (runP ps init).state.i < CAP ∧
    (runP ps init).state.pressure (runP ps init).state.i < 30 ∧
    ∃ (j : Nat) (b : Bool),
      dbpScan (runP ps init).state.pressure (runP ps init).state.fluactuation
        (dp_flc (runP ps init).state.global_min) (CAP + 1) (runP ps init).state.argmin
        = .ok (j, b) ∧
      (runP ps init).state.argmin ≤ j ∧ j ≤ (runP ps init).state.i ∧
      (∀ k, (runP ps init).state.argmin ≤ k → k < j →
        (runP ps init).state.pressure k > 50 ∧
        ¬ dbpAccept (runP ps init).state.pressure (runP ps init).state.fluactuation
          (dp_flc (runP ps init).state.global_min) k) ∧
      (b = true → (runP ps init).state.pressure j > 50 ∧
        dbpAccept (runP ps init).state.pressure (runP ps init).state.fluactuation
          (dp_flc (runP ps init).state.global_min) j) ∧
      (b = false → (runP ps init).state.pressure j ≤ 50) ∧
      ((∃ n, (⟨9, .bpm n⟩ : Event) ∈ (runP ps init).state.lcd) →
        (b = true →
          (⟨10, .dbp ((runP ps init).state.pressure j)⟩ : Event) ∈ (runP ps init).state.lcd ∧
          (⟨10, .testFail⟩ : Event) ∉ (runP ps init).state.lcd) ∧
        (b = false →
          (⟨10, .testFail⟩ : Event) ∈ (runP ps init).state.lcd ∧
          ∀ d, (⟨10, .dbp d⟩ : Event) ∉ (runP ps init).state.lcd)) := by
  rcases run_outcome ps with ⟨s, hs, hinv⟩ | ⟨s, hs, _, hlog⟩ | ⟨s, hat, hs⟩
  · rw [hs] at h
    rcases hinv.log _ h with h1 | h1 | h1 <;> simp at h1
  · rw [hs] at h
    rcases hlog _ h with h1 | h1 | h1 <;> simp at h1
  · obtain ⟨j, b, hd, hj1, hj2⟩ := dbpScan_stops s.pressure s.fluactuation
      (dp_flc s.global_min) s.argmin s.i hat.argmin_le hat.i_lt
      (by have := hat.low; linarith)
    obtain ⟨_, _, hk, hb1, hb2⟩ := dbpScan_ok _ _ _ _ _ _ _ hd
    have hno10 : ∀ (x : Text), (⟨10, x⟩ : Event) ∉ s.lcd := by
      intro x hx
      rcases hat.log _ hx with h1 | h1 | h1 <;> simp at h1
    rw [hs]
    rcases analysis_cases s hat with ⟨_, ha⟩ | ⟨_, st, e, _, _, _, _, j1, b1, hd1, _, _, hcase⟩
    · rw [ha]
      refine ⟨hat.argmin_le, hat.i_lt, hat.low, j, b, hd, hj1, hj2, hk, hb1, hb2, ?_⟩
      rintro ⟨n, hn⟩
      have := mem_analysis_events _ _ _ hat.log hn (by simp)
      simp at this
    · rw [hd] at hd1
      have hjj : j1 = j := by
        have := Scan.ok.inj hd1
        exact (Prod.mk.inj this).1.symm
      have hbb : b1 = b := by
        have := Scan.ok.inj hd1
        exact (Prod.mk.inj this).2.symm
      subst hjj
      subst hbb
      have yes : b1 = true → ∀ (r : Step) (spv : ℚ) (t : List Event),
          r.state =
            { s with dp := s.pressure j1, sp := spv,
                     lcd := s.lcd ++ ([⟨8, .finalResult⟩, ⟨9, .bpm (bpmOf (elapsed st e))⟩,
                       ⟨10, .dbp (s.pressure j1)⟩] ++ t) } →
          (∀ x ∈ t, x.line = 11) →
          (b1 = true →
            (⟨10, .dbp (s.pressure j1)⟩ : Event) ∈ r.state.lcd ∧
            (⟨10, .testFail⟩ : Event) ∉ r.state.lcd) ∧
          (b1 = false →
            (⟨10, .testFail⟩ : Event) ∈ r.state.lcd ∧
            ∀ d, (⟨10, .dbp d⟩ : Event) ∉ r.state.lcd) := by
        intro hbt r spv t hr ht
        rw [hr]
        constructor
        · intro _
          refine ⟨by simp, ?_⟩
          intro hmem
          have := mem_analysis_events _ _ _ hat.log hmem (by simp)
          simp only [List.cons_append, List.nil_append, List.mem_cons] at this
          rcases this with h1 | h1 | h1 | h1
          · simp at h1
          · simp at h1
          · simp at h1
          · have := ht _ h1; simp at this
        · intro hb
          rw [hbt] at hb
          exact absurd hb (by decide)
      rcases hcase with ⟨hbf, ha⟩ | ⟨hbt, ⟨_, ha⟩ | ⟨j2, _, ha⟩ | ⟨j2, _, ha⟩⟩
      · rw [ha]
        refine ⟨hat.argmin_le, hat.i_lt, hat.low, j1, b1, hd, hj1, hj2, hk, hb1, hb2, ?_⟩
        intro _
        constructor
        · intro hb
          rw [hbf] at hb
          exact absurd hb (by decide)
        · intro _
          refine ⟨by simp [Step.state], ?_⟩
          intro d hmem
          have := mem_analysis_events _ _ _ hat.log hmem (by simp)
          simp at this
      · rw [ha]
        exact ⟨hat.argmin_le, hat.i_lt, hat.low, j1, b1, hd, hj1, hj2, hk, hb1, hb2,
          fun _ => yes hbt _ s.sp [] rfl (by simp)⟩
      · rw [ha]
        exact ⟨hat.argmin_le, hat.i_lt, hat.low, j1, b1, hd, hj1, hj2, hk, hb1, hb2,
          fun _ => yes hbt _ (s.pressure j2) [⟨11, .sbp (s.pressure j2)⟩] rfl (by simp)⟩
      · rw [ha]
        exact ⟨hat.argmin_le, hat.i_lt, hat.low, j1, b1, hd, hj1, hj2, hk, hb1, hb2,
          fun _ => yes hbt _ s.sp [⟨11, .testFail⟩] rfl (by simp)⟩

/-- C19: witness of `C19_dbp_scan_in_bounds` on the run `goodData`. -/
theorem C19_dbp_scan_in_bounds_witness :
    (⟨8, .finalResult⟩ : Event) ∈ (runP (goodData.map convertFloat) init).state.lcd ∧
    (runP (goodData.map convertFloat) init).state.argmin ≤ (runP (goodData.map convertFloat) init).state.i ∧
    (runP (goodData.map convertFloat) init).state.i < CAP :=
  have c := C19_dbp_scan_in_bounds (goodData.map convertFloat) (by decide!)
  ⟨by decide!, c.1, c.2.1⟩

/-- C19, counterexample: the run with pressures 160 and then 20 reaches the analysis step,
where `argmin = 0`; the BPM scan finds a single run of negative fluctuations and reads past
the end of the array, so the DBP scan is not performed: neither a DBP value nor
"Test Fail!" is displayed on the DBP line. -/
theorem C19_counterexample :
    (⟨8, .finalResult⟩ : Event) ∈ (runP [160, 20] init).state.lcd ∧
    (runP [160, 20] init).state.argmin = 0 ∧
    bpmLoop (runP [160, 20] init).state.fluactuation (CAP + 1)
      (runP [160, 20] init).state.argmin 0 (-1) = .fault ∧
    (runP [160, 20] init).isFault = true ∧
    (∀ e ∈ (runP [160, 20] init).state.lcd, e.line ≠ 10) := by
  decide!

/-- C17, as amended: the amplitude window `f < 0`, `f > flc * 1.2`, `f < flc * 0.8` has a
solution exactly when `flc < 0`, and so have the tests of both band searches; and in every
run that reaches the analysis step with `global_min ≥ 0` and whose BPM scan completes (the
BPM line is displayed), neither band search accepts any sample, "Test Fail!" is displayed
on the DBP line, the run ends there, and no DBP or SBP value is displayed. -/
theorem C17_window_satisfiable (ps : List ℚ)
    (hbpm : ∃ n, (⟨9, .bpm n⟩ : Event) ∈ (runP ps init).state.lcd)
    (hgm : 0 ≤ (runP ps init).state.global_min) :
    (∀ flc : ℚ, (∃ f : ℚ, f < 0 ∧ f > flc * 1.2 ∧ f < flc * 0.8) ↔ flc < 0) ∧
    (∀ flc : ℚ, (∃ (pr fl : Buf) (j : Nat), dbpAccept pr fl flc j) ↔ flc < 0) ∧
    (∀ flc : ℚ, (∃ (pr fl : Buf) (j : Nat), sbpAccept pr fl flc j) ↔ flc < 0) ∧
    (∀ j, ¬ dbpAccept (runP ps init).state.pressure (runP ps init).state.fluactuation
      ((runP ps init).state.global_min * 0.75) j) ∧
    (∀ j, ¬ sbpAccept (runP ps init).state.pressure (runP ps init).state.fluactuation
      ((runP ps init).state.global_min * 0.45) j) ∧
    (∀ j, ¬ DbpQualifies (runP ps init).state j ∧ ¬ SbpQualifies (runP ps init).state j) ∧
    (∀ j, ¬ dbpAccept (runP ps init).state.pressure (runP ps init).state.fluactuation
      (dp_flc (runP ps init).state.global_min) j) ∧
    (∀ j, ¬ sbpAccept (runP ps init).state.pressure (runP ps init).state.fluactuation
      (sp_flc (runP ps init).state.global_min) j) ∧
    (∀ j, ¬ DbpQualifiesExact (runP ps init).state j ∧
      ¬ SbpQualifiesExact (runP ps init).state j) ∧
    (⟨10, .testFail⟩ : Event) ∈ (runP ps init).state.lcd ∧
    (runP ps init).state.lcd.getLast? = some ⟨10, .testFail⟩ ∧
    (runP ps init).isHalt = true ∧
    (∀ d, (⟨10, .dbp d⟩ : Event) ∉ (runP ps init).state.lcd) ∧
    (∀ v, (⟨11, .sbp v⟩ : Event) ∉ (runP ps init).state.lcd) := by
  refine ⟨window_iff, ?_, ?_, ?_⟩
  · intro flc
    constructor
    · rintro ⟨pr, fl, j, h1, h2, h3, _⟩
      exact (window_float_iff flc).mp ⟨fl j, h1, h2, h3⟩
    · intro h
      obtain ⟨f, h1, h2, h3⟩ := (window_float_iff flc).mpr h
      exact ⟨fun _ => 70, fun _ => f, 0, h1, h2, h3, by norm_num, by norm_num⟩
  · intro flc
    constructor
    · rintro ⟨pr, fl, j, h1, h2, h3, _⟩
      exact (window_float_iff flc).mp ⟨fl j, h1, h2, h3⟩
    · intro h
      obtain ⟨f, h1, h2, h3⟩ := (window_float_iff flc).mpr h
      exact ⟨fun _ => 100, fun _ => f, 0, h1, h2, h3, by norm_num, by norm_num⟩
  have hd75 : 0 ≤ (runP ps init).state.global_min * 0.75 := mul_nonneg hgm (by norm_num)
  have hd45 : 0 ≤ (runP ps init).state.global_min * 0.45 := mul_nonneg hgm (by norm_num)
  have hdp := dp_flc_nonneg _ hgm
  have hsp := sp_flc_nonneg _ hgm
  refine ⟨fun j => (no_accept _ _ _ j hd75).1, fun j => (no_accept _ _ _ j hd45).2,
    fun j => ⟨(no_accept _ _ _ j hdp).1, (no_accept _ _ _ j hsp).2⟩,
    fun j => (no_accept _ _ _ j hdp).1, fun j => (no_accept _ _ _ j hsp).2, ?_, ?_⟩
  · intro j
    constructor
    · rintro ⟨h1, h2, _, _, _⟩
      nlinarith
    · rintro ⟨h1, h2, _, _, _⟩
      nlinarith
  obtain ⟨n, hn⟩ := hbpm
  rcases run_outcome ps with ⟨s, hs, hinv⟩ | ⟨s, hs, _, hlog⟩ | ⟨s, hat, hs⟩
  · rw [hs] at hn
    rcases hinv.log _ hn with h1 | h1 | h1 <;> simp at h1
  · rw [hs] at hn
    rcases hlog _ hn with h1 | h1 | h1 <;> simp at h1
  · obtain ⟨dpv, spv, t, hstate, _⟩ := analysis_state s hat
    have hg : 0 ≤ s.global_min := by
      rw [hs, hstate] at hgm
      exact hgm
    rw [hs] at hn ⊢
    rcases analysis_cases s hat with ⟨_, ha⟩ | ⟨_, st, e, _, _, _, _, j, b, hd, _, _, hcase⟩
    · rw [ha] at hn
      have := mem_analysis_events _ _ _ hat.log hn (by simp)
      simp at this
    · obtain ⟨_, _, _, hb1, _⟩ := dbpScan_ok _ _ _ _ _ _ _ hd
      have hbf : b = false := by
        cases b with
        | false => rfl
        | true =>
          exact absurd (hb1 rfl).2 (no_accept _ _ _ j (dp_flc_nonneg _ hg)).1
      have ha : analysis s = .halt { s with
            lcd := s.lcd ++ [⟨8, .finalResult⟩, ⟨9, .bpm (bpmOf (elapsed st e))⟩,
              ⟨10, .testFail⟩] } := by
        rcases hcase with ⟨_, ha⟩ | ⟨hbt, _⟩
        · exact ha
        · rw [hbf] at hbt
          exact absurd hbt (by decide)
      rw [ha]
      refine ⟨by simp [Step.state], by simp [Step.state], rfl, ?_, ?_⟩
      · intro d hmem
        have := mem_analysis_events _ _ _ hat.log hmem (by simp)
        simp at this
      · intro v hmem
        have := mem_analysis_events _ _ _ hat.log hmem (by simp)
        simp at this

/-- C17: witness of `C17_window_satisfiable` on the run `steadyData`, whose `global_min`
is 15 and whose BPM is 675. -/
theorem C17_window_satisfiable_witness :
    (⟨9, .bpm 675⟩ : Event) ∈ (runP steadyData init).state.lcd ∧
    0 ≤ (runP steadyData init).state.global_min ∧
    (⟨10, .testFail⟩ : Event) ∈ (runP steadyData init).state.lcd :=
  ⟨by decide!, by decide!,
    (C17_window_satisfiable steadyData ⟨675, by decide!⟩ (by decide!)).2.2.2.2.2.2.2.2.2.1⟩

/-- C17, counterexample: the run with pressures 175 and then 20 reaches the analysis step
with `global_min = 155`, which is not negative, yet "Test Fail!" is not displayed on the
DBP line: the BPM scan before the DBP search reads past the end of the array, and nothing
is displayed after "Final Result:". -/
theorem C17_counterexample :
    (⟨8, .finalResult⟩ : Event) ∈ (runP [175, 20] init).state.lcd ∧
    (runP [175, 20] init).state.global_min = 155 ∧
    0 ≤ (runP [175, 20] init).state.global_min ∧
    (⟨10, .testFail⟩ : Event) ∉ (runP [175, 20] init).state.lcd ∧
    (runP [175, 20] init).isFault = true ∧
    (runP [175, 20] init).state.lcd.getLast? = some ⟨8, .finalResult⟩ := by
  decide!

/-- C12: witness of `C12_envelope_tracks_minimum`: after the raw codes of the pressures
100, 149, 175, 100 the code of 101 is a tracked sample, with fluctuation about -1. -/
theorem C12_envelope_tracks_minimum_witness :
    (∀ x ∈ [1537908, 2085964, 2376770, 1537908] ++ [1549093], x < 2 ^ 24) ∧
    (run [1537908, 2085964, 2376770, 1537908]).isNext = true ∧
    ([1537908, 2085964, 2376770, 1537908] : List Nat).length < CAP ∧
    Tracked (([1537908, 2085964, 2376770, 1537908] ++ [1549093]).map convertFloat)
      ([1537908, 2085964, 2376770, 1537908] : List Nat).length ∧
    (run ([1537908, 2085964, 2376770, 1537908] ++ [1549093])).state.global_min < 100000 :=
  have htr : Tracked (([1537908, 2085964, 2376770, 1537908] ++ [1549093]).map convertFloat)
      ([1537908, 2085964, 2376770, 1537908] : List Nat).length :=
    ⟨by decide, ⟨2, by decide, by decide!⟩, by decide!⟩
  ⟨by decide, by decide!, by decide, htr,
    (C12_envelope_tracks_minimum [1537908, 2085964, 2376770, 1537908] 1549093 (by decide)
      (by decide!) (by decide) htr).2.1⟩

/-- C12, counterexample: with the raw codes of the pressures 100, 149, 175, 100, 101 the
loop is DEFLATING from the third sample on; the fourth and fifth samples are below 170,
their fluctuations are about 75 and about -1; after the fifth, `global_min` is the
fluctuation of the fifth sample, which is smaller than that of the fourth: it is not the
largest value seen on such ticks. -/
theorem C12_counterexample :
    (run [1537908, 2085964, 2376770]).state.inflate_flag = false ∧
    (run [1537908, 2085964, 2376770, 1537908, 1549093]).isNext = true ∧
    (run [1537908, 2085964, 2376770, 1537908, 1549093]).state.pressure 3 < 170 ∧
    (run [1537908, 2085964, 2376770, 1537908, 1549093]).state.pressure 4 < 170 ∧
    (run [1537908, 2085964, 2376770, 1537908, 1549093]).state.global_min =
      (run [1537908, 2085964, 2376770, 1537908, 1549093]).state.fluactuation 4 ∧
    (run [1537908, 2085964, 2376770, 1537908, 1549093]).state.global_min <
      (run [1537908, 2085964, 2376770, 1537908, 1549093]).state.fluactuation 3 ∧
    (run [1537908, 2085964, 2376770, 1537908, 1549093]).state.global_min < 0 ∧
    70 < (run [1537908, 2085964, 2376770, 1537908, 1549093]).state.fluactuation 3 := by
  decide!

/-- C15, as amended: in every run that reaches the analysis step with at least 10 runs of
negative fluctuations between `argmin` and the end of the recorded samples, the scan counts
ten successive runs of negative fluctuations, the first one being the first met from
`argmin` on and each further one the first met after the index that ended the one before;
`start_index` is the first index of the first run, `end_index` is one past the first
non-negative index that follows the tenth run, and the BPM displayed is
`(10 / ((end_index - start_index) * 0.04)) * 60 * 0.9` as computed in `float` and
`double` arithmetic and truncated, which is the whole part of
`13500 / (end_index - start_index)` or one less. -/
theorem C15_bpm_scan_semantics (ps : List ℚ)
    (h : (⟨8, .finalResult⟩ : Event) ∈ (runP ps init).state.lcd)
    (hruns : 10 ≤ negRuns (runP ps init).state.fluactuation (runP ps init).state.argmin
        (runP ps init).state.i) :
    ∃ (l : List (Nat × Nat)) (start : Int) (e : Nat),
      l.length = 10 ∧
      RunsFrom (runP ps init).state.fluactuation (runP ps init).state.argmin l ∧
      l.head?.map (fun r => (r.1 : Int)) = some start ∧
      l.getLast?.map (fun r => r.2 + 1) = some e ∧
      bpmLoop (runP ps init).state.fluactuation (CAP + 1) (runP ps init).state.argmin 0 (-1)
        = .ok (start, e) ∧
      (⟨9, .bpm (bpmOf (elapsed start e))⟩ : Event) ∈ (runP ps init).state.lcd ∧
      ⌊(13500 : ℚ) / (((e : Int) - start : Int) : ℚ)⌋ - 1 ≤ bpmOf (elapsed start e) ∧
      bpmOf (elapsed start e) ≤ ⌊(13500 : ℚ) / (((e : Int) - start : Int) : ℚ)⌋ := by
  rcases run_outcome ps with ⟨s, hs, hinv⟩ | ⟨s, hs, _, hlog⟩ | ⟨s, hat, hs⟩
  · rw [hs] at h
    rcases hinv.log _ h with h1 | h1 | h1 <;> simp at h1
  · rw [hs] at h
    rcases hlog _ h with h1 | h1 | h1 <;> simp at h1
  · obtain ⟨dpv, spv, t, hstate, _⟩ := analysis_state s hat
    have hfl : (runP ps init).state.fluactuation = s.fluactuation := by rw [hs, hstate]
    have ham : (runP ps init).state.argmin = s.argmin := by rw [hs, hstate]
    have hi : (runP ps init).state.i = s.i := by rw [hs, hstate]
    rw [hfl, ham, hi] at hruns
    rw [hfl, ham]
    obtain ⟨st, e, hb, _⟩ := (bpmLoop_spec s.fluactuation s.i hat.i_lt
      (fun k hk => by rw [hat.fl_zero k hk]; norm_num) (CAP + 1) s.argmin 0 (-1)
      (by omega) (by omega)).1 (by omega)
    obtain ⟨l, hl, hlen, _, hst, he⟩ :=
      runs_of_bpmLoop s.fluactuation (CAP + 1) s.argmin 0 (-1) st e (by omega) hb
    have hl10 : l.length = 10 := by omega
    have hne : l ≠ [] := by
      intro h0
      rw [h0] at hl10
      simp at hl10
    have hlt : st < (e : Int) := by
      have := (bpmLoop_ok_bounds s.fluactuation (CAP + 1) s.argmin st e hb).2
      omega
    obtain ⟨n1, n2⟩ := bpmOf_near st e hlt
    refine ⟨l, st, e, hl10, hl, ?_, ?_, hb, ?_, n1, n2⟩
    · rw [hst]; exact startOf_first l hne
    · rw [he]; exact scanEnd_last l s.argmin hne
    · rw [hs]; exact displayed_bpm s hat st e hb

/-- C15: witness of `C15_bpm_scan_semantics` on the run `goodData`. -/
theorem C15_bpm_scan_semantics_witness :
    (⟨8, .finalResult⟩ : Event) ∈ (runP (goodData.map convertFloat) init).state.lcd ∧
    10 ≤ negRuns (runP (goodData.map convertFloat) init).state.fluactuation
      (runP (goodData.map convertFloat) init).state.argmin
      (runP (goodData.map convertFloat) init).state.i ∧
    ∃ (l : List (Nat × Nat)) (start : Int) (e : Nat),
      l.length = 10 ∧
      bpmLoop (runP (goodData.map convertFloat) init).state.fluactuation (CAP + 1)
        (runP (goodData.map convertFloat) init).state.argmin 0 (-1) = .ok (start, e) :=
  ⟨by decide!, by decide!,
    let ⟨l, start, e, h1, _, _, _, h5, _⟩ :=
      C15_bpm_scan_semantics (goodData.map convertFloat) (by decide!) (by decide!)
    ⟨l, start, e, h1, h5⟩⟩

/-- C15, counterexample: the run `twoDownData` reaches the analysis step with ten runs of
negative fluctuations from `argmin = 4` on; the scan ends with `start_index = 4` and
`end_index = 34`, and the BPM displayed is 449, while the whole part of `13500 / 30` is
450.  The `float` nearest to `30 * 0.04` is above 1.2, the quotient `10 / time` rounds to
8738133 / 1048576, its product with 60 rounds to 16383999 / 32768, below 500, and the
product with 0.9 is below 450. -/
theorem C15_counterexample :
    (⟨8, .finalResult⟩ : Event) ∈ (runP twoDownData init).state.lcd ∧
    10 ≤ negRuns (runP twoDownData init).state.fluactuation (runP twoDownData init).state.argmin
      (runP twoDownData init).state.i ∧
    bpmLoop (runP twoDownData init).state.fluactuation (CAP + 1)
      (runP twoDownData init).state.argmin 0 (-1) = .ok (4, 34) ∧
    (⟨9, .bpm 449⟩ : Event) ∈ (runP twoDownData init).state.lcd ∧
    (∀ n, (⟨9, .bpm n⟩ : Event) ∈ (runP twoDownData init).state.lcd → n = 449) ∧
    ⌊(13500 : ℚ) / (34 - 4)⌋ = 450 ∧
    toFloat (10 / elapsed 4 34) = 8738133 / 1048576 ∧
    toFloat (toFloat (10 / elapsed 4 34) * 60) = 16383999 / 32768 ∧
    bpmOf (elapsed 4 34) = 449 := by
  refine ⟨by decide!, by decide!, by decide!, by decide!, ?_, ?_, by decide!, by decide!,
    by decide!⟩
  · have : (runP twoDownData init).state.lcd.filter (fun e => e.line = 9) = [⟨9, .bpm 449⟩] := by
      decide!
    intro n hn
    have hm : (⟨9, .bpm n⟩ : Event) ∈
        (runP twoDownData init).state.lcd.filter (fun e => e.line = 9) := by
      rw [List.mem_filter]
      exact ⟨hn, by simp⟩
    rw [this] at hm
    simpa using hm
  · norm_num [Int.floor_eq_iff]

/-- C13, as amended: let the fluctuations from `argmin` on be periodic over ten periods of
`P` samples with one run of negative fluctuations per period, of length `L` with
`0 < L < P`, `argmin` being sample `c` of its period (the fluctuation of `argmin + k` is
negative exactly when `(k + c) mod P < L`).  Then the scan starts at `argmin` when
`argmin` lies in a run and at the start of the next run otherwise, and it ends after a
span of `9 * P + L1 + 1` samples, where `L1` is the length of the first run it counts, the
`L - c` samples that remain of the run at `argmin`, or `L`; the BPM displayed is the one
computed from that span, the whole part of `13500 / (9 * P + L1 + 1)` or one less.  It
depends on the length of the run and on the place of `argmin` in it, and it is the whole
part of `1350 / P` or one less when `L1 = P - 1`. -/
theorem C13_periodic_bpm (ps : List ℚ) (P L c : Nat)
    (h : (⟨8, .finalResult⟩ : Event) ∈ (runP ps init).state.lcd)
    (hL : 0 < L) (hLP : L < P) (hc : c < P)
    (hneg : ∀ k, k < 10 * P → (k + c) % P < L →
      (runP ps init).state.fluactuation ((runP ps init).state.argmin + k) < 0)
    (hpos : ∀ k, k ≤ 10 * P → L ≤ (k + c) % P →
      ¬ (runP ps init).state.fluactuation ((runP ps init).state.argmin + k) < 0) :
    bpmLoop (runP ps init).state.fluactuation (CAP + 1) (runP ps init).state.argmin 0 (-1)
      = .ok ((((runP ps init).state.argmin + firstRunStart P L c : Nat) : Int),
          (runP ps init).state.argmin + firstRunStart P L c + 9 * P + firstRunLength L c + 1) ∧
    (⟨9, .bpm (bpmOf (elapsed (((runP ps init).state.argmin + firstRunStart P L c : Nat) : Int)
        (((runP ps init).state.argmin + firstRunStart P L c + 9 * P + firstRunLength L c + 1
          : Nat) : Int)))⟩ : Event) ∈ (runP ps init).state.lcd ∧
    ⌊(13500 : ℚ) / ((9 * P + firstRunLength L c + 1 : Nat) : ℚ)⌋ - 1 ≤
      bpmOf (elapsed (((runP ps init).state.argmin + firstRunStart P L c : Nat) : Int)
        (((runP ps init).state.argmin + firstRunStart P L c + 9 * P + firstRunLength L c + 1
          : Nat) : Int)) ∧
    bpmOf (elapsed (((runP ps init).state.argmin + firstRunStart P L c : Nat) : Int)
        (((runP ps init).state.argmin + firstRunStart P L c + 9 * P + firstRunLength L c + 1
          : Nat) : Int)) ≤
      ⌊(13500 : ℚ) / ((9 * P + firstRunLength L c + 1 : Nat) : ℚ)⌋ ∧
    (firstRunLength L c + 1 = P →
      ⌊(1350 : ℚ) / (P : ℚ)⌋ - 1 ≤
        bpmOf (elapsed (((runP ps init).state.argmin + firstRunStart P L c : Nat) : Int)
          (((runP ps init).state.argmin + firstRunStart P L c + 9 * P + firstRunLength L c + 1
            : Nat) : Int)) ∧
      bpmOf (elapsed (((runP ps init).state.argmin + firstRunStart P L c : Nat) : Int)
          (((runP ps init).state.argmin + firstRunStart P L c + 9 * P + firstRunLength L c + 1
            : Nat) : Int)) ≤
        ⌊(1350 : ℚ) / (P : ℚ)⌋) := by
  rcases run_outcome ps with ⟨s, hs, hinv⟩ | ⟨s, hs, _, hlog⟩ | ⟨s, hat, hs⟩
  · rw [hs] at h
    rcases hinv.log _ h with h1 | h1 | h1 <;> simp at h1
  · rw [hs] at h
    rcases hlog _ h with h1 | h1 | h1 <;> simp at h1
  · obtain ⟨dpv, spv, t, hstate, _⟩ := analysis_state s hat
    have hfl : (runP ps init).state.fluactuation = s.fluactuation := by rw [hs, hstate]
    have ham : (runP ps init).state.argmin = s.argmin := by rw [hs, hstate]
    rw [hfl, ham] at hneg hpos
    rw [hfl, ham]
    set g := firstRunStart P L c with hg
    set L1 := firstRunLength L c with hL1
    have hshape : (c < L ∧ g = 0 ∧ L1 = L - c) ∨ (L ≤ c ∧ g = P - c ∧ L1 = L) := by
      by_cases hcl : c < L
      · left
        exact ⟨hcl, by simp [hg, firstRunStart, hcl], by simp [hL1, firstRunLength, hcl]⟩
      · right
        exact ⟨not_lt.mp hcl, by simp [hg, firstRunStart, hcl],
          by simp [hL1, firstRunLength, hcl]⟩
    have hL1pos : 0 < L1 := by
      rcases hshape with ⟨h1, _, h3⟩ | ⟨_, _, h3⟩ <;> omega
    -- the fluctuations at the offsets from `argmin`, by phase
    have neg_at : ∀ (x k r q : Nat), x = s.argmin + k → k < 10 * P → r < L → k + c = r + q * P →
        s.fluactuation x < 0 := by
      intro x k r q hx hk hr hq
      rw [hx]
      exact hneg k hk (by rw [phase_eq P r q (k + c) (by omega) hq]; exact hr)
    have pos_at : ∀ (x k r q : Nat), x = s.argmin + k → k ≤ 10 * P → L ≤ r → r < P →
        k + c = r + q * P → ¬ s.fluactuation x < 0 := by
      intro x k r q hx hk hr hrP hq
      rw [hx]
      exact hpos k hk (by rw [phase_eq P r q (k + c) hrP hq]; exact hr)
    have hgap0 : ∀ k, k < g → ¬ s.fluactuation (s.argmin + k) < 0 := by
      intro k hk
      rcases hshape with ⟨h1, h2, h3⟩ | ⟨h1, h2, h3⟩
      · omega
      · exact pos_at _ k (k + c) 0 rfl (by omega) (by omega) (by omega) (by omega)
    have hrun0 : ∀ k, k < L1 → s.fluactuation (s.argmin + g + k) < 0 := by
      intro k hk
      rcases hshape with ⟨h1, h2, h3⟩ | ⟨h1, h2, h3⟩
      · exact neg_at _ k (k + c) 0 (by omega) (by omega) (by omega) (by omega)
      · exact neg_at _ (P - c + k) k 1 (by omega) (by omega) (by omega) (by omega)
    have hfirst : ∀ k, k < P - L → ¬ s.fluactuation (s.argmin + g + L1 + k) < 0 := by
      intro k hk
      rcases hshape with ⟨h1, h2, h3⟩ | ⟨h1, h2, h3⟩
      · exact pos_at _ (L - c + k) (L + k) 0 (by omega) (by omega) (by omega) (by omega)
          (by omega)
      · exact pos_at _ (P - c + L + k) (L + k) 1 (by omega) (by omega) (by omega) (by omega)
          (by omega)
    have hnegp : ∀ j, j < 9 → ∀ r, r < L →
        s.fluactuation (s.argmin + g + L1 + (P - L) + j * P + r) < 0 := by
      intro j hj r hr
      have e1 : (j + 1) * P = j * P + P := by ring
      have e2 : (j + 2) * P = j * P + 2 * P := by ring
      have e3 : j * P ≤ 8 * P := Nat.mul_le_mul_right P (by omega)
      rcases hshape with ⟨h1, h2, h3⟩ | ⟨h1, h2, h3⟩
      · exact neg_at _ (P - c + j * P + r) r (j + 1) (by omega) (by omega) hr (by omega)
      · exact neg_at _ (2 * P - c + j * P + r) r (j + 2) (by omega) (by omega) hr (by omega)
    have hgapp : ∀ j, j < 9 → ∀ r, r < P → L ≤ r → (j = 8 → r = L) →
        ¬ s.fluactuation (s.argmin + g + L1 + (P - L) + j * P + r) < 0 := by
      intro j hj r hr hLr hlast
      have e1 : (j + 1) * P = j * P + P := by ring
      have e2 : (j + 2) * P = j * P + 2 * P := by ring
      have e3 : j * P ≤ 8 * P := Nat.mul_le_mul_right P (by omega)
      have e4 : j ≤ 7 → j * P ≤ 7 * P := fun h7 => Nat.mul_le_mul_right P h7
      have hk10 : j * P + r ≤ 8 * P + L := by
        by_cases h8 : j = 8
        · have := hlast h8
          omega
        · have := e4 (by omega)
          omega
      rcases hshape with ⟨h1, h2, h3⟩ | ⟨h1, h2, h3⟩
      · exact pos_at _ (P - c + j * P + r) r (j + 1) (by omega) (by omega) hLr hr (by omega)
      · exact pos_at _ (2 * P - c + j * P + r) r (j + 2) (by omega) (by omega) hLr hr
          (by omega)
    have hcap : s.argmin + g + L1 + 9 * P < CAP := by
      have hlastneg := hnegp 8 (by omega) (L - 1) (by omega)
      have hlt : s.argmin + g + L1 + (P - L) + 8 * P + (L - 1) < s.i := by
        by_contra hcn
        rw [hat.fl_zero _ (by omega)] at hlastneg
        exact absurd hlastneg (by norm_num)
      have := hat.i_lt
      omega
    have hb := bpmLoop_first_then_periods s.fluactuation s.argmin g L1 P L hL1pos hL hLP
      hgap0 hrun0 hnegp hgapp hfirst hcap
    have hd : (((s.argmin + g + 9 * P + L1 + 1 : Nat) : Int) - ((s.argmin + g : Nat) : Int)
        : Int) = ((9 * P + L1 + 1 : Nat) : Int) := by
      push_cast
      ring
    obtain ⟨n1, n2⟩ := bpmOf_near ((s.argmin + g : Nat) : Int) (s.argmin + g + 9 * P + L1 + 1)
      (by push_cast; omega)
    rw [hd] at n1 n2
    have hcast : (((9 * P + L1 + 1 : Nat) : Int) : ℚ) = ((9 * P + L1 + 1 : Nat) : ℚ) :=
      Int.cast_natCast _
    rw [hcast] at n1 n2
    refine ⟨hb, ?_, n1, n2, ?_⟩
    · rw [hs]; exact displayed_bpm s hat _ _ hb
    · intro hP
      have hq : ((9 * P + L1 + 1 : Nat) : ℚ) = 10 * (P : ℚ) := by
        have : 9 * P + L1 + 1 = 10 * P := by omega
        rw [this]
        push_cast
        ring
      have hPpos : (0 : ℚ) < (P : ℚ) := by
        have : 0 < P := by omega
        exact_mod_cast this
      have hdiv : (13500 : ℚ) / (10 * (P : ℚ)) = 1350 / (P : ℚ) := by
        field_simp
        ring
      rw [hq, hdiv] at n1 n2
      exact ⟨n1, n2⟩

/-- C13: witness of `C13_periodic_bpm` on the run `midRunData`, with `P = 3`, `L = 2` and
`argmin = 5` the second sample of its run (`c = 1`): the span is 29 samples and the BPM
displayed is 465. -/
theorem C13_periodic_bpm_witness :
    (⟨8, .finalResult⟩ : Event) ∈ (runP midRunData init).state.lcd ∧
    (0 < 2 ∧ 2 < 3 ∧ 1 < 3) ∧
    (∀ k, k < 10 * 3 → (k + 1) % 3 < 2 →
      (runP midRunData init).state.fluactuation ((runP midRunData init).state.argmin + k) < 0) ∧
    (∀ k, k ≤ 10 * 3 → 2 ≤ (k + 1) % 3 →
      ¬ (runP midRunData init).state.fluactuation
        ((runP midRunData init).state.argmin + k) < 0) ∧
    (runP midRunData init).state.argmin = 5 ∧
    bpmLoop (runP midRunData init).state.fluactuation (CAP + 1)
      (runP midRunData init).state.argmin 0 (-1)
      = .ok ((((runP midRunData init).state.argmin + firstRunStart 3 2 1 : Nat) : Int),
          (runP midRunData init).state.argmin + firstRunStart 3 2 1 + 9 * 3 +
            firstRunLength 2 1 + 1) ∧
    firstRunStart 3 2 1 = 0 ∧ firstRunLength 2 1 = 1 ∧
    (⟨9, .bpm 465⟩ : Event) ∈ (runP midRunData init).state.lcd :=
  ⟨by decide!, ⟨by decide, by decide, by decide⟩, by decide!, by decide!, by decide!,
    (C13_periodic_bpm midRunData 3 2 1 (by decide!) (by decide) (by decide) (by decide)
      (by decide!) (by decide!)).1, by decide, by decide, by decide!⟩

/-- C13, counterexample: in the run `oneDownData` the fluctuations from `argmin = 4` on are
periodic with period 3 over ten periods, with one negative fluctuation per period; the BPM
displayed is 465, and `1350 / 3` is 450. -/
theorem C13_counterexample :
    (⟨8, .finalResult⟩ : Event) ∈ (runP oneDownData init).state.lcd ∧
    (runP oneDownData init).state.argmin = 4 ∧
    (∀ k, k < 30 →
      ((runP oneDownData init).state.fluactuation (4 + k) < 0 ↔ k % 3 = 0)) ∧
    (∀ k, k < 27 →
      (runP oneDownData init).state.fluactuation (4 + k + 3) =
        (runP oneDownData init).state.fluactuation (4 + k)) ∧
    (⟨9, .bpm 465⟩ : Event) ∈ (runP oneDownData init).state.lcd ∧
    ¬ |((465 : Int) : ℚ) - 1350 / 3| < 1 := by
  refine ⟨by decide!, by decide!, by decide!, by decide!, by decide!, ?_⟩
  norm_num [abs_lt]

end BPDevice
